import Mathlib

/-!
Token refresh coordination (`frontend-examples/token-manager.js`, with the
wrappers of `axios-interceptor.js`, `auto-refresh-token.js` and
`useAutoRefreshToken.js` in their own sections)

A shallow embedding of the `TokenManager` class.  Synchronous code is embedded
as functions on an explicit world state.  An `async` method is embedded as the
function that runs its synchronous prefix (up to its first suspension) plus the
continuations that run when the awaited promise settles; promises of the
manager are entries of two tables held in the world (`performs` for the
promises returned by `_performRefresh`, `procs` for the promises returned by
the public `async` methods).

Scheduling model: JavaScript is single threaded and cooperative.  One event is
one uninterrupted run of the event loop: either foreign code calling into the
manager, or the network settling a promise followed by the microtasks of the
manager that this settlement wakes.  Every expiry check reads the clock
itself: a call of `refreshAccessToken()` makes one reading, a call of
`getValidAccessToken()` up to three (`Readings`).

External to the repository and therefore parameters of the embedding:
* `decode s` is the value of `JSON.parse(atob(s.split('.')[1])).exp`, or `none`
  when evaluating that expression throws;
* the answers of `fetch` and of `response.json()` are supplied by events.
-/

namespace Digifor

/-! ## JavaScript values -/

/-- Values read from parsed JSON by a property access (`payload.exp`,
`data.status`): a missing property is `undefined`.  Strings, arrays and
objects in these positions are not modelled. -/
inductive JsVal where
  | undefined
  | null
  | bool (b : Bool)
  | num (n : Int)
deriving DecidableEq, Repr

/-- ECMAScript `ToNumber`; `none` stands for `NaN`. -/
def JsVal.toNumber : JsVal → Option Int
  | .undefined => none
  | .null => some 0
  | .bool b => some (if b then 1 else 0)
  | .num n => some n

/-- The comparison `v < now` where `now` is a number: a comparison with `NaN`
is false. -/
def jsLt (v : JsVal) (now : Int) : Bool :=
  match v.toNumber with
  | none => false
  | some n => decide (n < now)

/-- A token slot: `null`, `undefined` or a string. -/
inductive Tok where
  | undefined
  | null
  | str (s : String)
deriving DecidableEq, Repr

/-- JavaScript truthiness of a token slot (`!tok` is its negation): the empty
string, `null` and `undefined` are falsy. -/
def Tok.truthy : Tok → Bool
  | .str s => s != ""
  | _ => false

/-- The string that `localStorage.setItem` stores for a value (`String(v)`). -/
def Tok.toStr : Tok → String
  | .undefined => "undefined"
  | .null => "null"
  | .str s => s

/-- Thrown values: `new Error(message)` and engine `TypeError`s. -/
inductive JsErr where
  | error (message : String)
  | typeError (message : String)
deriving DecidableEq, Repr

/-- The `message` property of a thrown value. -/
def JsErr.message : JsErr → String
  | .error m => m
  | .typeError m => m

/-- The object `data.data` of the backend envelope. -/
structure TokenData where
  access_token : Tok
  refresh_token : Tok
deriving DecidableEq, Repr

/-- The parsed JSON envelope `{status, data, message}`. -/
structure Envelope where
  status : JsVal
  data : Option TokenData
  message : Option String
deriving DecidableEq, Repr

/-- Fulfilment values of the manager's promises. -/
inductive Val where
  | data (d : TokenData)
  | tok (t : Tok)
deriving DecidableEq, Repr

/-- A settled promise. -/
inductive Settled where
  | fulfilled (v : Val)
  | rejected (e : JsErr)
deriving DecidableEq, Repr

/-! ## State -/

/-- Fields of a `TokenManager` instance (`baseURL` is a constant). -/
structure TokenManager where
  accessToken : Tok
  refreshToken : Tok
  refreshPromise : Option Nat
deriving DecidableEq, Repr

/-- The two keys of `localStorage` that the manager uses. -/
structure LocalStorage where
  access_token : Option String
  refresh_token : Option String
deriving DecidableEq, Repr

/-- Where an invocation of `_performRefresh` stands. -/
inductive Phase where
  | awaitFetch
  | awaitJson
  | settled (o : Settled)
deriving DecidableEq, Repr

/-- One invocation of `_performRefresh`: the `refresh_token` it put in the body
of its `fetch` to `/refresh`, and its progress.  Each entry is one transport
refresh call; the index of the entry names the promise it returned. -/
structure Perform where
  body : Tok
  phase : Phase
deriving DecidableEq, Repr

/-- One invocation of a public `async` method; the index names its promise.
`done o`: the promise has settled with `o`.  `ratInit p`: `refreshAccessToken`
is suspended at `await this.refreshPromise` (line 81) on the promise `p` that
it created.  `ratAttached p`: `refreshAccessToken` returned the promise `p`
that was in flight (line 70), so its own promise follows `p`.  `gvat c`:
`getValidAccessToken` is suspended at line 130 on the promise `c` of its call
of `refreshAccessToken`. -/
inductive Proc where
  | done (o : Settled)
  | ratInit (p : Nat)
  | ratAttached (p : Nat)
  | gvat (c : Nat)
deriving DecidableEq, Repr

/-- The manager together with its environment. -/
structure World where
  tm : TokenManager
  storage : LocalStorage
  performs : List Perform
  procs : List Proc
deriving DecidableEq, Repr

/-! ## Synchronous methods -/

/-- The method `setTokens(accessToken, refreshToken)` (lines 17-22). -/
def setTokens (w : World) (accessToken refreshToken : Tok) : World :=
  { w with
    tm := { w.tm with accessToken := accessToken, refreshToken := refreshToken }
    storage := { access_token := some accessToken.toStr
                 refresh_token := some refreshToken.toStr } }

/-- The method `clearTokens()` (lines 27-32); `refreshPromise` is not touched. -/
def clearTokens (w : World) : World :=
  { w with
    tm := { w.tm with accessToken := .null, refreshToken := .null }
    storage := { access_token := none, refresh_token := none } }

/-- The method `isAccessTokenExpired()` (lines 37-47), with the clock reading
`now` (`Math.floor(Date.now() / 1000)`): `true` for a falsy token, `true` from
the `catch`, else `payload.exp < now`. -/
def isAccessTokenExpired (decode : String → Option JsVal) (tm : TokenManager)
    (now : Int) : Bool :=
  if !tm.accessToken.truthy then true
  else
    match tm.accessToken with
    | .str s =>
      match decode s with
      | some exp => jsLt exp now
      | none => true
    | _ => true

/-- The method `isRefreshTokenExpired()` (lines 52-62), with the clock reading
`now`. -/
def isRefreshTokenExpired (decode : String → Option JsVal) (tm : TokenManager)
    (now : Int) : Bool :=
  if !tm.refreshToken.truthy then true
  else
    match tm.refreshToken with
    | .str s =>
      match decode s with
      | some exp => jsLt exp now
      | none => true
    | _ => true

/-! ## Asynchronous methods -/

/-- The answer of `fetch`: a rejection (network error) or a response with its
HTTP status. -/
inductive FetchReply where
  | networkError (e : JsErr)
  | response (status : Nat)
deriving DecidableEq, Repr

/-- The property `response.ok` (status in the range 200 to 299). -/
def httpOk (status : Nat) : Bool :=
  decide (200 ≤ status ∧ status ≤ 299)

/-- The answer of `response.json()`: a rejection, or the parsed value; `none`
is a parsed value on which a property access throws (`null`). -/
inductive JsonReply where
  | parseError (e : JsErr)
  | parsed (data : Option Envelope)
deriving DecidableEq, Repr

/-- Appends the promise of a new invocation of a public method. -/
def pushProc (w : World) (pr : Proc) : World :=
  { w with procs := w.procs ++ [pr] }

/-- The synchronous prefix of `_performRefresh()` (lines 91-101): the `fetch`
to `/refresh` is issued with the current refresh token and the method suspends
on it.  The new promise is the index `w.performs.length`. -/
def performRefreshStart (w : World) : World :=
  { w with performs := w.performs ++ [{ body := w.tm.refreshToken, phase := .awaitFetch }] }

/-- The synchronous prefix of `refreshAccessToken()` (lines 67-81), up to
`await this.refreshPromise`.  The promise of the call is the index
`w.procs.length`. -/
def refreshAccessToken (decode : String → Option JsVal) (now : Int) (w : World) : World :=
  match w.tm.refreshPromise with
  | some p =>
    -- `return this.refreshPromise`: the promise of the call is resolved with it
    match w.performs[p]? with
    | some { body := _, phase := .settled o } => pushProc w (.done o)
    | _ => pushProc w (.ratAttached p)
  | none =>
    if !w.tm.refreshToken.truthy || isRefreshTokenExpired decode w.tm now then
      pushProc (clearTokens w)
        (.done (.rejected (.error "Refresh token expired or not available")))
    else
      let p := w.performs.length
      let w1 := performRefreshStart w
      pushProc { w1 with tm := { w1.tm with refreshPromise := some p } } (.ratInit p)

/-- The clock readings (`Math.floor(Date.now() / 1000)`) that one call of
`getValidAccessToken()` can make: `access` in `isAccessTokenExpired()` called
at line 125, `refresh` in `isRefreshTokenExpired()` called at line 126, and
`start` in `isRefreshTokenExpired()` called at line 73 by the
`refreshAccessToken()` of line 130.  The three may differ. -/
structure Readings where
  access : Int
  refresh : Int
  start : Int
deriving DecidableEq, Repr

/-- The readings of a call during which the clock shows one second. -/
def Readings.same (now : Int) : Readings :=
  { access := now, refresh := now, start := now }

/-- The synchronous prefix of `getValidAccessToken()` (lines 124-134), up to
`await this.refreshAccessToken()`; when that call has already settled, the
continuation runs at once.  The promise of the call is the last entry of
`procs` afterwards. -/
def getValidAccessToken (decode : String → Option JsVal) (t : Readings) (w : World) : World :=
  if !w.tm.accessToken.truthy || isAccessTokenExpired decode w.tm t.access then
    if isRefreshTokenExpired decode w.tm t.refresh then
      pushProc w (.done (.rejected (.error "Both tokens expired. Please login again.")))
    else
      let c := w.procs.length
      let w1 := refreshAccessToken decode t.start w
      match w1.procs[c]? with
      | some (.done (.fulfilled _)) => pushProc w1 (.done (.fulfilled (.tok w1.tm.accessToken)))
      | some (.done (.rejected e)) => pushProc w1 (.done (.rejected e))
      | _ => pushProc w1 (.gvat c)
  else
    pushProc w (.done (.fulfilled (.tok w.tm.accessToken)))

/-- Records a new phase for the invocation `p` of `_performRefresh`. -/
def setPhase : List Perform → Nat → Phase → List Perform
  | [], _, _ => []
  | pf :: rest, 0, ph => { pf with phase := ph } :: rest
  | pf :: rest, p + 1, ph => pf :: setPhase rest p ph

/-- Continuation of `refreshAccessToken()` when the promise `p` settles with
`o`: the call that awaits `p` (line 81) returns or rethrows, and a call that
returned `p` follows it. -/
def wakeRefresh (p : Nat) (o : Settled) : Proc → Proc
  | .ratInit q => if q = p then .done o else .ratInit q
  | .ratAttached q => if q = p then .done o else .ratAttached q
  | pr => pr

/-- Continuation of `getValidAccessToken()` after `await
this.refreshAccessToken()`: `return this.accessToken`, or the rejection. -/
def wakeGetValid (procs : List Proc) (accessToken : Tok) : Proc → Proc
  | .gvat c =>
    match procs[c]? with
    | some (.done (.fulfilled _)) => .done (.fulfilled (.tok accessToken))
    | some (.done (.rejected e)) => .done (.rejected e)
    | _ => .gvat c
  | pr => pr

/-- The promise `p` of `_performRefresh` settles with `o`, and the microtasks
it wakes run: the `finally` of the call of `refreshAccessToken` that awaits `p`
resets `refreshPromise`, then the callers of `getValidAccessToken` resume. -/
def settlePerform (w : World) (p : Nat) (o : Settled) : World :=
  let tm : TokenManager :=
    if w.procs.any (fun pr => pr == .ratInit p) then { w.tm with refreshPromise := none }
    else w.tm
  let procs1 := w.procs.map (wakeRefresh p o)
  { w with
    tm := tm
    performs := setPhase w.performs p (.settled o)
    procs := procs1.map (wakeGetValid procs1 tm.accessToken) }

/-- The `catch` block of `_performRefresh()` (lines 115-118): `clearTokens()`,
then rethrow. -/
def performRefreshCatch (w : World) (p : Nat) (e : JsErr) : World :=
  settlePerform (clearTokens w) p (.rejected e)

/-- Continuation of `_performRefresh()` when its `fetch` settles (lines
103-107). -/
def performRefreshFetched (w : World) (p : Nat) (r : FetchReply) : World :=
  match r with
  | .networkError e => performRefreshCatch w p e
  | .response status =>
    if !httpOk status then
      performRefreshCatch w p (.error ("Refresh failed: " ++ toString status))
    else
      { w with performs := setPhase w.performs p .awaitJson }

/-- The expression `message || fallback` for an optional string `message`. -/
def jsOr (message : Option String) (fallback : String) : String :=
  match message with
  | some m => if m != "" then m else fallback
  | none => fallback

/-- Continuation of `_performRefresh()` when `response.json()` settles (lines
107-114). -/
def performRefreshParsed (w : World) (p : Nat) (r : JsonReply) : World :=
  match r with
  | .parseError e => performRefreshCatch w p e
  | .parsed none =>
    performRefreshCatch w p (.typeError "Cannot read properties of null (reading 'status')")
  | .parsed (some data) =>
    if data.status = .num 200 then
      match data.data with
      | some d =>
        settlePerform (setTokens w d.access_token d.refresh_token) p (.fulfilled (.data d))
      | none =>
        performRefreshCatch w p
          (.typeError "Cannot read properties of undefined (reading 'access_token')")
    else
      performRefreshCatch w p (.error (jsOr data.message "Refresh failed"))

/-! ## Event loop -/

/-- One uninterrupted run of the event loop. -/
inductive Event where
  | callRefresh (now : Int)
  | callGetValid (t : Readings)
  | callClear
  | callSetTokens (accessToken refreshToken : Tok)
  | fetchSettles (p : Nat) (r : FetchReply)
  | jsonSettles (p : Nat) (r : JsonReply)
deriving DecidableEq, Repr

/-- The phase of the invocation `p` of `_performRefresh`, if it exists. -/
def phaseOf (w : World) (p : Nat) : Option Phase :=
  (w.performs[p]?).map (fun pf => pf.phase)

/-- The effect of one event.  A network answer for a promise that is not
waiting for it does nothing. -/
def step (decode : String → Option JsVal) (w : World) : Event → World
  | .callRefresh now => refreshAccessToken decode now w
  | .callGetValid t => getValidAccessToken decode t w
  | .callClear => clearTokens w
  | .callSetTokens a r => setTokens w a r
  | .fetchSettles p r =>
    if phaseOf w p = some .awaitFetch then performRefreshFetched w p r else w
  | .jsonSettles p r =>
    if phaseOf w p = some .awaitJson then performRefreshParsed w p r else w

/-- The effect of a sequence of events. -/
def run (decode : String → Option JsVal) (w : World) (es : List Event) : World :=
  es.foldl (step decode) w

/-- The outcome of the call whose promise is `i`, once it has settled. -/
def outcome (w : World) (i : Nat) : Option Settled :=
  match w.procs[i]? with
  | some (.done o) => some o
  | _ => none

/-- The promise that a call of `refreshAccessToken()` made in the state `w`
awaits: the one in flight, or else the one that the call creates. -/
def awaited (w : World) : Nat :=
  match w.tm.refreshPromise with
  | some q => q
  | none => w.performs.length

/-- Whether the event is a call of `refreshAccessToken()`. -/
def Event.isRefreshCall : Event → Bool
  | .callRefresh _ => true
  | _ => false

/-- The events that may occur between the start of the refresh `p` and its
settlement without settling it: further calls of `refreshAccessToken()`, and
the arrival of the HTTP success response of `p`. -/
def Event.joins (p : Nat) : Event → Bool
  | .callRefresh _ => true
  | .fetchSettles q (.response status) => q == p && httpOk status
  | _ => false

/-- The refresh `p` is in flight and pending, and every promise of `procs` from
the index `base` on belongs to a call of `refreshAccessToken()` that waits for
`p`. -/
def Joined (base p : Nat) (v : World) : Prop :=
  v.tm.refreshPromise = some p ∧
  (phaseOf v p = some .awaitFetch ∨ phaseOf v p = some .awaitJson) ∧
  ∀ i, base ≤ i → i < v.procs.length →
    (v.procs[i]? = some (.ratInit p) ∨ v.procs[i]? = some (.ratAttached p))

/-- Both tokens are `null` and both storage keys are removed. -/
abbrev Cleared (w : World) : Prop :=
  w.tm.accessToken = .null ∧ w.tm.refreshToken = .null ∧
    w.storage = { access_token := none, refresh_token := none }

/-- The refresh tokens sent to `/refresh`, one per transport refresh call. -/
def transportLog (w : World) : List Tok :=
  w.performs.map (fun pf => pf.body)

/-! ## Fixtures for the examples -/

/-- A decoder for the examples: the token `"exp<n>"` carries `exp = n`, the
token `"noexp"` decodes to a payload without `exp`, anything else does not
decode. -/
def demoDecode : String → Option JsVal
  | "exp100" => some (.num 100)
  | "exp200" => some (.num 200)
  | "exp900" => some (.num 900)
  | "noexp" => some .undefined
  | _ => none

/-- An idle manager that holds nothing. -/
def emptyWorld : World :=
  { tm := { accessToken := .null, refreshToken := .null, refreshPromise := none }
    storage := { access_token := none, refresh_token := none }
    performs := []
    procs := [] }

/-- An idle manager that holds the given pair, persisted. -/
def demoWorld (a r : String) : World :=
  setTokens emptyWorld (.str a) (.str r)

/-- A successful refresh envelope carrying the pair `(a, r)`. -/
def demoEnvelope (a r : String) : Envelope :=
  { status := .num 200
    data := some { access_token := .str a, refresh_token := .str r }
    message := none }

/-! ## Wrapped requests

`TokenManager.authenticatedRequest` (token-manager.js, lines 139-169) and the
interceptors of the axios client (axios-interceptor.js, lines 18-60).  The
transport of the wrapped request is external: its answers are supplied by
actions.  Of axios itself the embedding uses its documented behaviour: a
response with a status from 200 to 299 resolves, any other status rejects with
an error carrying `error.response.status`, a failure without a response rejects
with an error whose `response` is undefined, and the `config` of a request that
is sent again keeps the `_retry` property. -/

/-- The expression `s.includes(sub)`. -/
def jsIncludes (s sub : String) : Bool :=
  s.toList.tails.any (fun t => sub.toList.isPrefixOf t)

/-- How a wrapped request ends for its caller: a response is returned, or the
promise rejects with an axios error that carries a response status, or it
rejects with another thrown value. -/
inductive ReqResult where
  | response (status : Nat)
  | httpError (status : Nat)
  | thrown (e : JsErr)
deriving DecidableEq, Repr

/-- One logical request; the index names it.  `done r`: finished with `r`.
`areqToken g`: `authenticatedRequest` is suspended at
`await this.getValidAccessToken()` (line 141) on the promise `g`.  `areqFetch`:
`authenticatedRequest` is suspended at `await fetch(url, ...)` (line 152).
`axFirst`: the first attempt of an axios request is with the transport
(`_retry` unset).  `axRefresh k`: the response interceptor is suspended at
`await tokenManager.refreshAccessToken()` (line 45) on the promise `k`.
`axRetry`: the attempt sent again by line 49 is with the transport (`_retry`
is true). -/
inductive Req where
  | done (r : ReqResult)
  | areqToken (g : Nat)
  | areqFetch
  | axFirst
  | axRefresh (k : Nat)
  | axRetry
deriving DecidableEq, Repr

/-- One transport attempt of a wrapped request, with its `Authorization`
header (`none` when the header is not set). -/
structure Attempt where
  req : Nat
  authorization : Option String
deriving DecidableEq, Repr

/-- The manager with the requests wrapped around it; `location` is the value
assigned to `window.location.href`, if any. -/
structure Client where
  w : World
  reqs : List Req
  attempts : List Attempt
  location : Option String
deriving DecidableEq, Repr

/-- A client that has sent no request yet. -/
def Client.init (w : World) : Client :=
  { w := w, reqs := [], attempts := [], location := none }

/-- The `catch` block of `authenticatedRequest` (lines 161-168). -/
def authenticatedRequestCatch (c : Client) (i : Nat) (e : JsErr) : Client :=
  if jsIncludes e.message "Both tokens expired" then
    { c with
      w := clearTokens c.w
      location := some "/login"
      reqs := c.reqs.set i (.done (.thrown e)) }
  else
    { c with reqs := c.reqs.set i (.done (.thrown e)) }

/-- Lines 143-152 of `authenticatedRequest`: the request is sent with
`Authorization: Bearer <token>`, and the method suspends on the `fetch`. -/
def authenticatedRequestSend (c : Client) (i : Nat) (token : Tok) : Client :=
  { c with
    attempts := c.attempts ++ [{ req := i, authorization := some ("Bearer " ++ token.toStr) }]
    reqs := c.reqs.set i .areqFetch }

/-- Continuation of `authenticatedRequest` at line 141, once the promise `g` of
`getValidAccessToken()` has settled (that promise resolves with a token). -/
def authenticatedRequestResume (c : Client) (i g : Nat) : Client :=
  match outcome c.w g with
  | some (.fulfilled (.tok token)) => authenticatedRequestSend c i token
  | some (.rejected e) => authenticatedRequestCatch c i e
  | _ => c

/-- A call of `authenticatedRequest(url, options)`, with the clock readings of
its call of `getValidAccessToken()`.  The request is the index
`c.reqs.length`. -/
def authenticatedRequest (decode : String → Option JsVal) (t : Readings) (c : Client) : Client :=
  let w1 := getValidAccessToken decode t c.w
  authenticatedRequestResume { c with w := w1, reqs := c.reqs ++ [.areqToken (w1.procs.length - 1)] }
    c.reqs.length (w1.procs.length - 1)

/-- Continuation of `authenticatedRequest` when its `fetch` settles (lines
152-168). -/
def authenticatedRequestFetched (c : Client) (i : Nat) (r : FetchReply) : Client :=
  match r with
  | .networkError e => authenticatedRequestCatch c i e
  | .response status =>
    if status = 401 then
      authenticatedRequestCatch { c with w := clearTokens c.w } i
        (.error "Authentication failed. Please login again.")
    else
      { c with reqs := c.reqs.set i (.done (.response status)) }

/-- The request interceptor (axios-interceptor.js, lines 18-25), as a function
of the `Authorization` header of the config. -/
def requestInterceptor (decode : String → Option JsVal) (now : Int) (tm : TokenManager)
    (authorization : Option String) : Option String :=
  if tm.accessToken.truthy && !isAccessTokenExpired decode tm now then
    some ("Bearer " ++ tm.accessToken.toStr)
  else authorization

/-- The call `apiClient(config)`: the request interceptor runs and the attempt
goes to the transport; the request `i` is then in the state `st`. -/
def axiosSend (decode : String → Option JsVal) (now : Int) (c : Client) (i : Nat)
    (authorization : Option String) (st : Req) : Client :=
  { c with
    attempts := c.attempts ++
      [{ req := i, authorization := requestInterceptor decode now c.w.tm authorization }]
    reqs := c.reqs.set i st }

/-- A request through the axios client (`apiClient.get(...)` and the like).
The request is the index `c.reqs.length`. -/
def axiosRequest (decode : String → Option JsVal) (now : Int) (c : Client) : Client :=
  axiosSend decode now { c with reqs := c.reqs ++ [.axFirst] } c.reqs.length none .axFirst

/-- The `catch` block of the response interceptor (lines 50-55). -/
def interceptorCatch (c : Client) (i : Nat) (e : JsErr) : Client :=
  { c with
    w := clearTokens c.w
    location := some "/login"
    reqs := c.reqs.set i (.done (.thrown e)) }

/-- Continuation of the response interceptor at line 45, once the promise `k`
of `refreshAccessToken()` has settled: lines 48-49 set the header and send the
request again, or the `catch` block runs. -/
def interceptorResume (decode : String → Option JsVal) (now : Int) (c : Client)
    (i k : Nat) : Client :=
  match outcome c.w k with
  | some (.fulfilled _) =>
    axiosSend decode now c i (some ("Bearer " ++ c.w.tm.accessToken.toStr)) .axRetry
  | some (.rejected e) => interceptorCatch c i e
  | none => c

/-- The error handler of the response interceptor (lines 36-59) for the
request `i`, whose `_retry` flag is `retry`. -/
def responseErrorInterceptor (decode : String → Option JsVal) (now : Int) (c : Client)
    (i : Nat) (retry : Bool) (r : FetchReply) : Client :=
  match r with
  | .response status =>
    if status = 401 && !retry then
      interceptorResume decode now
        { c with
          w := refreshAccessToken decode now c.w
          reqs := c.reqs.set i (.axRefresh c.w.procs.length) }
        i c.w.procs.length
    else
      { c with reqs := c.reqs.set i (.done (.httpError status)) }
  | .networkError e => { c with reqs := c.reqs.set i (.done (.thrown e)) }

/-- An attempt of the axios request `i` is answered: the response interceptor
returns a response with an ok status (lines 33-35), its error handler takes
every other answer. -/
def axiosSettled (decode : String → Option JsVal) (now : Int) (c : Client)
    (i : Nat) (retry : Bool) (r : FetchReply) : Client :=
  match r with
  | .response status =>
    if httpOk status then { c with reqs := c.reqs.set i (.done (.response status)) }
    else responseErrorInterceptor decode now c i retry r
  | .networkError _ => responseErrorInterceptor decode now c i retry r

/-- One uninterrupted run of the event loop of the client. -/
inductive Action where
  | manager (ev : Event)
  | callAuthenticated (t : Readings)
  | callAxios
  | requestSettles (i : Nat) (r : FetchReply)
deriving DecidableEq, Repr

/-- The request `i` resumes if it is suspended on a promise of the manager. -/
def wakeReq (decode : String → Option JsVal) (now : Int) (c : Client) (i : Nat) : Client :=
  match c.reqs[i]? with
  | some (.areqToken g) => authenticatedRequestResume c i g
  | some (.axRefresh k) => interceptorResume decode now c i k
  | _ => c

/-- The microtasks of the wrapped requests after an event of the manager. -/
def wakeReqs (decode : String → Option JsVal) (now : Int) (c : Client) : Client :=
  (List.range c.reqs.length).foldl (wakeReq decode now) c

/-- The effect of one action, with the clock reading `now`. -/
def cstep (decode : String → Option JsVal) (now : Int) (c : Client) : Action → Client
  | .manager ev => wakeReqs decode now { c with w := step decode c.w ev }
  | .callAuthenticated t => authenticatedRequest decode t c
  | .callAxios => axiosRequest decode now c
  | .requestSettles i r =>
    match c.reqs[i]? with
    | some .areqFetch => authenticatedRequestFetched c i r
    | some .axFirst => axiosSettled decode now c i false r
    | some .axRetry => axiosSettled decode now c i true r
    | _ => c

/-- The effect of a sequence of actions, each with its clock reading. -/
def crun (decode : String → Option JsVal) (c : Client) (acts : List (Int × Action)) : Client :=
  acts.foldl (fun c a => cstep decode a.1 c a.2) c

/-- The number of transport attempts made for the request `i`. -/
def attemptsOf (c : Client) (i : Nat) : Nat :=
  c.attempts.countP (fun a => a.req == i)

/-- The result of the request `i`, once it has finished. -/
def result (c : Client) (i : Nat) : Option ReqResult :=
  match c.reqs[i]? with
  | some (.done r) => some r
  | _ => none

/-- The number of transport attempts that a request in the given state can
have made. -/
def Req.budget : Req → Nat
  | .areqToken _ => 0
  | .areqFetch => 1
  | .axFirst => 1
  | .axRefresh _ => 1
  | .axRetry => 2
  | .done _ => 2

/-- Every request has made at most the attempts its state allows, and no
attempt belongs to a request that does not exist. -/
def Budgeted (reqs : List Req) (attempts : List Attempt) : Prop :=
  ∀ i, attempts.countP (fun a => a.req == i) ≤
    match reqs[i]? with
    | some st => st.budget
    | none => 0

/-! ## `login` and reachable states -/

/-- The answer of the backend to `login`: the `fetch` to `/token` rejects, or
`response.json()` settles. -/
inductive LoginReply where
  | networkError (e : JsErr)
  | json (r : JsonReply)
deriving DecidableEq, Repr

/-- The method `login(username, password)` (token-manager.js, lines 174-195)
for the answer of the backend.  The method touches the manager only in its last
continuation (the `setTokens` of line 187), which makes its effect on the state
one step; `response.ok` is not checked.  The second component is the outcome:
the envelope returned, or the error thrown. -/
def login (w : World) (r : LoginReply) : World × Except JsErr Envelope :=
  match r with
  | .networkError e => (w, .error e)
  | .json (.parseError e) => (w, .error e)
  | .json (.parsed none) =>
    (w, .error (.typeError "Cannot read properties of null (reading 'status')"))
  | .json (.parsed (some data)) =>
    if data.status = .num 200 then
      match data.data with
      | some d => (setTokens w d.access_token d.refresh_token, .ok data)
      | none =>
        (w, .error (.typeError "Cannot read properties of undefined (reading 'access_token')"))
    else
      (w, .error (.error (jsOr data.message "Login failed")))

/-- One operation on the manager: an event of the event loop, or a `login`
that is answered. -/
inductive Op where
  | event (ev : Event)
  | login (r : LoginReply)
deriving DecidableEq, Repr

/-- The effect of one operation. -/
def opStep (decode : String → Option JsVal) (w : World) : Op → World
  | .event ev => step decode w ev
  | .login r => (login w r).1

/-- The effect of a sequence of operations. -/
def opRun (decode : String → Option JsVal) (w : World) (ops : List Op) : World :=
  ops.foldl (opStep decode) w

/-- Both tokens are present (truthy) or both are absent. -/
abbrev Paired (accessToken refreshToken : Tok) : Prop :=
  accessToken.truthy = refreshToken.truthy

/-- The parsed body, if it carries a pair, carries a complete or an empty one. -/
def JsonReply.paired : JsonReply → Bool
  | .parsed (some data) =>
    match data.data with
    | some d => d.access_token.truthy == d.refresh_token.truthy
    | none => true
  | _ => true

/-- The pair that the operation hands to `setTokens`, if any, is complete or
empty: the arguments of a direct call, the `data` of a refresh envelope, the
`data` of a login envelope. -/
def Op.paired : Op → Bool
  | .event (.callSetTokens a r) => a.truthy == r.truthy
  | .event (.jsonSettles _ r) => r.paired
  | .login (.json r) => r.paired
  | _ => true

/-! ## `AutoRefreshTokenManager.request` (auto-refresh-token.js) -/

/-- Fields of an `AutoRefreshTokenManager` instance (lines 7-13; `baseURL` is a
constant), with the two keys of `localStorage`. -/
structure AutoRefreshTokenManager where
  accessToken : Tok
  refreshToken : Tok
  isRefreshing : Bool
  failedQueue : List Nat
  storage : LocalStorage
deriving DecidableEq, Repr

/-- The values of `response.headers.get(...)` for the three headers that the
server uses to announce a refresh (`null` when a header is missing). -/
structure RefreshHeaders where
  tokenRefreshed : Tok
  newAccessToken : Tok
  newRefreshToken : Tok
deriving DecidableEq, Repr

/-- Continuation of `request(url, options)` when its `fetch` resolves with a
response that carries the headers `h` (lines 140-156). -/
def AutoRefreshTokenManager.requestResponded (m : AutoRefreshTokenManager)
    (h : RefreshHeaders) : AutoRefreshTokenManager :=
  if h.tokenRefreshed = .str "true" then
    if h.newAccessToken.truthy && h.newRefreshToken.truthy then
      { m with
        accessToken := h.newAccessToken
        refreshToken := h.newRefreshToken
        storage := { access_token := some h.newAccessToken.toStr
                     refresh_token := some h.newRefreshToken.toStr } }
    else m
  else m

/-! ## The waiter queue of `useAutoRefreshToken` (useAutoRefreshToken.js)

The hook keeps `isRefreshing` and `failedQueue` in refs, shared by all renders,
and the tokens in React state.  A callback reads the state of the render that
created it; the embedding passes such captured values as arguments, and the
state fields hold the value given to the latest setter call.  The effects that
mirror the state into `localStorage` belong to rendering and are not
modelled. -/

/-- The promise created at line 183 for a request that waits for the refresh
in flight. -/
inductive Waiter where
  | pending
  | resolved
  | rejected (e : JsErr)
deriving DecidableEq, Repr

/-- State of the hook: the React state written by `refreshTokens` and `logout`,
the two refs, the promises of the waiters (the queue holds their indices), and
the number of `fetch` calls to `/logout` issued. -/
structure HookState where
  accessToken : Tok
  refreshToken : Tok
  isAuthenticated : Bool
  error : Option String
  isRefreshing : Bool
  failedQueue : List Nat
  waiters : List Waiter
  logoutCalls : Nat
deriving DecidableEq, Repr

/-- Lines 183-185 of `request`: a new promise is created and its
`{resolve, reject}` pair is pushed onto the queue. -/
def enqueueWaiter (h : HookState) : HookState :=
  { h with
    waiters := h.waiters ++ [.pending]
    failedQueue := h.failedQueue ++ [h.waiters.length] }

/-- A call of the `resolve` function of the promise `i`: a pending promise is
resolved, a settled one stays. -/
def resolveWaiter (ws : List Waiter) (i : Nat) : List Waiter :=
  match ws[i]? with
  | some .pending => ws.set i .resolved
  | _ => ws

/-- A call of the `reject` function of the promise `i` with `err`. -/
def rejectWaiter (err : JsErr) (ws : List Waiter) (i : Nat) : List Waiter :=
  match ws[i]? with
  | some .pending => ws.set i (.rejected err)
  | _ => ws

/-- The `finally` block of `logout` (lines 138-143). -/
def logoutFinally (h : HookState) : HookState :=
  { h with accessToken := .null, refreshToken := .null, isAuthenticated := false, error := none }

/-- The synchronous prefix of `logout()` (lines 126-135), where `accessToken`
is the value captured by the callback: with a token the `fetch` to `/logout` is
issued and the method suspends, else the `finally` block runs at once. -/
def logoutStart (h : HookState) (accessToken : Tok) : HookState :=
  if accessToken.truthy then { h with logoutCalls := h.logoutCalls + 1 }
  else logoutFinally h

/-- The `catch` and `finally` blocks of `refreshTokens` (lines 110-122): every
queued waiter is rejected with `err`, the queue is emptied, `logout()` is
called, `err` is rethrown, and `isRefreshing` is reset. -/
def refreshTokensCatch (h : HookState) (accessToken : Tok) (err : JsErr) :
    HookState × Except JsErr Bool :=
  let h1 : HookState :=
    { h with waiters := h.failedQueue.foldl (rejectWaiter err) h.waiters, failedQueue := [] }
  ({ logoutStart h1 accessToken with isRefreshing := false }, .error err)

/-- The synchronous prefix of `refreshTokens()` (lines 78-92), where
`refreshToken` is the value captured by the callback.  The result is `some`
when the call returns at once (`false`), and `none` when the `fetch` to
`/auto-refresh` has been issued. -/
def refreshTokensStart (h : HookState) (refreshToken : Tok) :
    HookState × Option (Except JsErr Bool) :=
  if !refreshToken.truthy || h.isRefreshing then (h, some (.ok false))
  else ({ h with isRefreshing := true }, none)

/-- Continuation of `refreshTokens()` when its `fetch` settles (lines 92-98);
the result is `none` when the method goes on to `await response.json()`. -/
def refreshTokensFetched (h : HookState) (accessToken : Tok) (r : FetchReply) :
    HookState × Option (Except JsErr Bool) :=
  match r with
  | .networkError e =>
    ((refreshTokensCatch h accessToken e).1, some (refreshTokensCatch h accessToken e).2)
  | .response status =>
    if !httpOk status then
      ((refreshTokensCatch h accessToken (.error ("Refresh failed: " ++ toString status))).1,
        some (refreshTokensCatch h accessToken
          (.error ("Refresh failed: " ++ toString status))).2)
    else (h, none)

/-- Continuation of `refreshTokens()` when `response.json()` settles (lines
98-122). -/
def refreshTokensParsed (h : HookState) (accessToken : Tok) (r : JsonReply) :
    HookState × Except JsErr Bool :=
  match r with
  | .parseError e => refreshTokensCatch h accessToken e
  | .parsed none =>
    refreshTokensCatch h accessToken
      (.typeError "Cannot read properties of null (reading 'status')")
  | .parsed (some data) =>
    if data.status = .num 200 then
      match data.data with
      | some d =>
        ({ h with
            accessToken := d.access_token
            refreshToken := d.refresh_token
            waiters := h.failedQueue.foldl resolveWaiter h.waiters
            failedQueue := []
            isRefreshing := false }, .ok true)
      | none =>
        refreshTokensCatch h accessToken
          (.typeError "Cannot read properties of undefined (reading 'access_token')")
    else
      refreshTokensCatch h accessToken (.error (jsOr data.message "Token refresh failed"))

/-- A hook state without tokens, refresh or waiters. -/
def emptyHook : HookState :=
  { accessToken := .null, refreshToken := .null, isAuthenticated := false, error := none
    isRefreshing := false, failedQueue := [], waiters := [], logoutCalls := 0 }

/-- Every call of `refreshAccessToken()` that is suspended on the promise it
created (line 81) is the call whose promise `refreshPromise` holds. -/
def Linked (w : World) : Prop :=
  ∀ c q : Nat, w.procs[c]? = some (Proc.ratInit q) → w.tm.refreshPromise = some q

/-- From `w` to `v` promises were only added, and `refreshPromise` either
kept its value, with no added call suspended on a promise of its own, or went
from `null` to a promise `p` on which every such added call is suspended. -/
def Grows (w v : World) : Prop :=
  ∃ extra, v.procs = w.procs ++ extra ∧
    ((v.tm.refreshPromise = w.tm.refreshPromise ∧ ∀ pr ∈ extra, ∀ q, pr ≠ Proc.ratInit q) ∨
     (w.tm.refreshPromise = none ∧ ∃ p, v.tm.refreshPromise = some p ∧
        ∀ pr ∈ extra, ∀ q, pr = Proc.ratInit q → q = p))

/-! ## Expiry checks -/

theorem truthy_str {s : String} (h : s ≠ "") : (Tok.str s).truthy = true := by
  simp [Tok.truthy, h]

/-- C3 (as stated, refuted): with `exp == now` both expiry checks answer
`false`, because the comparison is `payload.exp < now`. -/
theorem C3_boundary_not_expired :
    isAccessTokenExpired demoDecode
        { accessToken := .str "exp100", refreshToken := .str "exp100", refreshPromise := none }
        100 = false ∧
      isRefreshTokenExpired demoDecode
        { accessToken := .str "exp100", refreshToken := .str "exp100", refreshPromise := none }
        100 = false := by
  constructor <;> rfl

/-- C3 (amended): for a present token whose decoded expiry is the number
`exp`, each expiry check answers `true` exactly when `exp < now`; at
`exp = now` it answers `false`. -/
theorem C3_expired_iff_exp_lt_now (decode : String → Option JsVal) (s : String) (exp now : Int)
    (hs : s ≠ "") (hd : decode s = some (.num exp)) :
    (∀ r rp, isAccessTokenExpired decode
        { accessToken := .str s, refreshToken := r, refreshPromise := rp } now = true
        ↔ exp < now) ∧
    (∀ a rp, isRefreshTokenExpired decode
        { accessToken := a, refreshToken := .str s, refreshPromise := rp } now = true
        ↔ exp < now) ∧
    (∀ r rp, isAccessTokenExpired decode
        { accessToken := .str s, refreshToken := r, refreshPromise := rp } exp = false) ∧
    (∀ a rp, isRefreshTokenExpired decode
        { accessToken := a, refreshToken := .str s, refreshPromise := rp } exp = false) := by
  refine ⟨?_, ?_, ?_, ?_⟩ <;> intros <;>
    simp [isAccessTokenExpired, isRefreshTokenExpired, truthy_str hs, hd, jsLt, JsVal.toNumber]

theorem C3_expired_iff_exp_lt_now_witness :
    (∀ r rp, isAccessTokenExpired demoDecode
        { accessToken := .str "exp100", refreshToken := r, refreshPromise := rp } 101 = true
        ↔ (100 : Int) < 101) ∧
    (∀ a rp, isRefreshTokenExpired demoDecode
        { accessToken := a, refreshToken := .str "exp100", refreshPromise := rp } 101 = true
        ↔ (100 : Int) < 101) ∧
    (∀ r rp, isAccessTokenExpired demoDecode
        { accessToken := .str "exp100", refreshToken := r, refreshPromise := rp } 100 = false) ∧
    (∀ a rp, isRefreshTokenExpired demoDecode
        { accessToken := a, refreshToken := .str "exp100", refreshPromise := rp } 100 = false) :=
  C3_expired_iff_exp_lt_now demoDecode "exp100" 100 101 (by decide) rfl

/-- C4 (as stated, refuted): a present token whose payload decodes but has no
`exp` field is reported as not expired by both checks (`undefined < now` is
false). -/
theorem C4_missing_exp_not_expired :
    isAccessTokenExpired demoDecode
        { accessToken := .str "noexp", refreshToken := .str "noexp", refreshPromise := none }
        100 = false ∧
      isRefreshTokenExpired demoDecode
        { accessToken := .str "noexp", refreshToken := .str "noexp", refreshPromise := none }
        100 = false := by
  constructor <;> rfl

/-- C4 (amended): each expiry check answers `true` when its token is absent
(falsy) and when decoding a present token throws; when decoding succeeds but
the payload has no `exp` field it answers `false`. -/
theorem C4_expired_when_absent_or_undecodable (decode : String → Option JsVal)
    (tm : TokenManager) (now : Int) :
    (tm.accessToken.truthy = false → isAccessTokenExpired decode tm now = true) ∧
    (tm.refreshToken.truthy = false → isRefreshTokenExpired decode tm now = true) ∧
    (∀ s, tm.accessToken = .str s → decode s = none →
      isAccessTokenExpired decode tm now = true) ∧
    (∀ s, tm.refreshToken = .str s → decode s = none →
      isRefreshTokenExpired decode tm now = true) ∧
    (∀ s, tm.accessToken = .str s → s ≠ "" → decode s = some .undefined →
      isAccessTokenExpired decode tm now = false) ∧
    (∀ s, tm.refreshToken = .str s → s ≠ "" → decode s = some .undefined →
      isRefreshTokenExpired decode tm now = false) := by
  refine ⟨?_, ?_, ?_, ?_, ?_, ?_⟩
  · intro h; simp [isAccessTokenExpired, h]
  · intro h; simp [isRefreshTokenExpired, h]
  · intro s hs hd; simp [isAccessTokenExpired, hs, hd]
  · intro s hs hd; simp [isRefreshTokenExpired, hs, hd]
  · intro s hs hne hd
    simp [isAccessTokenExpired, hs, hd, truthy_str hne, jsLt, JsVal.toNumber]
  · intro s hs hne hd
    simp [isRefreshTokenExpired, hs, hd, truthy_str hne, jsLt, JsVal.toNumber]

theorem C4_expired_when_absent_or_undecodable_witness :
    isAccessTokenExpired demoDecode
        { accessToken := .null, refreshToken := .str "", refreshPromise := none } 100 = true ∧
    isRefreshTokenExpired demoDecode
        { accessToken := .null, refreshToken := .str "", refreshPromise := none } 100 = true ∧
    isAccessTokenExpired demoDecode
        { accessToken := .str "garbage", refreshToken := .str "junk", refreshPromise := none }
        100 = true ∧
    isRefreshTokenExpired demoDecode
        { accessToken := .str "garbage", refreshToken := .str "junk", refreshPromise := none }
        100 = true ∧
    isAccessTokenExpired demoDecode
        { accessToken := .str "noexp", refreshToken := .str "noexp", refreshPromise := none }
        100 = false ∧
    isRefreshTokenExpired demoDecode
        { accessToken := .str "noexp", refreshToken := .str "noexp", refreshPromise := none }
        100 = false :=
  ⟨(C4_expired_when_absent_or_undecodable demoDecode
      { accessToken := .null, refreshToken := .str "", refreshPromise := none } 100).1 rfl,
   (C4_expired_when_absent_or_undecodable demoDecode
      { accessToken := .null, refreshToken := .str "", refreshPromise := none } 100).2.1 rfl,
   (C4_expired_when_absent_or_undecodable demoDecode
      { accessToken := .str "garbage", refreshToken := .str "junk", refreshPromise := none }
      100).2.2.1 "garbage" rfl rfl,
   (C4_expired_when_absent_or_undecodable demoDecode
      { accessToken := .str "garbage", refreshToken := .str "junk", refreshPromise := none }
      100).2.2.2.1 "junk" rfl rfl,
   (C4_expired_when_absent_or_undecodable demoDecode
      { accessToken := .str "noexp", refreshToken := .str "noexp", refreshPromise := none }
      100).2.2.2.2.1 "noexp" rfl (by decide) rfl,
   (C4_expired_when_absent_or_undecodable demoDecode
      { accessToken := .str "noexp", refreshToken := .str "noexp", refreshPromise := none }
      100).2.2.2.2.2 "noexp" rfl (by decide) rfl⟩

/-! ## Tables -/

theorem setPhase_length (l : List Perform) (p : Nat) (ph : Phase) :
    (setPhase l p ph).length = l.length := by
  induction l generalizing p with
  | nil => rfl
  | cons pf rest ih => cases p <;> simp [setPhase, ih]

theorem getElem?_setPhase (l : List Perform) (p q : Nat) (ph : Phase) :
    (setPhase l p ph)[q]? =
      if q = p then (l[q]?).map (fun pf => { pf with phase := ph }) else l[q]? := by
  induction l generalizing p q with
  | nil => simp [setPhase]
  | cons pf rest ih =>
    cases p with
    | zero => cases q <;> simp [setPhase]
    | succ p => cases q <;> simp [setPhase, ih]

theorem setPhase_append_length (l : List Perform) (pf : Perform) (ph : Phase) :
    setPhase (l ++ [pf]) l.length ph = l ++ [{ pf with phase := ph }] := by
  induction l with
  | nil => rfl
  | cons x rest ih => simp [setPhase, ih]

theorem map_body_setPhase (l : List Perform) (p : Nat) (ph : Phase) :
    (setPhase l p ph).map (fun pf => pf.body) = l.map (fun pf => pf.body) := by
  induction l generalizing p with
  | nil => rfl
  | cons pf rest ih => cases p <;> simp [setPhase, ih]

theorem wakeGetValid_done (procs : List Proc) (a : Tok) (o : Settled) :
    wakeGetValid procs a (.done o) = .done o := rfl

theorem any_ratInit_of_getElem? {l : List Proc} {c p : Nat}
    (h : l[c]? = some (.ratInit p)) : l.any (fun pr => pr == .ratInit p) = true := by
  rw [List.any_eq_true]
  exact ⟨.ratInit p, List.getElem?_mem h, by simp⟩

/-! ## Settlement of a refresh -/

theorem settlePerform_accessToken (w : World) (p : Nat) (o : Settled) :
    (settlePerform w p o).tm.accessToken = w.tm.accessToken := by
  unfold settlePerform; dsimp only; split <;> rfl

theorem settlePerform_refreshToken (w : World) (p : Nat) (o : Settled) :
    (settlePerform w p o).tm.refreshToken = w.tm.refreshToken := by
  unfold settlePerform; dsimp only; split <;> rfl

theorem settlePerform_storage (w : World) (p : Nat) (o : Settled) :
    (settlePerform w p o).storage = w.storage := rfl

theorem settlePerform_performs (w : World) (p : Nat) (o : Settled) :
    (settlePerform w p o).performs = setPhase w.performs p (.settled o) := rfl

theorem settlePerform_refreshPromise {w : World} {c p : Nat} (o : Settled)
    (h : w.procs[c]? = some (.ratInit p)) :
    (settlePerform w p o).tm.refreshPromise = none := by
  unfold settlePerform; dsimp only
  rw [any_ratInit_of_getElem? h]; rfl

theorem settlePerform_procs_length (w : World) (p : Nat) (o : Settled) :
    (settlePerform w p o).procs.length = w.procs.length := by
  simp [settlePerform]

/-- A call of `refreshAccessToken` that awaits or returned the promise `p`
settles with the outcome of `p`; one that waits for another promise stays. -/
theorem settlePerform_rat {w : World} {i p : Nat}
    (h : w.procs[i]? = some (.ratInit p) ∨ w.procs[i]? = some (.ratAttached p))
    (q : Nat) (o : Settled) :
    (settlePerform w q o).procs[i]? =
      if p = q then some (.done o) else w.procs[i]? := by
  unfold settlePerform; dsimp only
  rw [List.getElem?_map, List.getElem?_map]
  rcases h with h | h <;> rw [h] <;> by_cases hpq : p = q <;>
    simp [wakeRefresh, wakeGetValid, hpq]

/-- A call of `getValidAccessToken` that awaits the call `c` of
`refreshAccessToken`, which awaits `p`, resumes when `p` settles. -/
theorem settlePerform_gvat {w : World} {i c p : Nat}
    (hi : w.procs[i]? = some (.gvat c))
    (hc : w.procs[c]? = some (.ratInit p) ∨ w.procs[c]? = some (.ratAttached p))
    (o : Settled) :
    (settlePerform w p o).procs[i]? =
      some (.done (match o with
        | .fulfilled _ => .fulfilled (.tok w.tm.accessToken)
        | .rejected e => .rejected e)) := by
  have hacc : (if w.procs.any (fun pr => pr == .ratInit p) then
      ({ w.tm with refreshPromise := none } : TokenManager) else w.tm).accessToken
      = w.tm.accessToken := by split <;> rfl
  unfold settlePerform; dsimp only
  rw [List.getElem?_map, List.getElem?_map, hi, hacc]
  have h1 : (w.procs.map (wakeRefresh p o))[c]? = some (.done o) := by
    rw [List.getElem?_map]
    rcases hc with h | h <;> rw [h] <;> simp [wakeRefresh]
  cases o <;> simp [wakeRefresh, wakeGetValid, h1]

theorem phaseOf_settlePerform (w : World) (p q : Nat) (o : Settled) :
    phaseOf (settlePerform w p o) q =
      if q = p then (phaseOf w q).map (fun _ => .settled o) else phaseOf w q := by
  unfold phaseOf
  rw [settlePerform_performs, getElem?_setPhase]
  split
  · cases w.performs[q]? <;> rfl
  · rfl

/-! ## Starting and joining a refresh -/

theorem refreshAccessToken_start (decode : String → Option JsVal) (now : Int) (w : World)
    (hidle : w.tm.refreshPromise = none) (hpresent : w.tm.refreshToken.truthy = true)
    (hlive : isRefreshTokenExpired decode w.tm now = false) :
    refreshAccessToken decode now w =
      { tm := { w.tm with refreshPromise := some w.performs.length }
        storage := w.storage
        performs := w.performs ++ [{ body := w.tm.refreshToken, phase := .awaitFetch }]
        procs := w.procs ++ [.ratInit w.performs.length] } := by
  simp [refreshAccessToken, hidle, hpresent, hlive, performRefreshStart, pushProc]

theorem refreshAccessToken_attach (decode : String → Option JsVal) (now : Int) (w : World)
    (p : Nat) (hflight : w.tm.refreshPromise = some p)
    (hpending : ∀ o, phaseOf w p ≠ some (.settled o)) :
    refreshAccessToken decode now w = pushProc w (.ratAttached p) := by
  unfold refreshAccessToken
  rw [hflight]; dsimp only
  split
  · next o heq =>
    exact absurd (by simp [phaseOf, heq]) (hpending o)
  · rfl

theorem getValidAccessToken_start (decode : String → Option JsVal) (t : Readings) (w : World)
    (hidle : w.tm.refreshPromise = none)
    (hacc : w.tm.accessToken.truthy = false ∨ isAccessTokenExpired decode w.tm t.access = true)
    (hpresent : w.tm.refreshToken.truthy = true)
    (hlive : isRefreshTokenExpired decode w.tm t.refresh = false)
    (hlive' : isRefreshTokenExpired decode w.tm t.start = false) :
    getValidAccessToken decode t w =
      { tm := { w.tm with refreshPromise := some w.performs.length }
        storage := w.storage
        performs := w.performs ++ [{ body := w.tm.refreshToken, phase := .awaitFetch }]
        procs := w.procs ++ [.ratInit w.performs.length, .gvat w.procs.length] } := by
  have hcond :
      (!w.tm.accessToken.truthy || isAccessTokenExpired decode w.tm t.access) = true := by
    rcases hacc with h | h <;> simp [h]
  unfold getValidAccessToken
  rw [if_pos hcond, hlive, refreshAccessToken_start decode t.start w hidle hpresent hlive']
  simp [pushProc]

theorem getValidAccessToken_sessionExpired (decode : String → Option JsVal) (t : Readings)
    (w : World)
    (hacc : w.tm.accessToken.truthy = false ∨ isAccessTokenExpired decode w.tm t.access = true)
    (href : w.tm.refreshToken.truthy = false ∨
      isRefreshTokenExpired decode w.tm t.refresh = true) :
    getValidAccessToken decode t w =
      pushProc w (.done (.rejected (.error "Both tokens expired. Please login again."))) := by
  have hcond :
      (!w.tm.accessToken.truthy || isAccessTokenExpired decode w.tm t.access) = true := by
    rcases hacc with h | h <;> simp [h]
  have hexp : isRefreshTokenExpired decode w.tm t.refresh = true := by
    rcases href with h | h
    · simp [isRefreshTokenExpired, h]
    · exact h
  unfold getValidAccessToken
  rw [if_pos hcond, if_pos hexp]

theorem outcome_pushProc (w : World) (pr : Proc) :
    (pushProc w pr).procs[w.procs.length]? = some pr := by
  simp [pushProc]

/-! ## Joining a refresh in flight -/

/-- C2: when `refreshPromise` holds the promise `p`, a call of
`refreshAccessToken()` issues no transport call and changes neither the
manager (tokens, `refreshPromise`) nor the storage, whatever the tokens are;
the promise of the call is resolved with `p`: it is recorded as attached to `p`
while `p` is pending (or already carries the outcome of a settled `p`), and it
takes the outcome of `p` when `p` settles. -/
theorem C2_attach_to_inflight (decode : String → Option JsVal) (now : Int) (w : World)
    (p : Nat) (hflight : w.tm.refreshPromise = some p) :
    (refreshAccessToken decode now w).tm = w.tm ∧
    (refreshAccessToken decode now w).storage = w.storage ∧
    (refreshAccessToken decode now w).performs = w.performs ∧
    transportLog (refreshAccessToken decode now w) = transportLog w ∧
    ((∀ o, phaseOf w p ≠ some (.settled o)) →
      (refreshAccessToken decode now w).procs = w.procs ++ [.ratAttached p] ∧
      ∀ (v : World) (o : Settled), v.procs = (refreshAccessToken decode now w).procs →
        outcome (settlePerform v p o) w.procs.length = some o) ∧
    (∀ o, phaseOf w p = some (.settled o) →
      (refreshAccessToken decode now w).procs = w.procs ++ [.done o]) := by
  have hshape : ∃ pr, refreshAccessToken decode now w = pushProc w pr := by
    unfold refreshAccessToken
    rw [hflight]; dsimp only
    split
    · exact ⟨_, rfl⟩
    · exact ⟨_, rfl⟩
  obtain ⟨pr, hpr⟩ := hshape
  refine ⟨by rw [hpr]; rfl, by rw [hpr]; rfl, by rw [hpr]; rfl, by rw [hpr]; rfl, ?_, ?_⟩
  · intro hpending
    rw [refreshAccessToken_attach decode now w p hflight hpending]
    refine ⟨rfl, ?_⟩
    intro v o hv
    have hproc : v.procs[w.procs.length]? = some (.ratAttached p) := by
      rw [hv]; simp [pushProc]
    unfold outcome
    rw [settlePerform_rat (Or.inr hproc) p o]
    simp
  · intro o ho
    unfold refreshAccessToken
    rw [hflight]; dsimp only
    unfold phaseOf at ho
    cases hget : w.performs[p]? with
    | none => rw [hget] at ho; simp at ho
    | some pf =>
      rw [hget] at ho
      obtain ⟨body, phase⟩ := pf
      simp at ho
      subst ho
      rfl

theorem C2_attach_to_inflight_witness :
    (refreshAccessToken demoDecode 50
      (refreshAccessToken demoDecode 50 (demoWorld "exp100" "exp900"))).tm =
      (refreshAccessToken demoDecode 50 (demoWorld "exp100" "exp900")).tm ∧
    (refreshAccessToken demoDecode 50
      (refreshAccessToken demoDecode 50 (demoWorld "exp100" "exp900"))).procs =
      [.ratInit 0, .ratAttached 0] :=
  ⟨(C2_attach_to_inflight demoDecode 50
      (refreshAccessToken demoDecode 50 (demoWorld "exp100" "exp900")) 0 rfl).1,
   ((C2_attach_to_inflight demoDecode 50
      (refreshAccessToken demoDecode 50 (demoWorld "exp100" "exp900")) 0 rfl).2.2.2.2.1
      (fun o h => by
        have h0 : phaseOf (refreshAccessToken demoDecode 50 (demoWorld "exp100" "exp900")) 0
            = some .awaitFetch := by decide
        rw [h0] at h
        cases h)).1⟩

/-! ## `getValidAccessToken` -/

/-- C5: from an idle state with an absent or expired access token and a
present refresh token `r` that is unexpired at both readings at which the call
checks it (line 126, and line 73 inside `refreshAccessToken()`), when the
transport answers the refresh
with HTTP success and the envelope `{status: 200, data: {a', r'}}`, the call of
`getValidAccessToken()` makes exactly one transport refresh call, carrying `r`;
it resolves with `a'`; afterwards the stored pair is `(a', r')`, in memory and
in `localStorage`. -/
theorem C5_refresh_on_expired_access (decode : String → Option JsVal) (t : Readings)
    (w : World)
    (status : Nat) (env : Envelope) (a' r' : Tok)
    (hidle : w.tm.refreshPromise = none)
    (hacc : w.tm.accessToken.truthy = false ∨ isAccessTokenExpired decode w.tm t.access = true)
    (hpresent : w.tm.refreshToken.truthy = true)
    (hlive : isRefreshTokenExpired decode w.tm t.refresh = false)
    (hlive' : isRefreshTokenExpired decode w.tm t.start = false)
    (hok : httpOk status = true) (hstatus : env.status = .num 200)
    (hdata : env.data = some { access_token := a', refresh_token := r' }) :
    transportLog (getValidAccessToken decode t w) = transportLog w ++ [w.tm.refreshToken] ∧
    transportLog (run decode (getValidAccessToken decode t w)
      [.fetchSettles w.performs.length (.response status),
       .jsonSettles w.performs.length (.parsed (some env))])
      = transportLog w ++ [w.tm.refreshToken] ∧
    outcome (run decode (getValidAccessToken decode t w)
      [.fetchSettles w.performs.length (.response status),
       .jsonSettles w.performs.length (.parsed (some env))]) (w.procs.length + 1)
      = some (.fulfilled (.tok a')) ∧
    (run decode (getValidAccessToken decode t w)
      [.fetchSettles w.performs.length (.response status),
       .jsonSettles w.performs.length (.parsed (some env))]).tm
      = { accessToken := a', refreshToken := r', refreshPromise := none } ∧
    (run decode (getValidAccessToken decode t w)
      [.fetchSettles w.performs.length (.response status),
       .jsonSettles w.performs.length (.parsed (some env))]).storage
      = { access_token := some a'.toStr, refresh_token := some r'.toStr } := by
  rw [getValidAccessToken_start decode t w hidle hacc hpresent hlive hlive']
  refine ⟨by simp [transportLog], ?_⟩
  have h1 : step decode
      { tm := { w.tm with refreshPromise := some w.performs.length }
        storage := w.storage
        performs := w.performs ++ [{ body := w.tm.refreshToken, phase := .awaitFetch }]
        procs := w.procs ++ [.ratInit w.performs.length, .gvat w.procs.length] }
      (.fetchSettles w.performs.length (.response status)) =
      { tm := { w.tm with refreshPromise := some w.performs.length }
        storage := w.storage
        performs := w.performs ++ [{ body := w.tm.refreshToken, phase := .awaitJson }]
        procs := w.procs ++ [.ratInit w.performs.length, .gvat w.procs.length] } := by
    simp [step, phaseOf, performRefreshFetched, hok, setPhase_append_length]
  have hproc : ∀ v : World,
      v.procs = w.procs ++ [.ratInit w.performs.length, .gvat w.procs.length] →
      v.procs[w.procs.length]? = some (.ratInit w.performs.length) ∧
      v.procs[w.procs.length + 1]? = some (.gvat w.procs.length) := by
    intro v hv
    rw [hv]
    constructor
    · rw [List.getElem?_append_right (Nat.le_refl _)]
      simp
    · rw [List.getElem?_append_right (by omega)]
      simp
  have h2 : run decode
      { tm := { w.tm with refreshPromise := some w.performs.length }
        storage := w.storage
        performs := w.performs ++ [{ body := w.tm.refreshToken, phase := .awaitFetch }]
        procs := w.procs ++ [.ratInit w.performs.length, .gvat w.procs.length] }
      [.fetchSettles w.performs.length (.response status),
       .jsonSettles w.performs.length (.parsed (some env))] =
      settlePerform (setTokens
        { tm := { w.tm with refreshPromise := some w.performs.length }
          storage := w.storage
          performs := w.performs ++ [{ body := w.tm.refreshToken, phase := .awaitJson }]
          procs := w.procs ++ [.ratInit w.performs.length, .gvat w.procs.length] } a' r')
        w.performs.length (.fulfilled (.data { access_token := a', refresh_token := r' })) := by
    simp only [run, List.foldl_cons, List.foldl_nil]
    rw [h1]
    simp [step, phaseOf, performRefreshParsed, hstatus, hdata]
  rw [h2]
  obtain ⟨hc, hg⟩ := hproc (setTokens
        { tm := { w.tm with refreshPromise := some w.performs.length }
          storage := w.storage
          performs := w.performs ++ [{ body := w.tm.refreshToken, phase := .awaitJson }]
          procs := w.procs ++ [.ratInit w.performs.length, .gvat w.procs.length] } a' r') rfl
  refine ⟨?_, ?_, ?_, ?_⟩
  · simp [transportLog, settlePerform_performs, map_body_setPhase, setTokens]
  · unfold outcome
    rw [settlePerform_gvat hg (Or.inl hc)]
    rfl
  · have ha := settlePerform_accessToken (setTokens
        { tm := { w.tm with refreshPromise := some w.performs.length }
          storage := w.storage
          performs := w.performs ++ [{ body := w.tm.refreshToken, phase := .awaitJson }]
          procs := w.procs ++ [.ratInit w.performs.length, .gvat w.procs.length] } a' r')
        w.performs.length (.fulfilled (.data { access_token := a', refresh_token := r' }))
    have hr := settlePerform_refreshToken (setTokens
        { tm := { w.tm with refreshPromise := some w.performs.length }
          storage := w.storage
          performs := w.performs ++ [{ body := w.tm.refreshToken, phase := .awaitJson }]
          procs := w.procs ++ [.ratInit w.performs.length, .gvat w.procs.length] } a' r')
        w.performs.length (.fulfilled (.data { access_token := a', refresh_token := r' }))
    have hp := settlePerform_refreshPromise
      (.fulfilled (.data { access_token := a', refresh_token := r' })) hc
    revert ha hr hp
    generalize settlePerform _ _ _ = v
    intro ha hr hp
    obtain ⟨tm, _, _, _⟩ := v
    obtain ⟨a, r, rp⟩ := tm
    simp_all [setTokens]
  · rw [settlePerform_storage]
    rfl

theorem C5_refresh_on_expired_access_witness :
    transportLog (run demoDecode (getValidAccessToken demoDecode (Readings.same 150) (demoWorld "exp100" "exp900"))
      [.fetchSettles 0 (.response 200),
       .jsonSettles 0 (.parsed (some (demoEnvelope "exp200" "exp900")))]) = [.str "exp900"] ∧
    outcome (run demoDecode (getValidAccessToken demoDecode (Readings.same 150) (demoWorld "exp100" "exp900"))
      [.fetchSettles 0 (.response 200),
       .jsonSettles 0 (.parsed (some (demoEnvelope "exp200" "exp900")))]) 1
      = some (.fulfilled (.tok (.str "exp200"))) :=
  ⟨(C5_refresh_on_expired_access demoDecode (Readings.same 150)
      (demoWorld "exp100" "exp900") 200
      (demoEnvelope "exp200" "exp900") (.str "exp200") (.str "exp900")
      rfl (Or.inr rfl) rfl rfl rfl rfl rfl rfl).2.1,
   (C5_refresh_on_expired_access demoDecode (Readings.same 150)
      (demoWorld "exp100" "exp900") 200
      (demoEnvelope "exp200" "exp900") (.str "exp200") (.str "exp900")
      rfl (Or.inr rfl) rfl rfl rfl rfl rfl rfl).2.2.1⟩

/-- C6: when the access token is absent or expired and the refresh token is
absent or expired, `getValidAccessToken()` rejects with the session-expired
error and issues no transport refresh call. -/
theorem C6_session_expired_without_transport (decode : String → Option JsVal)
    (t : Readings) (w : World)
    (hacc : w.tm.accessToken.truthy = false ∨ isAccessTokenExpired decode w.tm t.access = true)
    (href : w.tm.refreshToken.truthy = false ∨ isRefreshTokenExpired decode w.tm t.refresh = true) :
    outcome (getValidAccessToken decode t w) w.procs.length
      = some (.rejected (.error "Both tokens expired. Please login again.")) ∧
    (getValidAccessToken decode t w).procs.length = w.procs.length + 1 ∧
    (getValidAccessToken decode t w).performs = w.performs ∧
    transportLog (getValidAccessToken decode t w) = transportLog w := by
  rw [getValidAccessToken_sessionExpired decode t w hacc href]
  refine ⟨?_, ?_, rfl, rfl⟩
  · unfold outcome
    rw [outcome_pushProc]
  · simp [pushProc]

theorem C6_session_expired_without_transport_witness :
    outcome (getValidAccessToken demoDecode (Readings.same 950) (demoWorld "exp100" "exp900")) 0
      = some (.rejected (.error "Both tokens expired. Please login again.")) ∧
    transportLog (getValidAccessToken demoDecode (Readings.same 950) (demoWorld "exp100" "exp900")) = [] :=
  ⟨(C6_session_expired_without_transport demoDecode (Readings.same 950) (demoWorld "exp100" "exp900")
      (Or.inr rfl) (Or.inr rfl)).1,
   (C6_session_expired_without_transport demoDecode (Readings.same 950) (demoWorld "exp100" "exp900")
      (Or.inr rfl) (Or.inr rfl)).2.2.2⟩

/-- C7 (as stated, refuted): with two expired tokens stored, the call of
`getValidAccessToken()` rejects with the session-expired error and both tokens
are still stored afterwards, in memory and in `localStorage`. -/
theorem C7_session_expired_keeps_tokens :
    outcome (getValidAccessToken demoDecode (Readings.same 950) (demoWorld "exp100" "exp900")) 0
      = some (.rejected (.error "Both tokens expired. Please login again.")) ∧
    (getValidAccessToken demoDecode (Readings.same 950) (demoWorld "exp100" "exp900")).tm.accessToken
      = .str "exp100" ∧
    (getValidAccessToken demoDecode (Readings.same 950) (demoWorld "exp100" "exp900")).tm.refreshToken
      = .str "exp900" ∧
    (getValidAccessToken demoDecode (Readings.same 950) (demoWorld "exp100" "exp900")).storage
      = { access_token := some "exp100", refresh_token := some "exp900" } := by
  decide

/-- C7 (amended): when `getValidAccessToken()` rejects with the
session-expired error (access token absent or expired, refresh token absent or
expired), the call itself clears nothing: the manager's fields and the storage
are as before the call. -/
theorem C7_session_expired_leaves_state (decode : String → Option JsVal)
    (t : Readings) (w : World)
    (hacc : w.tm.accessToken.truthy = false ∨ isAccessTokenExpired decode w.tm t.access = true)
    (href : w.tm.refreshToken.truthy = false ∨ isRefreshTokenExpired decode w.tm t.refresh = true) :
    outcome (getValidAccessToken decode t w) w.procs.length
      = some (.rejected (.error "Both tokens expired. Please login again.")) ∧
    (getValidAccessToken decode t w).tm = w.tm ∧
    (getValidAccessToken decode t w).storage = w.storage := by
  rw [getValidAccessToken_sessionExpired decode t w hacc href]
  refine ⟨?_, rfl, rfl⟩
  unfold outcome
  rw [outcome_pushProc]

theorem C7_session_expired_leaves_state_witness :
    (getValidAccessToken demoDecode (Readings.same 950) (demoWorld "exp100" "exp900")).tm
      = (demoWorld "exp100" "exp900").tm ∧
    (getValidAccessToken demoDecode (Readings.same 950) (demoWorld "exp100" "exp900")).storage
      = (demoWorld "exp100" "exp900").storage :=
  (C7_session_expired_leaves_state demoDecode (Readings.same 950) (demoWorld "exp100" "exp900")
    (Or.inr rfl) (Or.inr rfl)).2

/-! ## Failure of the transport -/

theorem performRefreshCatch_cleared (w : World) (p : Nat) (e : JsErr) :
    (performRefreshCatch w p e).tm.accessToken = .null ∧
    (performRefreshCatch w p e).tm.refreshToken = .null ∧
    (performRefreshCatch w p e).storage = { access_token := none, refresh_token := none } := by
  unfold performRefreshCatch
  rw [settlePerform_accessToken, settlePerform_refreshToken, settlePerform_storage]
  exact ⟨rfl, rfl, rfl⟩

theorem performRefreshCatch_outcome {w : World} {c p : Nat}
    (hc : w.procs[c]? = some (.ratInit p) ∨ w.procs[c]? = some (.ratAttached p)) (e : JsErr) :
    outcome (performRefreshCatch w p e) c = some (.rejected e) := by
  have hc' : (clearTokens w).procs[c]? = some (.ratInit p) ∨
      (clearTokens w).procs[c]? = some (.ratAttached p) := hc
  unfold outcome performRefreshCatch
  rw [settlePerform_rat hc' p (.rejected e)]
  simp

theorem step_fetch_networkError (decode : String → Option JsVal) {w : World} {p : Nat}
    (h : phaseOf w p = some .awaitFetch) (e : JsErr) :
    step decode w (.fetchSettles p (.networkError e)) = performRefreshCatch w p e := by
  simp [step, h, performRefreshFetched]

theorem step_fetch_httpError (decode : String → Option JsVal) {w : World} {p : Nat}
    (h : phaseOf w p = some .awaitFetch) {status : Nat} (hst : httpOk status = false) :
    step decode w (.fetchSettles p (.response status)) =
      performRefreshCatch w p (.error ("Refresh failed: " ++ toString status)) := by
  simp [step, h, performRefreshFetched, hst]

theorem step_fetch_ok (decode : String → Option JsVal) {w : World} {p : Nat}
    (h : phaseOf w p = some .awaitFetch) {status : Nat} (hst : httpOk status = true) :
    step decode w (.fetchSettles p (.response status)) =
      { w with performs := setPhase w.performs p .awaitJson } := by
  simp [step, h, performRefreshFetched, hst]

theorem phaseOf_setPhase {w : World} {p : Nat} {ph0 : Phase} (h : phaseOf w p = some ph0)
    (ph : Phase) :
    phaseOf { w with performs := setPhase w.performs p ph } p = some ph := by
  unfold phaseOf at h ⊢
  dsimp only
  rw [getElem?_setPhase]
  cases hget : w.performs[p]? with
  | none => rw [hget] at h; simp at h
  | some pf => simp

theorem step_json_envelopeError (decode : String → Option JsVal) {w : World} {p : Nat}
    (h : phaseOf w p = some .awaitJson) {env : Envelope} (hst : env.status ≠ .num 200) :
    step decode w (.jsonSettles p (.parsed (some env))) =
      performRefreshCatch w p (.error (jsOr env.message "Refresh failed")) := by
  simp [step, h, performRefreshParsed, hst]

theorem step_json_success (decode : String → Option JsVal) {w : World} {p : Nat}
    (h : phaseOf w p = some .awaitJson) {env : Envelope} {d : TokenData}
    (hst : env.status = .num 200) (hd : env.data = some d) :
    step decode w (.jsonSettles p (.parsed (some env))) =
      settlePerform (setTokens w d.access_token d.refresh_token) p (.fulfilled (.data d)) := by
  simp [step, h, performRefreshParsed, hst, hd]

theorem phaseOf_append_length (w : World) (pf : Perform) :
    (w.performs ++ [pf])[w.performs.length]? = some pf := by
  rw [List.getElem?_append_right (Nat.le_refl _)]
  simp

/-- After a call of `refreshAccessToken()` with a present, unexpired refresh
token, made when idle or while the `fetch` of a refresh is outstanding, the
promise of the call waits for the promise `awaited w`, whose `fetch` is
outstanding. -/
theorem refreshAccessToken_joined (decode : String → Option JsVal) (now : Int) (w : World)
    (hpresent : w.tm.refreshToken.truthy = true)
    (hlive : isRefreshTokenExpired decode w.tm now = false)
    (hflight : ∀ q, w.tm.refreshPromise = some q → phaseOf w q = some .awaitFetch) :
    ((refreshAccessToken decode now w).procs[w.procs.length]? = some (.ratInit (awaited w)) ∨
      (refreshAccessToken decode now w).procs[w.procs.length]?
        = some (.ratAttached (awaited w))) ∧
    phaseOf (refreshAccessToken decode now w) (awaited w) = some .awaitFetch := by
  cases hrp : w.tm.refreshPromise with
  | none =>
    have haw : awaited w = w.performs.length := by simp [awaited, hrp]
    rw [haw, refreshAccessToken_start decode now w hrp hpresent hlive]
    refine ⟨Or.inl ?_, ?_⟩
    · show (w.procs ++ [Proc.ratInit w.performs.length])[w.procs.length]? = _
      rw [List.getElem?_append_right (Nat.le_refl _)]
      simp
    · unfold phaseOf
      dsimp only
      rw [phaseOf_append_length]
      rfl
  | some q =>
    have haw : awaited w = q := by simp [awaited, hrp]
    have hq := hflight q hrp
    rw [haw, refreshAccessToken_attach decode now w q hrp (by rw [hq]; simp)]
    exact ⟨Or.inr (outcome_pushProc w _), hq⟩

/-- C8: a call of `refreshAccessToken()` with a present, unexpired refresh
token rejects with the underlying error when the transport fails the refresh
that the call waits for, and afterwards both tokens are absent (`null`, storage
keys removed).  Made when idle, or while the `fetch` of a refresh is
outstanding, the three failures are: `fetch` rejects with `e` (rejection `e`);
the response is not ok (rejection `Error("Refresh failed: <status>")`); the
envelope's `status` is not 200 (rejection
`Error(data.message || 'Refresh failed')`).  Made while `response.json()` of a
refresh is outstanding, the failure left is the envelope's. -/
theorem C8_refresh_failure_rejects_and_clears (decode : String → Option JsVal) (now : Int)
    (w : World)
    (hpresent : w.tm.refreshToken.truthy = true)
    (hlive : isRefreshTokenExpired decode w.tm now = false) :
    ((∀ q, w.tm.refreshPromise = some q → phaseOf w q = some .awaitFetch) →
      (∀ e : JsErr,
        outcome (run decode (refreshAccessToken decode now w)
          [.fetchSettles (awaited w) (.networkError e)]) w.procs.length
          = some (.rejected e) ∧
        Cleared (run decode (refreshAccessToken decode now w)
          [.fetchSettles (awaited w) (.networkError e)])) ∧
      (∀ status : Nat, httpOk status = false →
        outcome (run decode (refreshAccessToken decode now w)
          [.fetchSettles (awaited w) (.response status)]) w.procs.length
          = some (.rejected (.error ("Refresh failed: " ++ toString status))) ∧
        Cleared (run decode (refreshAccessToken decode now w)
          [.fetchSettles (awaited w) (.response status)])) ∧
      (∀ (status : Nat) (env : Envelope), httpOk status = true → env.status ≠ .num 200 →
        outcome (run decode (refreshAccessToken decode now w)
          [.fetchSettles (awaited w) (.response status),
           .jsonSettles (awaited w) (.parsed (some env))]) w.procs.length
          = some (.rejected (.error (jsOr env.message "Refresh failed"))) ∧
        Cleared (run decode (refreshAccessToken decode now w)
          [.fetchSettles (awaited w) (.response status),
           .jsonSettles (awaited w) (.parsed (some env))]))) ∧
    (∀ q, w.tm.refreshPromise = some q → phaseOf w q = some .awaitJson →
      ∀ env : Envelope, env.status ≠ .num 200 →
        outcome (run decode (refreshAccessToken decode now w)
          [.jsonSettles q (.parsed (some env))]) w.procs.length
          = some (.rejected (.error (jsOr env.message "Refresh failed"))) ∧
        Cleared (run decode (refreshAccessToken decode now w)
          [.jsonSettles q (.parsed (some env))])) := by
  constructor
  · intro hflight
    obtain ⟨hc, hph⟩ := refreshAccessToken_joined decode now w hpresent hlive hflight
    refine ⟨?_, ?_, ?_⟩
    · intro e
      simp only [run, List.foldl_cons, List.foldl_nil]
      rw [step_fetch_networkError decode hph e]
      exact ⟨performRefreshCatch_outcome hc e, performRefreshCatch_cleared _ _ _⟩
    · intro status hst
      simp only [run, List.foldl_cons, List.foldl_nil]
      rw [step_fetch_httpError decode hph hst]
      exact ⟨performRefreshCatch_outcome hc _, performRefreshCatch_cleared _ _ _⟩
    · intro status env hst henv
      simp only [run, List.foldl_cons, List.foldl_nil]
      rw [step_fetch_ok decode hph hst,
        step_json_envelopeError decode (phaseOf_setPhase hph _) henv]
      exact ⟨performRefreshCatch_outcome hc _, performRefreshCatch_cleared _ _ _⟩
  · intro q hrp hph env henv
    have hjoin := refreshAccessToken_attach decode now w q hrp (by rw [hph]; simp)
    have hph' : phaseOf (pushProc w (.ratAttached q)) q = some .awaitJson := hph
    simp only [run, List.foldl_cons, List.foldl_nil]
    rw [hjoin, step_json_envelopeError decode hph' henv]
    exact ⟨performRefreshCatch_outcome (Or.inr (outcome_pushProc w _)) _,
      performRefreshCatch_cleared _ _ _⟩

theorem C8_refresh_failure_rejects_and_clears_witness :
    (outcome (run demoDecode (refreshAccessToken demoDecode 150 (demoWorld "exp100" "exp900"))
        [.fetchSettles 0 (.response 500)]) 0
        = some (.rejected (.error ("Refresh failed: " ++ toString 500))) ∧
      Cleared (run demoDecode (refreshAccessToken demoDecode 150 (demoWorld "exp100" "exp900"))
        [.fetchSettles 0 (.response 500)])) ∧
    (outcome (run demoDecode (refreshAccessToken demoDecode 151
        (run demoDecode (demoWorld "exp100" "exp900")
          [.callRefresh 150, .fetchSettles 0 (.response 200)]))
        [.jsonSettles 0 (.parsed (some { status := .num 401, data := none, message := none }))])
        1 = some (.rejected (.error (jsOr none "Refresh failed"))) ∧
      Cleared (run demoDecode (refreshAccessToken demoDecode 151
        (run demoDecode (demoWorld "exp100" "exp900")
          [.callRefresh 150, .fetchSettles 0 (.response 200)]))
        [.jsonSettles 0
          (.parsed (some { status := .num 401, data := none, message := none }))])) :=
  ⟨((C8_refresh_failure_rejects_and_clears demoDecode 150 (demoWorld "exp100" "exp900")
      rfl rfl).1 (fun q h => by cases h)).2.1 500 rfl,
   (C8_refresh_failure_rejects_and_clears demoDecode 151
      (run demoDecode (demoWorld "exp100" "exp900")
        [.callRefresh 150, .fetchSettles 0 (.response 200)])
      rfl rfl).2 0 rfl rfl { status := .num 401, data := none, message := none }
      (by decide)⟩

/-! ## What one event can do -/

theorem settled_of_append {l : List Perform} {pf : Perform} {q : Nat} {o : Settled}
    (hpf : pf.phase = .awaitFetch)
    (h : ((l ++ [pf])[q]?).map (fun x => x.phase) = some (.settled o)) :
    (l[q]?).map (fun x => x.phase) = some (.settled o) := by
  rcases Nat.lt_trichotomy q l.length with hlt | heq | hgt
  · rwa [List.getElem?_append_left hlt] at h
  · subst heq
    rw [List.getElem?_append_right (Nat.le_refl _)] at h
    simp [hpf] at h
  · rw [List.getElem?_eq_none (by simp; omega)] at h
    simp at h

/-- A call of `refreshAccessToken()` adds one promise and settles no refresh. -/
theorem refreshAccessToken_shape (decode : String → Option JsVal) (now : Int) (w : World) :
    (∃ pr, (refreshAccessToken decode now w).procs = w.procs ++ [pr]) ∧
    ∀ q o, phaseOf (refreshAccessToken decode now w) q = some (.settled o) →
      phaseOf w q = some (.settled o) := by
  unfold refreshAccessToken
  split
  · split
    · exact ⟨⟨_, rfl⟩, fun _ _ h => h⟩
    · exact ⟨⟨_, rfl⟩, fun _ _ h => h⟩
  · split
    · exact ⟨⟨_, rfl⟩, fun _ _ h => h⟩
    · refine ⟨⟨_, rfl⟩, ?_⟩
      intro q o h
      exact settled_of_append rfl h

/-- A call of `getValidAccessToken()` adds promises and settles no refresh. -/
theorem getValidAccessToken_shape (decode : String → Option JsVal) (t : Readings) (w : World) :
    (∃ extra, (getValidAccessToken decode t w).procs = w.procs ++ extra) ∧
    ∀ q o, phaseOf (getValidAccessToken decode t w) q = some (.settled o) →
      phaseOf w q = some (.settled o) := by
  obtain ⟨⟨pr, hpr⟩, hph⟩ := refreshAccessToken_shape decode t.start w
  unfold getValidAccessToken
  split
  · split
    · exact ⟨⟨_, rfl⟩, fun _ _ h => h⟩
    · dsimp only
      split
      · exact ⟨⟨_ :: _, by rw [pushProc, hpr, List.append_assoc]; rfl⟩, hph⟩
      · exact ⟨⟨_ :: _, by rw [pushProc, hpr, List.append_assoc]; rfl⟩, hph⟩
      · exact ⟨⟨_ :: _, by rw [pushProc, hpr, List.append_assoc]; rfl⟩, hph⟩
  · exact ⟨⟨_, rfl⟩, fun _ _ h => h⟩

theorem settled_of_setPhase_awaitJson {w : World} {p q : Nat} {o : Settled}
    (h : phaseOf { w with performs := setPhase w.performs p .awaitJson } q
      = some (.settled o)) :
    phaseOf w q = some (.settled o) := by
  unfold phaseOf at h ⊢
  dsimp only at h
  rw [getElem?_setPhase] at h
  split at h
  · cases hget : w.performs[q]? with
    | none => rw [hget] at h; simp at h
    | some pf => rw [hget] at h; simp at h
  · exact h

/-- One event either leaves every earlier promise as it was and settles no
refresh, or runs the `catch` block of a pending `_performRefresh`, or completes
a pending `_performRefresh` with `setTokens`. -/
theorem step_cases (decode : String → Option JsVal) (w : World) (ev : Event) :
    ((∃ extra, (step decode w ev).procs = w.procs ++ extra) ∧
      ∀ q o, phaseOf (step decode w ev) q = some (.settled o) →
        phaseOf w q = some (.settled o)) ∨
    (∃ q e, (phaseOf w q = some .awaitFetch ∨ phaseOf w q = some .awaitJson) ∧
      step decode w ev = performRefreshCatch w q e) ∨
    (∃ q d, phaseOf w q = some .awaitJson ∧
      step decode w ev =
        settlePerform (setTokens w d.access_token d.refresh_token) q (.fulfilled (.data d))) := by
  cases ev with
  | callRefresh now =>
    obtain ⟨⟨pr, hpr⟩, hph⟩ := refreshAccessToken_shape decode now w
    exact Or.inl ⟨⟨_, hpr⟩, hph⟩
  | callGetValid t => exact Or.inl (getValidAccessToken_shape decode t w)
  | callClear => exact Or.inl ⟨⟨[], by simp [step, clearTokens]⟩, fun _ _ h => h⟩
  | callSetTokens a r => exact Or.inl ⟨⟨[], by simp [step, setTokens]⟩, fun _ _ h => h⟩
  | fetchSettles p r =>
    by_cases hph : phaseOf w p = some .awaitFetch
    · cases r with
      | networkError e =>
        exact Or.inr (Or.inl ⟨p, e, Or.inl hph, step_fetch_networkError decode hph e⟩)
      | response status =>
        cases hst : httpOk status with
        | false => exact Or.inr (Or.inl ⟨p, _, Or.inl hph, step_fetch_httpError decode hph hst⟩)
        | true =>
          rw [step_fetch_ok decode hph hst]
          exact Or.inl ⟨⟨[], by simp⟩, fun _ _ h => settled_of_setPhase_awaitJson h⟩
    · exact Or.inl ⟨⟨[], by simp [step, hph]⟩, fun _ _ h => by simpa [step, hph] using h⟩
  | jsonSettles p r =>
    by_cases hph : phaseOf w p = some .awaitJson
    · cases r with
      | parseError e =>
        exact Or.inr (Or.inl ⟨p, e, Or.inr hph, by simp [step, hph, performRefreshParsed]⟩)
      | parsed data =>
        cases data with
        | none =>
          exact Or.inr (Or.inl ⟨p, _, Or.inr hph, by simp [step, hph, performRefreshParsed]; rfl⟩)
        | some env =>
          by_cases hst : env.status = .num 200
          · cases hd : env.data with
            | none =>
              exact Or.inr (Or.inl ⟨p, _, Or.inr hph,
                by simp [step, hph, performRefreshParsed, hst, hd]; rfl⟩)
            | some d => exact Or.inr (Or.inr ⟨p, d, hph, step_json_success decode hph hst hd⟩)
          · exact Or.inr (Or.inl ⟨p, _, Or.inr hph, step_json_envelopeError decode hph hst⟩)
    · exact Or.inl ⟨⟨[], by simp [step, hph]⟩, fun _ _ h => by simpa [step, hph] using h⟩

/-! ## After a failed refresh -/

/-- C9: when an event makes a pending call of `refreshAccessToken()` reject
(the refresh it waits for fails at the transport), the next call of
`getValidAccessToken()` rejects with the session-expired error and issues no
transport refresh call. -/
theorem C9_session_expired_after_refresh_failure (decode : String → Option JsVal) (w : World)
    (ev : Event) (c p : Nat) (e : JsErr) (t : Readings)
    (hc : w.procs[c]? = some (.ratInit p) ∨ w.procs[c]? = some (.ratAttached p))
    (hfail : outcome (step decode w ev) c = some (.rejected e)) :
    outcome (getValidAccessToken decode t (step decode w ev)) (step decode w ev).procs.length
      = some (.rejected (.error "Both tokens expired. Please login again.")) ∧
    (getValidAccessToken decode t (step decode w ev)).performs = (step decode w ev).performs ∧
    transportLog (getValidAccessToken decode t (step decode w ev))
      = transportLog (step decode w ev) := by
  have hclr : Cleared (step decode w ev) := by
    rcases step_cases decode w ev with ⟨⟨extra, hex⟩, _⟩ | ⟨q, e', _, hstep⟩ | ⟨q, d, _, hstep⟩
    · exfalso
      have hlt : c < w.procs.length := by
        rcases hc with h | h <;>
          exact (List.getElem?_eq_some.mp h).1
      unfold outcome at hfail
      rw [hex, List.getElem?_append_left hlt] at hfail
      rcases hc with h | h <;> rw [h] at hfail <;> simp at hfail
    · rw [hstep]
      exact performRefreshCatch_cleared w q e'
    · exfalso
      have hc' : (setTokens w d.access_token d.refresh_token).procs[c]? = some (.ratInit p) ∨
          (setTokens w d.access_token d.refresh_token).procs[c]? = some (.ratAttached p) := hc
      unfold outcome at hfail
      rw [hstep, settlePerform_rat hc' q] at hfail
      split at hfail
      · next heq =>
        split at heq
        · simp at heq
          subst heq
          simp at hfail
        · rcases hc' with h | h <;> rw [h] at heq <;> simp at heq
      · simp at hfail
  obtain ⟨ha, hr, _⟩ := hclr
  rw [getValidAccessToken_sessionExpired decode t _
    (Or.inl (by rw [ha]; rfl)) (Or.inl (by rw [hr]; rfl))]
  refine ⟨?_, rfl, rfl⟩
  unfold outcome
  rw [outcome_pushProc]

theorem C9_session_expired_after_refresh_failure_witness :
    outcome (getValidAccessToken demoDecode (Readings.same 160)
        (step demoDecode (refreshAccessToken demoDecode 150 (demoWorld "exp100" "exp900"))
          (.fetchSettles 0 (.networkError (.typeError "Failed to fetch"))))) 1
      = some (.rejected (.error "Both tokens expired. Please login again.")) ∧
    transportLog (getValidAccessToken demoDecode (Readings.same 160)
        (step demoDecode (refreshAccessToken demoDecode 150 (demoWorld "exp100" "exp900"))
          (.fetchSettles 0 (.networkError (.typeError "Failed to fetch")))))
      = transportLog (step demoDecode (refreshAccessToken demoDecode 150
          (demoWorld "exp100" "exp900"))
          (.fetchSettles 0 (.networkError (.typeError "Failed to fetch")))) :=
  ⟨(C9_session_expired_after_refresh_failure demoDecode
      (refreshAccessToken demoDecode 150 (demoWorld "exp100" "exp900"))
      (.fetchSettles 0 (.networkError (.typeError "Failed to fetch"))) 0 0
      (.typeError "Failed to fetch") (Readings.same 160) (Or.inl rfl) rfl).1,
   (C9_session_expired_after_refresh_failure demoDecode
      (refreshAccessToken demoDecode 150 (demoWorld "exp100" "exp900"))
      (.fetchSettles 0 (.networkError (.typeError "Failed to fetch"))) 0 0
      (.typeError "Failed to fetch") (Readings.same 160) (Or.inl rfl) rfl).2.2⟩

/-! ## `clearTokens` while a refresh is in flight -/

/-- C10 (as stated, refuted): a refresh is started, `clearTokens()` is called
while its `fetch` is outstanding (both tokens are then `null`), and the
transport then succeeds: after the refresh settles the manager holds the pair
of the stale answer again, in memory and in `localStorage`. -/
theorem C10_stale_refresh_resurrects_session :
    Cleared (run demoDecode (demoWorld "exp100" "exp900") [.callRefresh 150, .callClear]) ∧
    (run demoDecode (demoWorld "exp100" "exp900")
      [.callRefresh 150, .callClear, .fetchSettles 0 (.response 200),
       .jsonSettles 0 (.parsed (some (demoEnvelope "exp200" "exp900")))]).tm.accessToken
      = .str "exp200" ∧
    (run demoDecode (demoWorld "exp100" "exp900")
      [.callRefresh 150, .callClear, .fetchSettles 0 (.response 200),
       .jsonSettles 0 (.parsed (some (demoEnvelope "exp200" "exp900")))]).tm.refreshToken
      = .str "exp900" ∧
    (run demoDecode (demoWorld "exp100" "exp900")
      [.callRefresh 150, .callClear, .fetchSettles 0 (.response 200),
       .jsonSettles 0 (.parsed (some (demoEnvelope "exp200" "exp900")))]).storage
      = { access_token := some "exp200", refresh_token := some "exp900" } := by
  decide

/-- C10 (amended): `clearTokens()` called while a refresh is in flight empties
the credentials but does not invalidate the refresh; when the transport then
answers with HTTP success and the envelope `{status: 200, data: d}`, the stale
result is written by `setTokens`: after the refresh settles the manager holds
the pair of `d`, in memory and in `localStorage`. -/
theorem C10_clear_does_not_invalidate_refresh (decode : String → Option JsVal) (w : World)
    (p status : Nat) (env : Envelope) (d : TokenData)
    (hflight : phaseOf w p = some .awaitFetch)
    (hok : httpOk status = true) (hstatus : env.status = .num 200)
    (hdata : env.data = some d) :
    Cleared (run decode w [.callClear]) ∧
    (run decode w [.callClear, .fetchSettles p (.response status),
      .jsonSettles p (.parsed (some env))]).tm.accessToken = d.access_token ∧
    (run decode w [.callClear, .fetchSettles p (.response status),
      .jsonSettles p (.parsed (some env))]).tm.refreshToken = d.refresh_token ∧
    (run decode w [.callClear, .fetchSettles p (.response status),
      .jsonSettles p (.parsed (some env))]).storage
      = { access_token := some d.access_token.toStr
          refresh_token := some d.refresh_token.toStr } := by
  have hflight' : phaseOf (clearTokens w) p = some .awaitFetch := hflight
  refine ⟨⟨rfl, rfl, rfl⟩, ?_⟩
  simp only [run, List.foldl_cons, List.foldl_nil]
  have h0 : step decode w .callClear = clearTokens w := rfl
  rw [h0, step_fetch_ok decode hflight' hok,
    step_json_success decode (phaseOf_setPhase hflight' _) hstatus hdata,
    settlePerform_accessToken, settlePerform_refreshToken, settlePerform_storage]
  exact ⟨rfl, rfl, rfl⟩

theorem C10_clear_does_not_invalidate_refresh_witness :
    (run demoDecode (refreshAccessToken demoDecode 150 (demoWorld "exp100" "exp900"))
      [.callClear, .fetchSettles 0 (.response 200),
       .jsonSettles 0 (.parsed (some (demoEnvelope "exp200" "exp900")))]).tm.accessToken
      = .str "exp200" :=
  (C10_clear_does_not_invalidate_refresh demoDecode
    (refreshAccessToken demoDecode 150 (demoWorld "exp100" "exp900")) 0 200
    (demoEnvelope "exp200" "exp900")
    { access_token := .str "exp200", refresh_token := .str "exp900" } rfl rfl rfl rfl).2.1

/-! ## Single flight -/

theorem joined_pending {base p : Nat} {v : World} (h : Joined base p v) (o : Settled) :
    phaseOf v p ≠ some (.settled o) := by
  rcases h.2.1 with h1 | h1 <;> rw [h1] <;> simp

/-- A further call of `refreshAccessToken()`, and the arrival of the HTTP
success response, keep the refresh in flight, issue no transport call, and add
only promises that wait for it. -/
theorem joined_step (decode : String → Option JsVal) {base p : Nat} {v : World}
    (h : Joined base p v) {ev : Event}
    (hev : (∃ t, ev = .callRefresh t) ∨
      (∃ status, httpOk status = true ∧ ev = .fetchSettles p (.response status))) :
    Joined base p (step decode v ev) ∧
    (step decode v ev).procs.length = v.procs.length + (if ev.isRefreshCall then 1 else 0) ∧
    transportLog (step decode v ev) = transportLog v := by
  obtain ⟨hrp, hph, hprocs⟩ := h
  rcases hev with ⟨t, rfl⟩ | ⟨status, hok, rfl⟩
  · have hstep : step decode v (.callRefresh t) = pushProc v (.ratAttached p) :=
      refreshAccessToken_attach decode t v p hrp (joined_pending ⟨hrp, hph, hprocs⟩)
    rw [hstep]
    refine ⟨⟨hrp, hph, ?_⟩, by simp [pushProc, Event.isRefreshCall], rfl⟩
    intro i hbase hi
    have hi' : i < v.procs.length + 1 := by simpa [pushProc] using hi
    by_cases hlt : i < v.procs.length
    · have := hprocs i hbase hlt
      simpa [pushProc, List.getElem?_append_left hlt] using this
    · have heq : i = v.procs.length := by omega
      subst heq
      exact Or.inr (outcome_pushProc v _)
  · by_cases hf : phaseOf v p = some .awaitFetch
    · rw [step_fetch_ok decode hf hok]
      refine ⟨⟨hrp, Or.inr (phaseOf_setPhase hf _), hprocs⟩, by simp [Event.isRefreshCall], ?_⟩
      simp [transportLog, map_body_setPhase]
    · have hstep : step decode v (.fetchSettles p (.response status)) = v := by
        simp [step, hf]
      rw [hstep]
      exact ⟨⟨hrp, hph, hprocs⟩, by simp [Event.isRefreshCall], rfl⟩

theorem joined_run (decode : String → Option JsVal) {base p : Nat} (es : List Event) :
    ∀ v : World, Joined base p v →
    (∀ ev ∈ es, (∃ t, ev = .callRefresh t) ∨
      (∃ status, httpOk status = true ∧ ev = .fetchSettles p (.response status))) →
    Joined base p (run decode v es) ∧
    (run decode v es).procs.length = v.procs.length + es.countP Event.isRefreshCall ∧
    transportLog (run decode v es) = transportLog v := by
  induction es with
  | nil => intro v h _; exact ⟨h, by simp [run], rfl⟩
  | cons ev rest ih =>
    intro v h hes
    obtain ⟨hj, hlen, hlog⟩ := joined_step decode h (hes ev (List.mem_cons_self _ _))
    obtain ⟨hj', hlen', hlog'⟩ := ih (step decode v ev) hj
      (fun ev' hmem => hes ev' (List.mem_cons_of_mem _ hmem))
    refine ⟨hj', ?_, ?_⟩
    · show (run decode (step decode v ev) rest).procs.length = _
      rw [hlen', hlen, List.countP_cons]
      omega
    · show transportLog (run decode (step decode v ev) rest) = _
      rw [hlog', hlog]

theorem joins_cases {p : Nat} {ev : Event} (h : ev.joins p = true) :
    (∃ t, ev = .callRefresh t) ∨
      (∃ status, httpOk status = true ∧ ev = .fetchSettles p (.response status)) := by
  cases ev with
  | callRefresh t => exact Or.inl ⟨t, rfl⟩
  | fetchSettles q r =>
    cases r with
    | networkError e => simp [Event.joins] at h
    | response status =>
      simp [Event.joins] at h
      obtain ⟨hq, hok⟩ := h
      subst hq
      exact Or.inr ⟨status, hok, rfl⟩
  | callGetValid t => simp [Event.joins] at h
  | callClear => simp [Event.joins] at h
  | callSetTokens a r => simp [Event.joins] at h
  | jsonSettles q r => simp [Event.joins] at h

/-- When the refresh `p` settles with `o`, every call that waits for it settles
with `o`, and no transport call is issued. -/
theorem joined_settle {base p : Nat} {v u : World} (h : Joined base p v)
    (hprocs : u.procs = v.procs) (hperf : u.performs = v.performs) (q : Nat) (o' o : Settled)
    (hfin : phaseOf (settlePerform u q o') p = some (.settled o)) :
    transportLog (settlePerform u q o') = transportLog v ∧
    (settlePerform u q o').procs.length = v.procs.length ∧
    ∀ i, base ≤ i → i < v.procs.length → outcome (settlePerform u q o') i = some o := by
  have hphu : phaseOf u p = phaseOf v p := by unfold phaseOf; rw [hperf]
  rw [phaseOf_settlePerform] at hfin
  have hpq : p = q := by
    by_contra hne
    rw [if_neg hne, hphu] at hfin
    exact joined_pending h o hfin
  subst hpq
  have ho : o' = o := by
    rw [if_pos rfl, hphu] at hfin
    rcases h.2.1 with h1 | h1 <;> rw [h1] at hfin <;> simpa using hfin
  subst ho
  refine ⟨?_, ?_, ?_⟩
  · simp [transportLog, settlePerform_performs, map_body_setPhase, hperf]
  · rw [settlePerform_procs_length, hprocs]
  · intro i hbase hi
    have hi' := h.2.2 i hbase hi
    rw [← hprocs] at hi'
    unfold outcome
    rw [settlePerform_rat hi' p o']
    simp

theorem phaseOf_performRefreshCatch {w : World} {p : Nat} {ph : Phase}
    (h : phaseOf w p = some ph) (e : JsErr) :
    phaseOf (performRefreshCatch w p e) p = some (.settled (.rejected e)) := by
  have h' : phaseOf (clearTokens w) p = some ph := h
  unfold performRefreshCatch
  rw [phaseOf_settlePerform, if_pos rfl, h']
  rfl

/-- Every answer of `response.json()` settles the refresh that waits for it. -/
theorem json_answer_settles (decode : String → Option JsVal) {w : World} {p : Nat}
    (h : phaseOf w p = some .awaitJson) (r : JsonReply) :
    ∃ o, phaseOf (step decode w (.jsonSettles p r)) p = some (.settled o) := by
  have hset : ∀ (a b : Tok) (o : Settled),
      phaseOf (settlePerform (setTokens w a b) p o) p = some (.settled o) := by
    intro a b o
    have h' : phaseOf (setTokens w a b) p = some .awaitJson := h
    rw [phaseOf_settlePerform, if_pos rfl, h']
    rfl
  simp only [step, h, if_true]
  unfold performRefreshParsed
  split
  · exact ⟨_, phaseOf_performRefreshCatch h _⟩
  · exact ⟨_, phaseOf_performRefreshCatch h _⟩
  · split
    · split
      · exact ⟨_, hset _ _ _⟩
      · exact ⟨_, phaseOf_performRefreshCatch h _⟩
    · exact ⟨_, phaseOf_performRefreshCatch h _⟩

/-- C1: from an idle state with a present, unexpired refresh token, a call of
`refreshAccessToken()` followed, before its refresh settles, by any number of
further calls (the events `es`; the HTTP success response may arrive in
between) issues exactly one transport refresh call, and when the refresh
settles with the outcome `o` (at the event `fin`), every one of the
`1 + es.countP isRefreshCall` calls has settled with that same outcome `o`.
Until then the refresh is pending, and it does settle: a rejected or not-ok
`fetch` settles it with the rejection, and any answer of `response.json()`
settles it. -/
theorem C1_single_flight (decode : String → Option JsVal) (now : Int) (w : World)
    (es : List Event) (fin : Event) (o : Settled)
    (hidle : w.tm.refreshPromise = none)
    (hpresent : w.tm.refreshToken.truthy = true)
    (hlive : isRefreshTokenExpired decode w.tm now = false)
    (hes : ∀ ev ∈ es, ev.joins w.performs.length = true)
    (hfin : phaseOf (step decode (run decode (refreshAccessToken decode now w) es) fin)
      w.performs.length = some (.settled o)) :
    transportLog (run decode (refreshAccessToken decode now w) es)
      = transportLog w ++ [w.tm.refreshToken] ∧
    transportLog (step decode (run decode (refreshAccessToken decode now w) es) fin)
      = transportLog w ++ [w.tm.refreshToken] ∧
    (step decode (run decode (refreshAccessToken decode now w) es) fin).procs.length
      = w.procs.length + 1 + es.countP Event.isRefreshCall ∧
    (∀ i, w.procs.length ≤ i →
      i < w.procs.length + 1 + es.countP Event.isRefreshCall →
      outcome (step decode (run decode (refreshAccessToken decode now w) es) fin) i = some o) ∧
    (phaseOf (run decode (refreshAccessToken decode now w) es) w.performs.length
        = some .awaitFetch ∨
      phaseOf (run decode (refreshAccessToken decode now w) es) w.performs.length
        = some .awaitJson) ∧
    (phaseOf (run decode (refreshAccessToken decode now w) es) w.performs.length
        = some .awaitFetch →
      (∀ e, phaseOf (step decode (run decode (refreshAccessToken decode now w) es)
          (.fetchSettles w.performs.length (.networkError e))) w.performs.length
          = some (.settled (.rejected e))) ∧
      (∀ status, httpOk status = false →
        phaseOf (step decode (run decode (refreshAccessToken decode now w) es)
          (.fetchSettles w.performs.length (.response status))) w.performs.length
          = some (.settled (.rejected (.error ("Refresh failed: " ++ toString status)))))) ∧
    (phaseOf (run decode (refreshAccessToken decode now w) es) w.performs.length
        = some .awaitJson →
      ∀ r, ∃ o', phaseOf (step decode (run decode (refreshAccessToken decode now w) es)
          (.jsonSettles w.performs.length r)) w.performs.length = some (.settled o')) := by
  have hstart := refreshAccessToken_start decode now w hidle hpresent hlive
  have hj0 : Joined w.procs.length w.performs.length (refreshAccessToken decode now w) := by
    rw [hstart]
    refine ⟨rfl, Or.inl ?_, ?_⟩
    · unfold phaseOf
      dsimp only
      rw [phaseOf_append_length]
      rfl
    · intro i hbase hi
      have hi' : i < w.procs.length + 1 := by simpa using hi
      have heq : i = w.procs.length := by omega
      subst heq
      left
      show (w.procs ++ [Proc.ratInit w.performs.length])[w.procs.length]? = _
      rw [List.getElem?_append_right (Nat.le_refl _)]
      simp
  have hlog0 : transportLog (refreshAccessToken decode now w)
      = transportLog w ++ [w.tm.refreshToken] := by
    rw [hstart]; simp [transportLog]
  have hlen0 : (refreshAccessToken decode now w).procs.length = w.procs.length + 1 := by
    rw [hstart]; simp
  obtain ⟨hj, hlen, hlog⟩ := joined_run decode es (refreshAccessToken decode now w) hj0
    (fun ev hmem => joins_cases (hes ev hmem))
  rw [hlen0] at hlen
  rw [hlog0] at hlog
  have hprogress :
      (phaseOf (run decode (refreshAccessToken decode now w) es) w.performs.length
          = some .awaitFetch →
        (∀ e, phaseOf (step decode (run decode (refreshAccessToken decode now w) es)
            (.fetchSettles w.performs.length (.networkError e))) w.performs.length
            = some (.settled (.rejected e))) ∧
        (∀ status, httpOk status = false →
          phaseOf (step decode (run decode (refreshAccessToken decode now w) es)
            (.fetchSettles w.performs.length (.response status))) w.performs.length
            = some (.settled (.rejected (.error ("Refresh failed: " ++ toString status)))))) ∧
      (phaseOf (run decode (refreshAccessToken decode now w) es) w.performs.length
          = some .awaitJson →
        ∀ r, ∃ o', phaseOf (step decode (run decode (refreshAccessToken decode now w) es)
            (.jsonSettles w.performs.length r)) w.performs.length = some (.settled o')) := by
    refine ⟨fun hf => ⟨fun e => ?_, fun status hst => ?_⟩, fun hjs r => ?_⟩
    · rw [step_fetch_networkError decode hf e]
      exact phaseOf_performRefreshCatch hf e
    · rw [step_fetch_httpError decode hf hst]
      exact phaseOf_performRefreshCatch hf _
    · exact json_answer_settles decode hjs r
  refine ⟨hlog, ?_⟩
  suffices hmain :
      transportLog (step decode (run decode (refreshAccessToken decode now w) es) fin)
        = transportLog w ++ [w.tm.refreshToken] ∧
      (step decode (run decode (refreshAccessToken decode now w) es) fin).procs.length
        = w.procs.length + 1 + es.countP Event.isRefreshCall ∧
      (∀ i, w.procs.length ≤ i →
        i < w.procs.length + 1 + es.countP Event.isRefreshCall →
        outcome (step decode (run decode (refreshAccessToken decode now w) es) fin) i
          = some o) from
    ⟨hmain.1, hmain.2.1, hmain.2.2, hj.2.1, hprogress.1, hprogress.2⟩
  rcases step_cases decode (run decode (refreshAccessToken decode now w) es) fin with
    ⟨_, hno⟩ | ⟨q, e, _, hstep⟩ | ⟨q, d, _, hstep⟩
  · exact absurd (hno _ _ hfin) (joined_pending hj o)
  · rw [hstep] at hfin ⊢
    unfold performRefreshCatch at hfin ⊢
    obtain ⟨h1, h2, h3⟩ := joined_settle hj
      (u := clearTokens (run decode (refreshAccessToken decode now w) es)) rfl rfl q _ o hfin
    exact ⟨by rw [h1, hlog], by rw [h2, hlen], fun i hb hi => h3 i hb (by rw [hlen]; exact hi)⟩
  · rw [hstep] at hfin ⊢
    obtain ⟨h1, h2, h3⟩ := joined_settle hj
      (u := setTokens (run decode (refreshAccessToken decode now w) es)
        d.access_token d.refresh_token) rfl rfl q _ o hfin
    exact ⟨by rw [h1, hlog], by rw [h2, hlen], fun i hb hi => h3 i hb (by rw [hlen]; exact hi)⟩

theorem C1_single_flight_witness :
    transportLog (step demoDecode (run demoDecode
        (refreshAccessToken demoDecode 150 (demoWorld "exp100" "exp900"))
        [.callRefresh 151, .fetchSettles 0 (.response 200), .callRefresh 152])
        (.jsonSettles 0 (.parsed (some (demoEnvelope "exp200" "exp900")))))
      = [.str "exp900"] ∧
    ∀ i, 0 ≤ i → i < 3 →
      outcome (step demoDecode (run demoDecode
        (refreshAccessToken demoDecode 150 (demoWorld "exp100" "exp900"))
        [.callRefresh 151, .fetchSettles 0 (.response 200), .callRefresh 152])
        (.jsonSettles 0 (.parsed (some (demoEnvelope "exp200" "exp900"))))) i
      = some (.fulfilled
          (.data { access_token := .str "exp200", refresh_token := .str "exp900" })) :=
  ⟨(C1_single_flight demoDecode 150 (demoWorld "exp100" "exp900")
      [.callRefresh 151, .fetchSettles 0 (.response 200), .callRefresh 152]
      (.jsonSettles 0 (.parsed (some (demoEnvelope "exp200" "exp900"))))
      (.fulfilled (.data { access_token := .str "exp200", refresh_token := .str "exp900" }))
      rfl rfl rfl (by decide) rfl).2.1,
   (C1_single_flight demoDecode 150 (demoWorld "exp100" "exp900")
      [.callRefresh 151, .fetchSettles 0 (.response 200), .callRefresh 152]
      (.jsonSettles 0 (.parsed (some (demoEnvelope "exp200" "exp900"))))
      (.fulfilled (.data { access_token := .str "exp200", refresh_token := .str "exp900" }))
      rfl rfl rfl (by decide) rfl).2.2.2.1⟩

/-! ## The life of `refreshPromise` -/

theorem grows_refreshAccessToken (decode : String → Option JsVal) (now : Int) (w : World) :
    Grows w (refreshAccessToken decode now w) := by
  unfold refreshAccessToken
  split
  · next p hp =>
    split
    · exact ⟨_, rfl, Or.inl ⟨rfl, by simp⟩⟩
    · exact ⟨_, rfl, Or.inl ⟨rfl, by simp⟩⟩
  · next hnone =>
    split
    · exact ⟨_, rfl, Or.inl ⟨rfl, by simp⟩⟩
    · refine ⟨_, rfl, Or.inr ⟨hnone, w.performs.length, rfl, ?_⟩⟩
      intro pr hpr q hq
      simp only [List.mem_singleton] at hpr
      rw [hpr] at hq
      exact (Proc.ratInit.inj hq).symm

theorem grows_push {w v : World} (h : Grows w v) (pr : Proc) (hpr : ∀ q, pr ≠ Proc.ratInit q) :
    Grows w (pushProc v pr) := by
  obtain ⟨extra, hprocs, hcase⟩ := h
  refine ⟨extra ++ [pr], by simp [pushProc, hprocs], ?_⟩
  rcases hcase with ⟨hsame, hno⟩ | ⟨hnone, p, hp, hall⟩
  · refine Or.inl ⟨hsame, ?_⟩
    intro x hx q
    rcases List.mem_append.mp hx with h1 | h1
    · exact hno x h1 q
    · simp only [List.mem_singleton] at h1
      rw [h1]
      exact hpr q
  · refine Or.inr ⟨hnone, p, hp, ?_⟩
    intro x hx q hq
    rcases List.mem_append.mp hx with h1 | h1
    · exact hall x h1 q hq
    · simp only [List.mem_singleton] at h1
      rw [h1] at hq
      exact absurd hq (hpr q)

theorem grows_refl (w : World) : Grows w w :=
  ⟨[], by simp, Or.inl ⟨rfl, by simp⟩⟩

theorem grows_getValidAccessToken (decode : String → Option JsVal) (t : Readings) (w : World) :
    Grows w (getValidAccessToken decode t w) := by
  have hr := grows_refreshAccessToken decode t.start w
  unfold getValidAccessToken
  split
  · split
    · exact grows_push (grows_refl w) _ (by simp)
    · dsimp only
      split
      · exact grows_push hr _ (by simp)
      · exact grows_push hr _ (by simp)
      · exact grows_push hr _ (by simp)
  · exact grows_push (grows_refl w) _ (by simp)

/-- One event either only adds promises (`Grows`), or it settles a refresh:
it is `settlePerform` on a state with the same promises and the same
`refreshPromise`. -/
theorem step_grows_or_settles (decode : String → Option JsVal) (w : World) (ev : Event) :
    Grows w (step decode w ev) ∨
    ∃ (u : World) (q : Nat) (o : Settled), u.procs = w.procs ∧
      u.tm.refreshPromise = w.tm.refreshPromise ∧ step decode w ev = settlePerform u q o := by
  cases ev with
  | callRefresh now => exact Or.inl (grows_refreshAccessToken decode now w)
  | callGetValid t => exact Or.inl (grows_getValidAccessToken decode t w)
  | callClear => exact Or.inl ⟨[], by simp [step, clearTokens], Or.inl ⟨rfl, by simp⟩⟩
  | callSetTokens a r => exact Or.inl ⟨[], by simp [step, setTokens], Or.inl ⟨rfl, by simp⟩⟩
  | fetchSettles p r =>
    show Grows w (if phaseOf w p = some .awaitFetch then performRefreshFetched w p r else w) ∨
      ∃ (u : World) (q : Nat) (o : Settled), u.procs = w.procs ∧
        u.tm.refreshPromise = w.tm.refreshPromise ∧
        (if phaseOf w p = some .awaitFetch then performRefreshFetched w p r else w)
          = settlePerform u q o
    split
    · unfold performRefreshFetched
      split
      · exact Or.inr ⟨clearTokens w, _, _, rfl, rfl, rfl⟩
      · split
        · exact Or.inr ⟨clearTokens w, _, _, rfl, rfl, rfl⟩
        · exact Or.inl ⟨[], by simp, Or.inl ⟨rfl, by simp⟩⟩
    · exact Or.inl (grows_refl w)
  | jsonSettles p r =>
    show Grows w (if phaseOf w p = some .awaitJson then performRefreshParsed w p r else w) ∨
      ∃ (u : World) (q : Nat) (o : Settled), u.procs = w.procs ∧
        u.tm.refreshPromise = w.tm.refreshPromise ∧
        (if phaseOf w p = some .awaitJson then performRefreshParsed w p r else w)
          = settlePerform u q o
    split
    · unfold performRefreshParsed
      split
      · exact Or.inr ⟨clearTokens w, _, _, rfl, rfl, rfl⟩
      · exact Or.inr ⟨clearTokens w, _, _, rfl, rfl, rfl⟩
      · split
        · split
          · next d _ =>
            exact Or.inr ⟨setTokens w d.access_token d.refresh_token, _, _, rfl, rfl, rfl⟩
          · exact Or.inr ⟨clearTokens w, _, _, rfl, rfl, rfl⟩
        · exact Or.inr ⟨clearTokens w, _, _, rfl, rfl, rfl⟩
    · exact Or.inl (grows_refl w)

theorem linked_of_grows {w v : World} (hw : Linked w) (h : Grows w v) : Linked v := by
  obtain ⟨extra, hprocs, hcase⟩ := h
  intro c q hc
  rw [hprocs] at hc
  by_cases hlt : c < w.procs.length
  · rw [List.getElem?_append_left hlt] at hc
    have hold := hw c q hc
    rcases hcase with ⟨hsame, _⟩ | ⟨hnone, _⟩
    · rw [hsame]; exact hold
    · rw [hnone] at hold; cases hold
  · rw [List.getElem?_append_right (by omega)] at hc
    have hmem : Proc.ratInit q ∈ extra := List.getElem?_mem hc
    rcases hcase with ⟨_, hno⟩ | ⟨_, p, hp, hall⟩
    · exact absurd rfl (hno _ hmem q)
    · rw [hp, hall _ hmem q rfl]

/-- After `settlePerform`, a call still suspended on a promise of its own was
suspended on it before, and that promise is not the one that settled. -/
theorem settlePerform_ratInit {u : World} {q c q' : Nat} {o : Settled}
    (h : (settlePerform u q o).procs[c]? = some (.ratInit q')) :
    u.procs[c]? = some (.ratInit q') ∧ q' ≠ q := by
  unfold settlePerform at h
  dsimp only at h
  rw [List.getElem?_map, List.getElem?_map] at h
  cases hc : u.procs[c]? with
  | none => rw [hc] at h; simp at h
  | some pr =>
    rw [hc] at h
    cases pr with
    | done o' => simp [wakeRefresh, wakeGetValid] at h
    | ratInit x =>
      by_cases hx : x = q
      · simp [wakeRefresh, wakeGetValid, hx] at h
      · simp [wakeRefresh, wakeGetValid, hx] at h
        subst h
        exact ⟨rfl, hx⟩
    | ratAttached x =>
      by_cases hx : x = q <;> simp [wakeRefresh, wakeGetValid, hx] at h
    | gvat g =>
      simp only [wakeRefresh, Option.map_some', wakeGetValid] at h
      split at h <;> simp at h

theorem exists_ratInit_of_any {l : List Proc} {q : Nat}
    (h : l.any (fun pr => pr == .ratInit q) = true) : ∃ c : Nat, l[c]? = some (Proc.ratInit q) := by
  rw [List.any_eq_true] at h
  obtain ⟨x, hx, hbeq⟩ := h
  have hxe : x = .ratInit q := by simpa using hbeq
  subst hxe
  exact List.getElem?_of_mem hx

theorem settlePerform_refreshPromise_cases (u : World) (q : Nat) (o : Settled) :
    ((settlePerform u q o).tm.refreshPromise = none ∧
      ∃ c : Nat, u.procs[c]? = some (Proc.ratInit q)) ∨
    ((settlePerform u q o).tm.refreshPromise = u.tm.refreshPromise ∧
      ∀ c : Nat, u.procs[c]? ≠ some (Proc.ratInit q)) := by
  cases hany : u.procs.any (fun pr => pr == .ratInit q) with
  | true =>
    left
    obtain ⟨c, hc⟩ := exists_ratInit_of_any hany
    exact ⟨settlePerform_refreshPromise o hc, c, hc⟩
  | false =>
    right
    constructor
    · unfold settlePerform
      dsimp only
      rw [hany]
      rfl
    · intro c hc
      rw [any_ratInit_of_getElem? hc] at hany
      cases hany

theorem linked_step (decode : String → Option JsVal) {w : World} (hw : Linked w) (ev : Event) :
    Linked (step decode w ev) := by
  rcases step_grows_or_settles decode w ev with hg | ⟨u, q, o, hprocs, hrp, hstep⟩
  · exact linked_of_grows hw hg
  · rw [hstep]
    intro c q' hc
    obtain ⟨hold, hne⟩ := settlePerform_ratInit hc
    have hlink : u.tm.refreshPromise = some q' := by
      rw [hrp]
      exact hw c q' (by rw [← hprocs]; exact hold)
    rcases settlePerform_refreshPromise_cases u q o with ⟨_, c0, hc0⟩ | ⟨hsame, _⟩
    · exfalso
      have hq : u.tm.refreshPromise = some q := by
        rw [hrp]
        exact hw c0 q (by rw [← hprocs]; exact hc0)
      rw [hlink] at hq
      exact hne (Option.some.inj hq)
    · rw [hsame]
      exact hlink

theorem linked_run (decode : String → Option JsVal) (es : List Event) :
    ∀ w : World, Linked w → Linked (run decode w es) := by
  induction es with
  | nil => intro w h; exact h
  | cons ev rest ih => intro w h; exact ih _ (linked_step decode h ev)

/-- An event resets `refreshPromise` only by settling the call that started the
refresh: while `refreshPromise` holds `p`, an event either leaves it so, or
makes it `null` and settles the call suspended on `p` at line 81. -/
theorem reset_only_by_settlement (decode : String → Option JsVal) {w : World} (hw : Linked w)
    (ev : Event) {p : Nat} (hp : w.tm.refreshPromise = some p) :
    (step decode w ev).tm.refreshPromise = some p ∨
    ((step decode w ev).tm.refreshPromise = none ∧
      ∃ (c : Nat) (o : Settled), w.procs[c]? = some (Proc.ratInit p) ∧
        outcome (step decode w ev) c = some o) := by
  rcases step_grows_or_settles decode w ev with hg | ⟨u, q, o, hprocs, hrp, hstep⟩
  · obtain ⟨extra, _, hcase⟩ := hg
    rcases hcase with ⟨hsame, _⟩ | ⟨hnone, _⟩
    · exact Or.inl (by rw [hsame, hp])
    · rw [hnone] at hp; cases hp
  · rw [hstep]
    rcases settlePerform_refreshPromise_cases u q o with ⟨hreset, c, hc⟩ | ⟨hsame, _⟩
    · right
      have hq : some q = some p := by
        rw [← hp, ← hw c q (by rw [← hprocs]; exact hc)]
      have hqp : q = p := Option.some.inj hq
      subst hqp
      refine ⟨hreset, c, o, by rw [← hprocs]; exact hc, ?_⟩
      unfold outcome
      rw [settlePerform_rat (Or.inl hc) q o]
      simp
    · exact Or.inl (by rw [hsame, hrp, hp])

/-! ## `clearTokens` -/

/-- C11 (as stated, refuted): with a refresh in flight, `clearTokens()` leaves
`refreshPromise` set: the refresh state is not idle after the call. -/
theorem C11_clear_keeps_refreshPromise :
    (refreshAccessToken demoDecode 150 (demoWorld "exp100" "exp900")).tm.refreshPromise
      = some 0 ∧
    (clearTokens
      (refreshAccessToken demoDecode 150 (demoWorld "exp100" "exp900"))).tm.refreshPromise
      = some 0 := by
  decide

/-- C11 (amended): for every state, `clearTokens()` leaves both tokens absent
and the persisted pair erased, and leaves the refresh state as it was:
`refreshPromise`, the refreshes in flight and the pending calls are unchanged.
In every state reached from a manager on which no call has been made yet, by
calls of `setTokens`, `clearTokens`, `refreshAccessToken`,
`getValidAccessToken` and answers of the transport, a `refreshPromise` that
holds a promise `p` becomes `null` only in an event that settles the call that
started the refresh (the call suspended on `p` at line 81); every other event
leaves it as it is. -/
theorem C11_clear_leaves_refresh_state (decode : String → Option JsVal) (w : World) :
    Cleared (clearTokens w) ∧
    (clearTokens w).tm.refreshPromise = w.tm.refreshPromise ∧
    (clearTokens w).performs = w.performs ∧
    (clearTokens w).procs = w.procs ∧
    (∀ (es : List Event) (ev : Event) (p : Nat), w.procs = [] →
      (run decode w es).tm.refreshPromise = some p →
      (step decode (run decode w es) ev).tm.refreshPromise = some p ∨
      ((step decode (run decode w es) ev).tm.refreshPromise = none ∧
        ∃ (c : Nat) (o : Settled),
          (run decode w es).procs[c]? = some (Proc.ratInit p) ∧
          outcome (step decode (run decode w es) ev) c = some o)) := by
  refine ⟨⟨rfl, rfl, rfl⟩, rfl, rfl, rfl, ?_⟩
  intro es ev p hfresh hp
  have hlinked : Linked w := by
    intro c q hc
    rw [hfresh] at hc
    simp at hc
  exact reset_only_by_settlement decode (linked_run decode es w hlinked) ev hp

theorem C11_clear_leaves_refresh_state_witness :
    (step demoDecode (run demoDecode (demoWorld "exp100" "exp900") [.callRefresh 150])
        .callClear).tm.refreshPromise = some 0 ∨
    ((step demoDecode (run demoDecode (demoWorld "exp100" "exp900") [.callRefresh 150])
        .callClear).tm.refreshPromise = none ∧
      ∃ (c : Nat) (o : Settled),
        (run demoDecode (demoWorld "exp100" "exp900") [.callRefresh 150]).procs[c]?
          = some (Proc.ratInit 0) ∧
        outcome (step demoDecode
          (run demoDecode (demoWorld "exp100" "exp900") [.callRefresh 150]) .callClear) c
          = some o) :=
  (C11_clear_leaves_refresh_state demoDecode (demoWorld "exp100" "exp900")).2.2.2.2
    [.callRefresh 150] .callClear 0 rfl rfl

/-- C19: `clearTokens()` is idempotent: clearing a cleared state gives the same
state, and in that state both tokens are absent in memory and in
`localStorage`.  The method has no failing path: it is a total function of the
state. -/
theorem C19_clear_idempotent (w : World) :
    clearTokens (clearTokens w) = clearTokens w ∧
    Cleared (clearTokens w) ∧
    Cleared (clearTokens (clearTokens w)) :=
  ⟨rfl, ⟨rfl, rfl, rfl⟩, ⟨rfl, rfl, rfl⟩⟩

/-! ## The refresh state after settlement -/

/-- C17: when an event settles a call of `refreshAccessToken()` that started a
refresh (it was suspended on the promise `p` it created), with success or with
failure, `refreshPromise` is `null` afterwards; so the next call of
`refreshAccessToken()` made with a present, unexpired refresh token, directly
or after a `setTokens`, issues a new transport call and waits for a new
promise. -/
theorem C17_idle_after_settlement (decode : String → Option JsVal) (w : World) (ev : Event)
    (c p : Nat) (o : Settled)
    (hc : w.procs[c]? = some (.ratInit p))
    (hsettle : outcome (step decode w ev) c = some o) :
    (step decode w ev).tm.refreshPromise = none ∧
    (∀ now : Int, (step decode w ev).tm.refreshToken.truthy = true →
      isRefreshTokenExpired decode (step decode w ev).tm now = false →
      transportLog (refreshAccessToken decode now (step decode w ev))
        = transportLog (step decode w ev) ++ [(step decode w ev).tm.refreshToken] ∧
      (refreshAccessToken decode now (step decode w ev)).procs
        = (step decode w ev).procs ++ [.ratInit (step decode w ev).performs.length]) ∧
    (∀ (now : Int) (a r : Tok), r.truthy = true →
      isRefreshTokenExpired decode (setTokens (step decode w ev) a r).tm now = false →
      transportLog (refreshAccessToken decode now (setTokens (step decode w ev) a r))
        = transportLog (step decode w ev) ++ [r] ∧
      (refreshAccessToken decode now (setTokens (step decode w ev) a r)).procs
        = (step decode w ev).procs ++ [.ratInit (step decode w ev).performs.length]) := by
  have hidle : (step decode w ev).tm.refreshPromise = none := by
    rcases step_cases decode w ev with ⟨⟨extra, hex⟩, _⟩ | ⟨q, e, _, hstep⟩ | ⟨q, d, _, hstep⟩
    · exfalso
      have hlt : c < w.procs.length := (List.getElem?_eq_some.mp hc).1
      unfold outcome at hsettle
      rw [hex, List.getElem?_append_left hlt, hc] at hsettle
      simp at hsettle
    · have hc' : (clearTokens w).procs[c]? = some (.ratInit p) := hc
      rw [hstep] at hsettle ⊢
      unfold performRefreshCatch at hsettle ⊢
      by_cases hpq : p = q
      · subst hpq
        exact settlePerform_refreshPromise _ hc'
      · exfalso
        unfold outcome at hsettle
        rw [settlePerform_rat (Or.inl hc') q, if_neg hpq, hc'] at hsettle
        simp at hsettle
    · have hc' : (setTokens w d.access_token d.refresh_token).procs[c]? = some (.ratInit p) := hc
      rw [hstep] at hsettle ⊢
      by_cases hpq : p = q
      · subst hpq
        exact settlePerform_refreshPromise _ hc'
      · exfalso
        unfold outcome at hsettle
        rw [settlePerform_rat (Or.inl hc') q, if_neg hpq, hc'] at hsettle
        simp at hsettle
  refine ⟨hidle, ?_, ?_⟩
  · intro now hpresent hlive
    rw [refreshAccessToken_start decode now _ hidle hpresent hlive]
    exact ⟨by simp [transportLog], rfl⟩
  · intro now a r hpresent hlive
    rw [refreshAccessToken_start decode now (setTokens (step decode w ev) a r) hidle
      hpresent hlive]
    exact ⟨by simp [transportLog, setTokens], rfl⟩

theorem C17_idle_after_settlement_witness :
    (step demoDecode (run demoDecode (demoWorld "exp100" "exp900")
        [.callRefresh 150, .fetchSettles 0 (.response 200)])
        (.jsonSettles 0 (.parsed (some (demoEnvelope "exp200" "exp900"))))).tm.refreshPromise
      = none ∧
    transportLog (refreshAccessToken demoDecode 250
        (step demoDecode (run demoDecode (demoWorld "exp100" "exp900")
          [.callRefresh 150, .fetchSettles 0 (.response 200)])
          (.jsonSettles 0 (.parsed (some (demoEnvelope "exp200" "exp900"))))))
      = transportLog (step demoDecode (run demoDecode (demoWorld "exp100" "exp900")
          [.callRefresh 150, .fetchSettles 0 (.response 200)])
          (.jsonSettles 0 (.parsed (some (demoEnvelope "exp200" "exp900")))))
        ++ [(step demoDecode (run demoDecode (demoWorld "exp100" "exp900")
          [.callRefresh 150, .fetchSettles 0 (.response 200)])
          (.jsonSettles 0 (.parsed (some (demoEnvelope "exp200" "exp900"))))).tm.refreshToken] :=
  ⟨(C17_idle_after_settlement demoDecode
      (run demoDecode (demoWorld "exp100" "exp900")
        [.callRefresh 150, .fetchSettles 0 (.response 200)])
      (.jsonSettles 0 (.parsed (some (demoEnvelope "exp200" "exp900")))) 0 0
      (.fulfilled (.data { access_token := .str "exp200", refresh_token := .str "exp900" }))
      rfl rfl).1,
   ((C17_idle_after_settlement demoDecode
      (run demoDecode (demoWorld "exp100" "exp900")
        [.callRefresh 150, .fetchSettles 0 (.response 200)])
      (.jsonSettles 0 (.parsed (some (demoEnvelope "exp200" "exp900")))) 0 0
      (.fulfilled (.data { access_token := .str "exp200", refresh_token := .str "exp900" }))
      rfl rfl).2.1 250 rfl rfl).1⟩

/-! ## `authenticatedRequest` -/

theorem set_append_length {α : Type} (l : List α) (a b : α) :
    (l ++ [a]).set l.length b = l ++ [b] := by
  induction l with
  | nil => rfl
  | cons x rest ih => simp [List.set, ih]

theorem getElem?_append_length {α : Type} (l : List α) (a : α) :
    (l ++ [a])[l.length]? = some a := by
  rw [List.getElem?_append_right (Nat.le_refl _)]
  simp

theorem includes_authenticationFailed :
    jsIncludes "Authentication failed. Please login again." "Both tokens expired" = false := by
  decide

theorem getValidAccessToken_valid (decode : String → Option JsVal) (t : Readings) (w : World)
    (hpresent : w.tm.accessToken.truthy = true)
    (hlive : isAccessTokenExpired decode w.tm t.access = false) :
    getValidAccessToken decode t w = pushProc w (.done (.fulfilled (.tok w.tm.accessToken))) := by
  simp [getValidAccessToken, hpresent, hlive]

/-- With a present, unexpired access token, `authenticatedRequest` sends the
request at once with that token and suspends on the `fetch`. -/
theorem authenticatedRequest_valid (decode : String → Option JsVal) (t : Readings) (c : Client)
    (hpresent : c.w.tm.accessToken.truthy = true)
    (hlive : isAccessTokenExpired decode c.w.tm t.access = false) :
    authenticatedRequest decode t c =
      { w := pushProc c.w (.done (.fulfilled (.tok c.w.tm.accessToken)))
        reqs := c.reqs ++ [.areqFetch]
        attempts := c.attempts ++
          [{ req := c.reqs.length
             authorization := some ("Bearer " ++ c.w.tm.accessToken.toStr) }]
        location := c.location } := by
  unfold authenticatedRequest
  rw [getValidAccessToken_valid decode t c.w hpresent hlive]
  have hlen : (pushProc c.w (.done (.fulfilled (.tok c.w.tm.accessToken)))).procs.length - 1
      = c.w.procs.length := by simp [pushProc]
  simp only [hlen]
  unfold authenticatedRequestResume
  simp only [outcome, outcome_pushProc]
  simp [authenticatedRequestSend, set_append_length]

theorem cstep_requestSettles_areqFetch (decode : String → Option JsVal) (now : Int)
    {c : Client} {i : Nat} (h : c.reqs[i]? = some .areqFetch) (r : FetchReply) :
    cstep decode now c (.requestSettles i r) = authenticatedRequestFetched c i r := by
  simp [cstep, h]

/-- C16 (as stated, refuted): with a present, unexpired access token, when the
`fetch` of the wrapped request rejects with an error whose message contains
`Both tokens expired`, `authenticatedRequest` propagates the error but clears
the credentials on the way. -/
theorem C16_fetch_error_can_clear_tokens :
    (Client.init (demoWorld "exp900" "exp900")).w.tm.accessToken = .str "exp900" ∧
    result (crun demoDecode (Client.init (demoWorld "exp900" "exp900"))
      [(150, .callAuthenticated (Readings.same 150)),
       (151, .requestSettles 0
          (.networkError (.error "Both tokens expired. Please login again.")))]) 0
      = some (.thrown (.error "Both tokens expired. Please login again.")) ∧
    Cleared (crun demoDecode (Client.init (demoWorld "exp900" "exp900"))
      [(150, .callAuthenticated (Readings.same 150)),
       (151, .requestSettles 0
          (.networkError (.error "Both tokens expired. Please login again.")))]).w := by
  decide

/-- C16 (amended): with a present, unexpired access token, when the wrapped
request is answered with a status other than 401, `authenticatedRequest`
returns that response, and when its `fetch` rejects with an error whose message
does not contain `Both tokens expired`, it rejects with that error unchanged;
in both cases the manager's fields and the storage are as before the call. -/
theorem C16_request_failure_leaves_credentials (decode : String → Option JsVal)
    (t : Readings) (now' : Int) (c : Client)
    (hpresent : c.w.tm.accessToken.truthy = true)
    (hlive : isAccessTokenExpired decode c.w.tm t.access = false) :
    (∀ status : Nat, status ≠ 401 →
      result (crun decode c [(t.access, .callAuthenticated t),
        (now', .requestSettles c.reqs.length (.response status))]) c.reqs.length
        = some (.response status) ∧
      (crun decode c [(t.access, .callAuthenticated t),
        (now', .requestSettles c.reqs.length (.response status))]).w.tm = c.w.tm ∧
      (crun decode c [(t.access, .callAuthenticated t),
        (now', .requestSettles c.reqs.length (.response status))]).w.storage = c.w.storage) ∧
    (∀ e : JsErr, jsIncludes e.message "Both tokens expired" = false →
      result (crun decode c [(t.access, .callAuthenticated t),
        (now', .requestSettles c.reqs.length (.networkError e))]) c.reqs.length
        = some (.thrown e) ∧
      (crun decode c [(t.access, .callAuthenticated t),
        (now', .requestSettles c.reqs.length (.networkError e))]).w.tm = c.w.tm ∧
      (crun decode c [(t.access, .callAuthenticated t),
        (now', .requestSettles c.reqs.length (.networkError e))]).w.storage = c.w.storage) := by
  have hcall : cstep decode t.access c (.callAuthenticated t) = _ :=
    authenticatedRequest_valid decode t c hpresent hlive
  constructor
  · intro status hst
    simp only [crun, List.foldl_cons, List.foldl_nil]
    rw [hcall, cstep_requestSettles_areqFetch decode now' (getElem?_append_length _ _)]
    simp [authenticatedRequestFetched, hst, result, set_append_length, pushProc]
  · intro e he
    simp only [crun, List.foldl_cons, List.foldl_nil]
    rw [hcall, cstep_requestSettles_areqFetch decode now' (getElem?_append_length _ _)]
    simp [authenticatedRequestFetched, authenticatedRequestCatch, he, result,
      set_append_length, pushProc]

theorem C16_request_failure_leaves_credentials_witness :
    result (crun demoDecode (Client.init (demoWorld "exp900" "exp900"))
      [(150, .callAuthenticated (Readings.same 150)), (151, .requestSettles 0 (.response 500))]) 0
      = some (.response 500) ∧
    (crun demoDecode (Client.init (demoWorld "exp900" "exp900"))
      [(150, .callAuthenticated (Readings.same 150)), (151, .requestSettles 0 (.response 500))]).w.tm
      = (demoWorld "exp900" "exp900").tm ∧
    (crun demoDecode (Client.init (demoWorld "exp900" "exp900"))
      [(150, .callAuthenticated (Readings.same 150)), (151, .requestSettles 0 (.response 500))]).w.storage
      = (demoWorld "exp900" "exp900").storage :=
  (C16_request_failure_leaves_credentials demoDecode (Readings.same 150) 151
    (Client.init (demoWorld "exp900" "exp900")) rfl rfl).1 500 (by decide)

/-! ## The retry budget of the axios client -/

theorem budget_le_two (st : Req) : st.budget ≤ 2 := by
  cases st <;> simp [Req.budget]

theorem budgeted_set {reqs : List Req} {attempts : List Attempt} (h : Budgeted reqs attempts)
    {i : Nat} {old st : Req} (hold : reqs[i]? = some old) (hle : old.budget ≤ st.budget) :
    Budgeted (reqs.set i st) attempts := by
  intro j
  have hj := h j
  by_cases hij : i = j
  · subst hij
    have hlt : i < reqs.length := (List.getElem?_eq_some.mp hold).1
    rw [hold] at hj
    rw [List.getElem?_set_self hlt]
    exact Nat.le_trans hj hle
  · rw [List.getElem?_set_ne hij]
    exact hj

theorem budgeted_set_done {reqs : List Req} {attempts : List Attempt}
    (h : Budgeted reqs attempts) (i : Nat) (r : ReqResult) :
    Budgeted (reqs.set i (.done r)) attempts := by
  cases hold : reqs[i]? with
  | none =>
    have hge : reqs.length ≤ i := by
      by_contra hlt
      rw [List.getElem?_eq_getElem (by omega)] at hold
      cases hold
    rw [List.set_eq_of_length_le hge]
    exact h
  | some old => exact budgeted_set h hold (budget_le_two old)

theorem budgeted_send {reqs : List Req} {attempts : List Attempt} (h : Budgeted reqs attempts)
    {i : Nat} {old st : Req} (hold : reqs[i]? = some old) (hle : old.budget + 1 ≤ st.budget)
    (hdr : Option String) :
    Budgeted (reqs.set i st) (attempts ++ [{ req := i, authorization := hdr }]) := by
  intro j
  have hj := h j
  rw [List.countP_append]
  by_cases hij : i = j
  · subst hij
    have hlt : i < reqs.length := (List.getElem?_eq_some.mp hold).1
    rw [hold] at hj
    rw [List.getElem?_set_self hlt]
    simp only [List.countP_cons, List.countP_nil, beq_self_eq_true, if_true]
    simp only [] at hj ⊢
    omega
  · rw [List.getElem?_set_ne hij]
    have : (i == j) = false := by simpa using hij
    simp only [List.countP_cons, List.countP_nil, this]
    simpa using hj

theorem budgeted_push {reqs : List Req} {attempts : List Attempt} (h : Budgeted reqs attempts)
    (st : Req) : Budgeted (reqs ++ [st]) attempts := by
  intro j
  have hj := h j
  by_cases hlt : j < reqs.length
  · rw [List.getElem?_append_left hlt]
    exact hj
  · rw [List.getElem?_eq_none (by omega)] at hj
    have h0 : attempts.countP (fun a => a.req == j) = 0 := by simpa using hj
    rw [h0]
    exact Nat.zero_le _

theorem budgeted_authenticatedRequestCatch {c : Client} (h : Budgeted c.reqs c.attempts)
    (i : Nat) (e : JsErr) :
    Budgeted (authenticatedRequestCatch c i e).reqs (authenticatedRequestCatch c i e).attempts := by
  unfold authenticatedRequestCatch
  split <;> exact budgeted_set_done h i _

theorem budgeted_authenticatedRequestResume {c : Client} (h : Budgeted c.reqs c.attempts)
    {i g' : Nat} (hst : c.reqs[i]? = some (.areqToken g')) (g : Nat) :
    Budgeted (authenticatedRequestResume c i g).reqs
      (authenticatedRequestResume c i g).attempts := by
  unfold authenticatedRequestResume
  split
  · exact budgeted_send h hst (by simp [Req.budget]) _
  · exact budgeted_authenticatedRequestCatch h i _
  · exact h

theorem budgeted_interceptorResume (decode : String → Option JsVal) (now : Int) {c : Client}
    (h : Budgeted c.reqs c.attempts) {i k' : Nat} (hst : c.reqs[i]? = some (.axRefresh k'))
    (k : Nat) :
    Budgeted (interceptorResume decode now c i k).reqs
      (interceptorResume decode now c i k).attempts := by
  unfold interceptorResume
  split
  · exact budgeted_send h hst (by simp [Req.budget]) _
  · exact budgeted_set_done h i _
  · exact h

theorem budgeted_axiosSettled (decode : String → Option JsVal) (now : Int) {c : Client}
    (h : Budgeted c.reqs c.attempts) {i : Nat} {old : Req} (hst : c.reqs[i]? = some old)
    (retry : Bool) (hretry : retry = false → old.budget ≤ 1) (r : FetchReply) :
    Budgeted (axiosSettled decode now c i retry r).reqs
      (axiosSettled decode now c i retry r).attempts := by
  have herr : Budgeted (responseErrorInterceptor decode now c i retry r).reqs
      (responseErrorInterceptor decode now c i retry r).attempts := by
    unfold responseErrorInterceptor
    split
    · split
      · next hcond =>
        have hr : retry = false := by
          cases retry <;> simp at hcond ⊢
        have hlt : i < c.reqs.length := (List.getElem?_eq_some.mp hst).1
        exact budgeted_interceptorResume decode now
          (c := { c with
            w := refreshAccessToken decode now c.w
            reqs := c.reqs.set i (.axRefresh c.w.procs.length) })
          (budgeted_set h hst (by simpa [Req.budget] using hretry hr))
          (List.getElem?_set_self hlt) _
      · exact budgeted_set_done h i _
    · exact budgeted_set_done h i _
  unfold axiosSettled
  split
  · split
    · exact budgeted_set_done h i _
    · exact herr
  · exact herr

theorem budgeted_wakeReq (decode : String → Option JsVal) (now : Int) {c : Client}
    (h : Budgeted c.reqs c.attempts) (i : Nat) :
    Budgeted (wakeReq decode now c i).reqs (wakeReq decode now c i).attempts := by
  unfold wakeReq
  split
  · next g hst => exact budgeted_authenticatedRequestResume h hst g
  · next k hst => exact budgeted_interceptorResume decode now h hst k
  · exact h

theorem budgeted_foldl_wakeReq (decode : String → Option JsVal) (now : Int) (l : List Nat) :
    ∀ c : Client, Budgeted c.reqs c.attempts →
      Budgeted (l.foldl (wakeReq decode now) c).reqs (l.foldl (wakeReq decode now) c).attempts := by
  induction l with
  | nil => intro c h; exact h
  | cons i rest ih => intro c h; exact ih _ (budgeted_wakeReq decode now h i)

theorem budgeted_cstep (decode : String → Option JsVal) (now : Int) {c : Client}
    (h : Budgeted c.reqs c.attempts) (a : Action) :
    Budgeted (cstep decode now c a).reqs (cstep decode now c a).attempts := by
  cases a with
  | manager ev =>
    exact budgeted_foldl_wakeReq decode now _ { c with w := step decode c.w ev } h
  | callAuthenticated t =>
    show Budgeted (authenticatedRequest decode t c).reqs
      (authenticatedRequest decode t c).attempts
    unfold authenticatedRequest
    exact budgeted_authenticatedRequestResume
      (c := { c with
        w := getValidAccessToken decode t c.w
        reqs := c.reqs ++ [.areqToken ((getValidAccessToken decode t c.w).procs.length - 1)] })
      (budgeted_push h _) (getElem?_append_length _ _) _
  | callAxios =>
    show Budgeted (axiosRequest decode now c).reqs (axiosRequest decode now c).attempts
    unfold axiosRequest axiosSend
    dsimp only
    rw [set_append_length]
    intro j
    have hj := h j
    rw [List.countP_append]
    by_cases hlt : j < c.reqs.length
    · rw [List.getElem?_append_left hlt]
      have hne : (c.reqs.length == j) = false := by
        simp only [beq_eq_false_iff_ne, ne_eq]
        omega
      simp only [List.countP_cons, List.countP_nil, hne]
      simpa using hj
    · rw [List.getElem?_eq_none (by omega)] at hj
      have h0 : c.attempts.countP (fun a => a.req == j) = 0 := by simpa using hj
      rw [h0]
      by_cases heq : j = c.reqs.length
      · subst heq
        rw [getElem?_append_length]
        simp [Req.budget]
      · have hne : (c.reqs.length == j) = false := by
          simp only [beq_eq_false_iff_ne, ne_eq]
          omega
        simp [hne]
  | requestSettles i r =>
    show Budgeted (match c.reqs[i]? with
      | some .areqFetch => authenticatedRequestFetched c i r
      | some .axFirst => axiosSettled decode now c i false r
      | some .axRetry => axiosSettled decode now c i true r
      | _ => c).reqs (match c.reqs[i]? with
      | some .areqFetch => authenticatedRequestFetched c i r
      | some .axFirst => axiosSettled decode now c i false r
      | some .axRetry => axiosSettled decode now c i true r
      | _ => c).attempts
    split
    · unfold authenticatedRequestFetched
      split
      · exact budgeted_authenticatedRequestCatch h i _
      · split
        · exact budgeted_authenticatedRequestCatch (c := { c with w := clearTokens c.w }) h i _
        · exact budgeted_set_done h i _
    · next hst => exact budgeted_axiosSettled decode now h hst false (by simp [Req.budget]) r
    · next hst => exact budgeted_axiosSettled decode now h hst true (by simp) r
    · exact h

theorem budgeted_crun (decode : String → Option JsVal) (acts : List (Int × Action)) :
    ∀ c : Client, Budgeted c.reqs c.attempts →
      Budgeted (crun decode c acts).reqs (crun decode c acts).attempts := by
  induction acts with
  | nil => intro c h; exact h
  | cons a rest ih => intro c h; exact ih _ (budgeted_cstep decode a.1 h a.2)

theorem cstep_requestSettles_axRetry (decode : String → Option JsVal) (now : Int)
    {c : Client} {i : Nat} (h : c.reqs[i]? = some .axRetry) (r : FetchReply) :
    cstep decode now c (.requestSettles i r) = axiosSettled decode now c i true r := by
  simp [cstep, h]

theorem result_set_done {reqs : List Req} {i : Nat} (hlt : i < reqs.length) (r : ReqResult)
    (w : World) (attempts : List Attempt) (location : Option String) :
    result { w := w, reqs := reqs.set i (.done r), attempts := attempts, location := location } i
      = some r := by
  simp [result, List.getElem?_set_self hlt]

/-- The answer to an attempt that was sent again ends the request: no attempt
is added and the manager is not touched. -/
theorem axiosSettled_retry (decode : String → Option JsVal) (now : Int) {c : Client} {i : Nat}
    (hlt : i < c.reqs.length) (r : FetchReply) :
    (axiosSettled decode now c i true r).attempts = c.attempts ∧
    (axiosSettled decode now c i true r).w = c.w ∧
    result (axiosSettled decode now c i true r) i =
      some (match r with
        | .response status => if httpOk status then .response status else .httpError status
        | .networkError e => .thrown e) := by
  cases r with
  | networkError e =>
    simp [axiosSettled, responseErrorInterceptor, result, List.getElem?_set_self hlt]
  | response status =>
    cases hok : httpOk status <;>
      simp [axiosSettled, responseErrorInterceptor, hok, result, List.getElem?_set_self hlt]

/-- C12: a logical request makes at most 2 transport attempts, whatever the
actions and the answers of the backend are (from a client that has sent
nothing yet, for every request `i`).  When the attempt that was sent again is
answered, the request ends: no attempt is added and the manager is untouched
(no second refresh); answered 401, the request rejects with that error. -/
theorem C12_axios_at_most_two_attempts (decode : String → Option JsVal) :
    (∀ (w : World) (acts : List (Int × Action)) (i : Nat),
      attemptsOf (crun decode (Client.init w) acts) i ≤ 2) ∧
    (∀ (c : Client) (i : Nat) (now : Int), c.reqs[i]? = some .axRetry →
      result (cstep decode now c (.requestSettles i (.response 401))) i
        = some (.httpError 401) ∧
      ∀ r : FetchReply,
        (cstep decode now c (.requestSettles i r)).attempts = c.attempts ∧
        (cstep decode now c (.requestSettles i r)).w = c.w ∧
        (result (cstep decode now c (.requestSettles i r)) i).isSome = true) := by
  constructor
  · intro w acts i
    have hinit : Budgeted (Client.init w).reqs (Client.init w).attempts := by
      intro j
      simp [Client.init]
    have h := budgeted_crun decode acts (Client.init w) hinit i
    unfold attemptsOf
    refine Nat.le_trans h ?_
    split
    · exact budget_le_two _
    · exact Nat.zero_le _
  · intro c i now hst
    have hlt : i < c.reqs.length := (List.getElem?_eq_some.mp hst).1
    constructor
    · rw [cstep_requestSettles_axRetry decode now hst]
      exact (axiosSettled_retry decode now hlt _).2.2
    · intro r
      rw [cstep_requestSettles_axRetry decode now hst]
      obtain ⟨h1, h2, h3⟩ := axiosSettled_retry decode now hlt r
      exact ⟨h1, h2, by rw [h3]; rfl⟩

theorem C12_axios_at_most_two_attempts_witness :
    attemptsOf (crun demoDecode (Client.init (demoWorld "exp100" "exp900"))
      [(150, .callAxios), (151, .requestSettles 0 (.response 401)),
       (152, .manager (.fetchSettles 0 (.response 200))),
       (153, .manager (.jsonSettles 0 (.parsed (some (demoEnvelope "exp200" "exp900")))))]) 0
      = 2 ∧
    result (cstep demoDecode 154
      (crun demoDecode (Client.init (demoWorld "exp100" "exp900"))
        [(150, .callAxios), (151, .requestSettles 0 (.response 401)),
         (152, .manager (.fetchSettles 0 (.response 200))),
         (153, .manager (.jsonSettles 0 (.parsed (some (demoEnvelope "exp200" "exp900")))))])
      (.requestSettles 0 (.response 401))) 0 = some (.httpError 401) :=
  ⟨by decide,
   ((C12_axios_at_most_two_attempts demoDecode).2
      (crun demoDecode (Client.init (demoWorld "exp100" "exp900"))
        [(150, .callAxios), (151, .requestSettles 0 (.response 401)),
         (152, .manager (.fetchSettles 0 (.response 200))),
         (153, .manager (.jsonSettles 0 (.parsed (some (demoEnvelope "exp200" "exp900")))))])
      0 154 (by decide)).1⟩

/-! ## A 401 answered by a refresh and one retry -/

/-- The refresh started by a call of `refreshAccessToken()` from an idle state,
answered with HTTP success and the envelope `{status: 200, data: d}`: the call
is pending until the envelope arrives, then resolved; the pair of `d` is
stored and exactly one transport refresh call was made. -/
theorem refresh_success_chain (decode : String → Option JsVal) (now : Int) (w : World)
    (status : Nat) (env : Envelope) (d : TokenData)
    (hidle : w.tm.refreshPromise = none) (hpresent : w.tm.refreshToken.truthy = true)
    (hlive : isRefreshTokenExpired decode w.tm now = false)
    (hok : httpOk status = true) (hstatus : env.status = .num 200)
    (hdata : env.data = some d) :
    outcome (refreshAccessToken decode now w) w.procs.length = none ∧
    outcome (step decode (refreshAccessToken decode now w)
      (.fetchSettles w.performs.length (.response status))) w.procs.length = none ∧
    outcome (step decode (step decode (refreshAccessToken decode now w)
      (.fetchSettles w.performs.length (.response status)))
      (.jsonSettles w.performs.length (.parsed (some env)))) w.procs.length
      = some (.fulfilled (.data d)) ∧
    (step decode (step decode (refreshAccessToken decode now w)
      (.fetchSettles w.performs.length (.response status)))
      (.jsonSettles w.performs.length (.parsed (some env)))).tm.accessToken = d.access_token ∧
    (step decode (step decode (refreshAccessToken decode now w)
      (.fetchSettles w.performs.length (.response status)))
      (.jsonSettles w.performs.length (.parsed (some env)))).tm.refreshToken = d.refresh_token ∧
    transportLog (step decode (step decode (refreshAccessToken decode now w)
      (.fetchSettles w.performs.length (.response status)))
      (.jsonSettles w.performs.length (.parsed (some env))))
      = transportLog w ++ [w.tm.refreshToken] := by
  obtain ⟨hc, hph⟩ := refreshAccessToken_joined decode now w hpresent hlive
    (fun q hq => by rw [hidle] at hq; cases hq)
  have haw : awaited w = w.performs.length := by simp [awaited, hidle]
  rw [haw] at hc hph
  have hlog : transportLog (refreshAccessToken decode now w)
      = transportLog w ++ [w.tm.refreshToken] := by
    rw [refreshAccessToken_start decode now w hidle hpresent hlive]
    simp [transportLog]
  have hpend : ∀ v : World, v.procs = (refreshAccessToken decode now w).procs →
      outcome v w.procs.length = none := by
    intro v hv
    unfold outcome
    rw [hv]
    rcases hc with h | h <;> rw [h]
  rw [step_fetch_ok decode hph hok,
    step_json_success decode (phaseOf_setPhase hph _) hstatus hdata]
  refine ⟨hpend _ rfl, hpend _ rfl, ?_, ?_, ?_, ?_⟩
  · have hc' : ∀ v : World, v.procs = (refreshAccessToken decode now w).procs →
        (v.procs[w.procs.length]? = some (.ratInit w.performs.length) ∨
          v.procs[w.procs.length]? = some (.ratAttached w.performs.length)) := by
      intro v hv
      rw [hv]
      exact hc
    have hsettle : ∀ (v : World) (o : Settled),
        v.procs = (refreshAccessToken decode now w).procs →
        outcome (settlePerform v w.performs.length o) w.procs.length = some o := by
      intro v o hv
      unfold outcome
      rw [settlePerform_rat (hc' v hv) w.performs.length]
      simp
    exact hsettle _ _ rfl
  · rw [settlePerform_accessToken]; rfl
  · rw [settlePerform_refreshToken]; rfl
  · simp only [transportLog, settlePerform_performs, map_body_setPhase] at hlog ⊢
    simpa [setTokens, map_body_setPhase] using hlog

theorem requestInterceptor_bearer (decode : String → Option JsVal) (now : Int)
    (tm : TokenManager) :
    requestInterceptor decode now tm (some ("Bearer " ++ tm.accessToken.toStr))
      = some ("Bearer " ++ tm.accessToken.toStr) := by
  unfold requestInterceptor
  split <;> rfl

theorem wakeReqs_single (decode : String → Option JsVal) (now : Int) (w : World) (st : Req)
    (attempts : List Attempt) (location : Option String) :
    wakeReqs decode now { w := w, reqs := [st], attempts := attempts, location := location }
      = wakeReq decode now
          { w := w, reqs := [st], attempts := attempts, location := location } 0 := by
  rfl

theorem interceptorResume_pending (decode : String → Option JsVal) (now : Int) {c : Client}
    {k : Nat} (h : outcome c.w k = none) (i : Nat) :
    interceptorResume decode now c i k = c := by
  simp [interceptorResume, h]

theorem interceptorResume_fulfilled (decode : String → Option JsVal) (now : Int) {c : Client}
    {k : Nat} {v : Val} (h : outcome c.w k = some (.fulfilled v)) (i : Nat) :
    interceptorResume decode now c i k =
      { c with
        attempts := c.attempts ++
          [{ req := i, authorization := some ("Bearer " ++ c.w.tm.accessToken.toStr) }]
        reqs := c.reqs.set i .axRetry } := by
  simp [interceptorResume, h, axiosSend, requestInterceptor_bearer]

theorem interceptorResume_rejected (decode : String → Option JsVal) (now : Int) {c : Client}
    {k : Nat} {e : JsErr} (h : outcome c.w k = some (.rejected e)) (i : Nat) :
    interceptorResume decode now c i k = interceptorCatch c i e := by
  simp [interceptorResume, h]

/-- The first attempt of an axios request, sent from a client without
requests, and its answer 401: the response interceptor calls
`refreshAccessToken()` and resumes at once with its promise. -/
theorem axios_first_401 (decode : String → Option JsVal) (now₀ now₁ : Int) (w : World) :
    crun decode (Client.init w) [(now₀, .callAxios), (now₁, .requestSettles 0 (.response 401))]
      = interceptorResume decode now₁
          { w := refreshAccessToken decode now₁ w
            reqs := [.axRefresh w.procs.length]
            attempts := [{ req := 0, authorization := requestInterceptor decode now₀ w.tm none }]
            location := none } 0 w.procs.length := by
  simp [crun, cstep, axiosRequest, axiosSend, Client.init, axiosSettled, httpOk,
    responseErrorInterceptor]

theorem crun_append (decode : String → Option JsVal) (c : Client)
    (xs ys : List (Int × Action)) :
    crun decode c (xs ++ ys) = crun decode (crun decode c xs) ys := by
  simp [crun, List.foldl_append]

/-- When the refresh token expires between the check of line 126 and the check
of line 73 (the clock passes its expiry between the two readings),
`getValidAccessToken()` issues no transport call: `refreshAccessToken()` clears
the credentials and rejects, and so does the call. -/
theorem getValidAccessToken_expires_between_checks (decode : String → Option JsVal)
    (t : Readings) (w : World)
    (hidle : w.tm.refreshPromise = none)
    (hacc : w.tm.accessToken.truthy = false ∨ isAccessTokenExpired decode w.tm t.access = true)
    (hlive : isRefreshTokenExpired decode w.tm t.refresh = false)
    (hdead : isRefreshTokenExpired decode w.tm t.start = true) :
    getValidAccessToken decode t w =
      pushProc (pushProc (clearTokens w)
        (.done (.rejected (.error "Refresh token expired or not available"))))
        (.done (.rejected (.error "Refresh token expired or not available"))) := by
  have hcond :
      (!w.tm.accessToken.truthy || isAccessTokenExpired decode w.tm t.access) = true := by
    rcases hacc with h | h <;> simp [h]
  have hrat : refreshAccessToken decode t.start w =
      pushProc (clearTokens w)
        (.done (.rejected (.error "Refresh token expired or not available"))) := by
    unfold refreshAccessToken
    rw [hidle]
    simp only [hdead, Bool.or_true, if_true]
  unfold getValidAccessToken
  rw [if_pos hcond, hlive, hrat]
  simp [pushProc, clearTokens]

theorem getValidAccessToken_expires_between_checks_example :
    transportLog (getValidAccessToken demoDecode { access := 200, refresh := 200, start := 201 }
      (demoWorld "exp100" "exp200")) = [] ∧
    outcome (getValidAccessToken demoDecode { access := 200, refresh := 200, start := 201 }
      (demoWorld "exp100" "exp200")) 1
      = some (.rejected (.error "Refresh token expired or not available")) ∧
    Cleared (getValidAccessToken demoDecode { access := 200, refresh := 200, start := 201 }
      (demoWorld "exp100" "exp200")) := by
  decide

/-- The refresh started by a call of `getValidAccessToken()` from an idle
state, answered with HTTP success and the envelope `{status: 200, data: d}`:
the call is pending until the envelope arrives, then resolved with the new
access token; exactly one transport refresh call was made. -/
theorem getValidAccessToken_success_chain (decode : String → Option JsVal) (t : Readings)
    (w : World) (status : Nat) (env : Envelope) (d : TokenData)
    (hidle : w.tm.refreshPromise = none)
    (hacc : w.tm.accessToken.truthy = false ∨ isAccessTokenExpired decode w.tm t.access = true)
    (hpresent : w.tm.refreshToken.truthy = true)
    (hlive : isRefreshTokenExpired decode w.tm t.refresh = false)
    (hlive' : isRefreshTokenExpired decode w.tm t.start = false)
    (hok : httpOk status = true) (hstatus : env.status = .num 200)
    (hdata : env.data = some d) :
    (getValidAccessToken decode t w).procs.length = w.procs.length + 2 ∧
    outcome (getValidAccessToken decode t w) (w.procs.length + 1) = none ∧
    outcome (step decode (getValidAccessToken decode t w)
      (.fetchSettles w.performs.length (.response status))) (w.procs.length + 1) = none ∧
    outcome (step decode (step decode (getValidAccessToken decode t w)
      (.fetchSettles w.performs.length (.response status)))
      (.jsonSettles w.performs.length (.parsed (some env)))) (w.procs.length + 1)
      = some (.fulfilled (.tok d.access_token)) ∧
    transportLog (step decode (step decode (getValidAccessToken decode t w)
      (.fetchSettles w.performs.length (.response status)))
      (.jsonSettles w.performs.length (.parsed (some env))))
      = transportLog w ++ [w.tm.refreshToken] := by
  have hk : ∀ v : World,
      v.procs = w.procs ++ [.ratInit w.performs.length, .gvat w.procs.length] →
      v.procs[w.procs.length]? = some (.ratInit w.performs.length) ∧
      v.procs[w.procs.length + 1]? = some (.gvat w.procs.length) := by
    intro v hv
    rw [hv]
    constructor
    · rw [List.getElem?_append_right (Nat.le_refl _)]
      simp
    · rw [List.getElem?_append_right (by omega)]
      simp
  have hpend : ∀ v : World,
      v.procs = w.procs ++ [.ratInit w.performs.length, .gvat w.procs.length] →
      outcome v (w.procs.length + 1) = none := by
    intro v hv
    unfold outcome
    rw [(hk v hv).2]
  have hsettle : ∀ (v : World) (o : Settled),
      v.procs = w.procs ++ [.ratInit w.performs.length, .gvat w.procs.length] →
      outcome (settlePerform v w.performs.length o) (w.procs.length + 1)
        = some (match o with
          | .fulfilled _ => .fulfilled (.tok v.tm.accessToken)
          | .rejected e => .rejected e) := by
    intro v o hv
    unfold outcome
    rw [settlePerform_gvat (hk v hv).2 (Or.inl (hk v hv).1) o]
  rw [getValidAccessToken_start decode t w hidle hacc hpresent hlive hlive']
  have hph : phaseOf
      ({ tm := { w.tm with refreshPromise := some w.performs.length }
         storage := w.storage
         performs := w.performs ++ [{ body := w.tm.refreshToken, phase := .awaitFetch }]
         procs := w.procs ++ [.ratInit w.performs.length, .gvat w.procs.length] } : World)
      w.performs.length = some .awaitFetch := by
    unfold phaseOf
    dsimp only
    rw [phaseOf_append_length]
    rfl
  rw [step_fetch_ok decode hph hok,
    step_json_success decode (phaseOf_setPhase hph _) hstatus hdata]
  refine ⟨by simp, hpend _ rfl, hpend _ rfl, ?_, ?_⟩
  · exact (hsettle _ _ rfl).trans rfl
  · simp [transportLog, settlePerform_performs, map_body_setPhase, setTokens,
      setPhase_append_length]

theorem authenticatedRequestResume_pending {c : Client} {g : Nat}
    (h : outcome c.w g = none) (i : Nat) : authenticatedRequestResume c i g = c := by
  simp [authenticatedRequestResume, h]

theorem authenticatedRequestResume_token {c : Client} {g : Nat} {token : Tok}
    (h : outcome c.w g = some (.fulfilled (.tok token))) (i : Nat) :
    authenticatedRequestResume c i g = authenticatedRequestSend c i token := by
  simp [authenticatedRequestResume, h]

/-- With an absent or expired access token and a refresh token that is
unexpired at both of its checks, `authenticatedRequest` from an idle manager
sends nothing yet: it is suspended on `getValidAccessToken()`, which has
started a refresh. -/
theorem authenticatedRequest_refreshing (decode : String → Option JsVal) (t : Readings)
    (w : World) (hlen : (getValidAccessToken decode t w).procs.length = w.procs.length + 2)
    (hpend : outcome (getValidAccessToken decode t w) (w.procs.length + 1) = none) :
    authenticatedRequest decode t (Client.init w) =
      { w := getValidAccessToken decode t w
        reqs := [.areqToken (w.procs.length + 1)]
        attempts := []
        location := none } := by
  unfold authenticatedRequest
  have hidx : (getValidAccessToken decode t (Client.init w).w).procs.length - 1
      = w.procs.length + 1 := by
    show (getValidAccessToken decode t w).procs.length - 1 = w.procs.length + 1
    rw [hlen]
    rfl
  simp only [hidx]
  show authenticatedRequestResume
      { w := getValidAccessToken decode t w
        reqs := [.areqToken (w.procs.length + 1)]
        attempts := []
        location := none } 0 (w.procs.length + 1) = _
  exact authenticatedRequestResume_pending
    (c := { w := getValidAccessToken decode t w
            reqs := [.areqToken (w.procs.length + 1)]
            attempts := []
            location := none }) hpend 0

/-- C13 (as stated, refuted): `TokenManager.authenticatedRequest`, holding an
unexpired access token and an unexpired refresh token, answered 401 on its
first attempt: no refresh is called and the request is not sent again; the
call rejects and the credentials are cleared. -/
theorem C13_authenticatedRequest_does_not_retry :
    result (crun demoDecode (Client.init (demoWorld "exp900" "exp900"))
      [(150, .callAuthenticated (Readings.same 150)), (151, .requestSettles 0 (.response 401))]) 0
      = some (.thrown (.error "Authentication failed. Please login again.")) ∧
    attemptsOf (crun demoDecode (Client.init (demoWorld "exp900" "exp900"))
      [(150, .callAuthenticated (Readings.same 150)), (151, .requestSettles 0 (.response 401))]) 0 = 1 ∧
    transportLog (crun demoDecode (Client.init (demoWorld "exp900" "exp900"))
      [(150, .callAuthenticated (Readings.same 150)), (151, .requestSettles 0 (.response 401))]).w = [] ∧
    Cleared (crun demoDecode (Client.init (demoWorld "exp900" "exp900"))
      [(150, .callAuthenticated (Readings.same 150)), (151, .requestSettles 0 (.response 401))]).w := by
  decide

/-- C13 (amended): a request through the axios client whose first attempt is
answered 401, while the manager is idle with a present, unexpired refresh
token, and whose refresh succeeds with the pair `d`: the response interceptor
calls `refreshAccessToken()` once (one transport refresh call, carrying the
stored refresh token), sends the request again exactly once with
`Authorization: Bearer <the newly stored access token>`, and when that attempt
is answered with an ok status the caller gets that response.
`TokenManager.authenticatedRequest` has no retry: with a present, unexpired
access token, answered 401, it makes no refresh call and no second attempt,
clears the credentials and rejects.  Its refresh comes before the send: with
an absent or expired access token (and the refresh token unexpired at both of
its checks) the call itself makes one transport refresh call and sends
nothing, nothing is sent while the refresh is in flight, and once the refresh
has succeeded it makes its single attempt with the new access token; answered
401 it clears the credentials and rejects without a further refresh or
attempt. -/
theorem C13_axios_refresh_and_retry_once (decode : String → Option JsVal)
    (now₀ now₁ now₂ now₃ now₄ : Int) (w : World)
    (status : Nat) (env : Envelope) (d : TokenData) (status₂ : Nat)
    (hidle : w.tm.refreshPromise = none) (hpresent : w.tm.refreshToken.truthy = true)
    (hlive : isRefreshTokenExpired decode w.tm now₁ = false)
    (hok : httpOk status = true) (hstatus : env.status = .num 200)
    (hdata : env.data = some d) (hok₂ : httpOk status₂ = true) :
    crun decode (Client.init w)
      [(now₀, .callAxios), (now₁, .requestSettles 0 (.response 401)),
       (now₂, .manager (.fetchSettles w.performs.length (.response status))),
       (now₃, .manager (.jsonSettles w.performs.length (.parsed (some env)))),
       (now₄, .requestSettles 0 (.response status₂))]
      = { w := step decode (step decode (refreshAccessToken decode now₁ w)
              (.fetchSettles w.performs.length (.response status)))
              (.jsonSettles w.performs.length (.parsed (some env)))
          reqs := [.done (.response status₂)]
          attempts :=
            [{ req := 0, authorization := requestInterceptor decode now₀ w.tm none },
             { req := 0, authorization := some ("Bearer " ++ d.access_token.toStr) }]
          location := none } ∧
    transportLog (step decode (step decode (refreshAccessToken decode now₁ w)
      (.fetchSettles w.performs.length (.response status)))
      (.jsonSettles w.performs.length (.parsed (some env))))
      = transportLog w ++ [w.tm.refreshToken] ∧
    (step decode (step decode (refreshAccessToken decode now₁ w)
      (.fetchSettles w.performs.length (.response status)))
      (.jsonSettles w.performs.length (.parsed (some env)))).tm.accessToken = d.access_token ∧
    (∀ (c : Client) (t : Readings) (t' : Int), c.w.tm.accessToken.truthy = true →
      isAccessTokenExpired decode c.w.tm t.access = false →
      result (crun decode c [(t.access, .callAuthenticated t),
        (t', .requestSettles c.reqs.length (.response 401))]) c.reqs.length
        = some (.thrown (.error "Authentication failed. Please login again.")) ∧
      (crun decode c [(t.access, .callAuthenticated t),
        (t', .requestSettles c.reqs.length (.response 401))]).attempts
        = c.attempts ++ [{ req := c.reqs.length
                           authorization := some ("Bearer " ++ c.w.tm.accessToken.toStr) }] ∧
      transportLog (crun decode c [(t.access, .callAuthenticated t),
        (t', .requestSettles c.reqs.length (.response 401))]).w = transportLog c.w ∧
      Cleared (crun decode c [(t.access, .callAuthenticated t),
        (t', .requestSettles c.reqs.length (.response 401))]).w) ∧
    (∀ (t : Readings) (n₂ n₃ n₄ : Int),
      (w.tm.accessToken.truthy = false ∨ isAccessTokenExpired decode w.tm t.access = true) →
      isRefreshTokenExpired decode w.tm t.refresh = false →
      isRefreshTokenExpired decode w.tm t.start = false →
      crun decode (Client.init w) [(t.access, .callAuthenticated t)]
        = { w := getValidAccessToken decode t w
            reqs := [.areqToken (w.procs.length + 1)]
            attempts := []
            location := none } ∧
      transportLog (getValidAccessToken decode t w) = transportLog w ++ [w.tm.refreshToken] ∧
      (crun decode (Client.init w)
        [(t.access, .callAuthenticated t),
         (n₂, .manager (.fetchSettles w.performs.length (.response status)))]).attempts = [] ∧
      (crun decode (Client.init w)
        [(t.access, .callAuthenticated t),
         (n₂, .manager (.fetchSettles w.performs.length (.response status))),
         (n₃, .manager (.jsonSettles w.performs.length (.parsed (some env))))]).attempts
        = [{ req := 0, authorization := some ("Bearer " ++ d.access_token.toStr) }] ∧
      crun decode (Client.init w)
        [(t.access, .callAuthenticated t),
         (n₂, .manager (.fetchSettles w.performs.length (.response status))),
         (n₃, .manager (.jsonSettles w.performs.length (.parsed (some env)))),
         (n₄, .requestSettles 0 (.response 401))]
        = { w := clearTokens (step decode (step decode (getValidAccessToken decode t w)
                (.fetchSettles w.performs.length (.response status)))
                (.jsonSettles w.performs.length (.parsed (some env))))
            reqs := [.done (.thrown (.error "Authentication failed. Please login again."))]
            attempts :=
              [{ req := 0, authorization := some ("Bearer " ++ d.access_token.toStr) }]
            location := none } ∧
      transportLog (clearTokens (step decode (step decode (getValidAccessToken decode t w)
        (.fetchSettles w.performs.length (.response status)))
        (.jsonSettles w.performs.length (.parsed (some env)))))
        = transportLog w ++ [w.tm.refreshToken]) := by
  obtain ⟨hp1, hp2, hp3, hacc, _, hlog⟩ :=
    refresh_success_chain decode now₁ w status env d hidle hpresent hlive hok hstatus hdata
  refine ⟨?_, hlog, hacc, ?_, ?_⟩
  · have hsplit : [(now₀, Action.callAxios), (now₁, .requestSettles 0 (.response 401)),
        (now₂, .manager (.fetchSettles w.performs.length (.response status))),
        (now₃, .manager (.jsonSettles w.performs.length (.parsed (some env)))),
        (now₄, .requestSettles 0 (.response status₂))]
        = [(now₀, Action.callAxios), (now₁, .requestSettles 0 (.response 401))] ++
          [(now₂, .manager (.fetchSettles w.performs.length (.response status))),
           (now₃, .manager (.jsonSettles w.performs.length (.parsed (some env)))),
           (now₄, .requestSettles 0 (.response status₂))] := rfl
    rw [hsplit, crun_append, axios_first_401,
      interceptorResume_pending decode now₁ (c := { w := refreshAccessToken decode now₁ w, .. }) hp1]
    simp only [crun, List.foldl_cons, List.foldl_nil, cstep]
    rw [wakeReqs_single]
    simp only [wakeReq, List.getElem?_cons_zero]
    rw [interceptorResume_pending decode now₂ (c := { w := step decode _ _, .. }) hp2]
    rw [wakeReqs_single]
    simp only [wakeReq, List.getElem?_cons_zero]
    rw [interceptorResume_fulfilled decode now₃ (c := { w := step decode _ _, .. }) hp3]
    simp [axiosSettled, hok₂, hacc]
  · intro c t t' htruthy hvalid
    simp only [crun, List.foldl_cons, List.foldl_nil]
    have hcall : cstep decode t.access c (.callAuthenticated t) = _ :=
      authenticatedRequest_valid decode t c htruthy hvalid
    rw [hcall, cstep_requestSettles_areqFetch decode t' (getElem?_append_length _ _)]
    simp [authenticatedRequestFetched, authenticatedRequestCatch, JsErr.message,
      includes_authenticationFailed, result, set_append_length, pushProc, transportLog,
      clearTokens]
  · intro t n₂ n₃ n₄ hexp hl hl'
    obtain ⟨hlen, hq1, hq2, hq3, hqlog⟩ :=
      getValidAccessToken_success_chain decode t w status env d hidle hexp hpresent hl hl'
        hok hstatus hdata
    have hclog : ∀ v : World, transportLog (clearTokens v) = transportLog v := fun _ => rfl
    refine ⟨?_, ?_, ?_, ?_, ?_, (hclog _).trans hqlog⟩
    · simp only [crun, List.foldl_cons, List.foldl_nil, cstep]
      exact authenticatedRequest_refreshing decode t w hlen hq1
    · rw [getValidAccessToken_start decode t w hidle hexp hpresent hl hl']
      simp [transportLog]
    · simp only [crun, List.foldl_cons, List.foldl_nil, cstep]
      rw [authenticatedRequest_refreshing decode t w hlen hq1]
      rw [wakeReqs_single]
      simp only [wakeReq, List.getElem?_cons_zero]
      rw [authenticatedRequestResume_pending (c := { w := step decode _ _, .. }) hq2]
    · simp only [crun, List.foldl_cons, List.foldl_nil, cstep]
      rw [authenticatedRequest_refreshing decode t w hlen hq1]
      rw [wakeReqs_single]
      simp only [wakeReq, List.getElem?_cons_zero]
      rw [authenticatedRequestResume_pending (c := { w := step decode _ _, .. }) hq2]
      rw [wakeReqs_single]
      simp only [wakeReq, List.getElem?_cons_zero]
      rw [authenticatedRequestResume_token (c := { w := step decode _ _, .. }) hq3]
      simp [authenticatedRequestSend]
    simp only [crun, List.foldl_cons, List.foldl_nil, cstep]
    rw [authenticatedRequest_refreshing decode t w hlen hq1]
    rw [wakeReqs_single]
    simp only [wakeReq, List.getElem?_cons_zero]
    rw [authenticatedRequestResume_pending (c := { w := step decode _ _, .. }) hq2]
    rw [wakeReqs_single]
    simp only [wakeReq, List.getElem?_cons_zero]
    rw [authenticatedRequestResume_token (c := { w := step decode _ _, .. }) hq3]
    simp [authenticatedRequestSend, authenticatedRequestFetched, authenticatedRequestCatch,
      JsErr.message, includes_authenticationFailed]

theorem C13_axios_refresh_and_retry_once_witness :
    (crun demoDecode (Client.init (demoWorld "exp100" "exp900"))
      [(150, .callAxios), (151, .requestSettles 0 (.response 401)),
       (152, .manager (.fetchSettles 0 (.response 200))),
       (153, .manager (.jsonSettles 0 (.parsed (some (demoEnvelope "exp200" "exp900"))))),
       (154, .requestSettles 0 (.response 200))]).reqs = [.done (.response 200)] ∧
    (crun demoDecode (Client.init (demoWorld "exp100" "exp900"))
      [(150, .callAxios), (151, .requestSettles 0 (.response 401)),
       (152, .manager (.fetchSettles 0 (.response 200))),
       (153, .manager (.jsonSettles 0 (.parsed (some (demoEnvelope "exp200" "exp900"))))),
       (154, .requestSettles 0 (.response 200))]).attempts
      = [{ req := 0, authorization := none },
         { req := 0, authorization := some "Bearer exp200" }] ∧
    (crun demoDecode (Client.init (demoWorld "exp100" "exp900"))
      [(150, .callAuthenticated (Readings.same 150))]).attempts = [] ∧
    transportLog (getValidAccessToken demoDecode (Readings.same 150)
      (demoWorld "exp100" "exp900")) = [.str "exp900"] ∧
    (crun demoDecode (Client.init (demoWorld "exp100" "exp900"))
      [(150, .callAuthenticated (Readings.same 150)),
       (152, .manager (.fetchSettles 0 (.response 200))),
       (153, .manager (.jsonSettles 0 (.parsed (some (demoEnvelope "exp200" "exp900"))))),
       (154, .requestSettles 0 (.response 401))]).attempts
      = [{ req := 0, authorization := some "Bearer exp200" }] :=
  ⟨congrArg Client.reqs
      (C13_axios_refresh_and_retry_once demoDecode 150 151 152 153 154
        (demoWorld "exp100" "exp900") 200 (demoEnvelope "exp200" "exp900")
        { access_token := .str "exp200", refresh_token := .str "exp900" } 200
        rfl rfl rfl rfl rfl rfl rfl).1,
   congrArg Client.attempts
      (C13_axios_refresh_and_retry_once demoDecode 150 151 152 153 154
        (demoWorld "exp100" "exp900") 200 (demoEnvelope "exp200" "exp900")
        { access_token := .str "exp200", refresh_token := .str "exp900" } 200
        rfl rfl rfl rfl rfl rfl rfl).1,
   congrArg Client.attempts
      ((C13_axios_refresh_and_retry_once demoDecode 150 151 152 153 154
        (demoWorld "exp100" "exp900") 200 (demoEnvelope "exp200" "exp900")
        { access_token := .str "exp200", refresh_token := .str "exp900" } 200
        rfl rfl rfl rfl rfl rfl rfl).2.2.2.2 (Readings.same 150) 152 153 154
        (Or.inr rfl) rfl rfl).1,
   ((C13_axios_refresh_and_retry_once demoDecode 150 151 152 153 154
        (demoWorld "exp100" "exp900") 200 (demoEnvelope "exp200" "exp900")
        { access_token := .str "exp200", refresh_token := .str "exp900" } 200
        rfl rfl rfl rfl rfl rfl rfl).2.2.2.2 (Readings.same 150) 152 153 154
        (Or.inr rfl) rfl rfl).2.1,
   congrArg Client.attempts
      ((C13_axios_refresh_and_retry_once demoDecode 150 151 152 153 154
        (demoWorld "exp100" "exp900") 200 (demoEnvelope "exp200" "exp900")
        { access_token := .str "exp200", refresh_token := .str "exp900" } 200
        rfl rfl rfl rfl rfl rfl rfl).2.2.2.2 (Readings.same 150) 152 153 154
        (Or.inr rfl) rfl rfl).2.2.2.2.1⟩

/-! ## Failures of a wrapped request -/

/-- An event that rejects a pending call of `refreshAccessToken()` is the
`catch` block of the `_performRefresh` it waits for. -/
theorem refresh_rejected_is_catch (decode : String → Option JsVal) {w : World} {ev : Event}
    {c p : Nat} {e : JsErr}
    (hc : w.procs[c]? = some (.ratInit p) ∨ w.procs[c]? = some (.ratAttached p))
    (hfail : outcome (step decode w ev) c = some (.rejected e)) :
    step decode w ev = performRefreshCatch w p e := by
  have hlt : c < w.procs.length := by
    rcases hc with h | h <;> exact (List.getElem?_eq_some.mp h).1
  rcases step_cases decode w ev with ⟨⟨extra, hex⟩, _⟩ | ⟨q, e', _, hstep⟩ | ⟨q, d, _, hstep⟩
  · exfalso
    unfold outcome at hfail
    rw [hex, List.getElem?_append_left hlt] at hfail
    rcases hc with h | h <;> rw [h] at hfail <;> simp at hfail
  · have hc' : (clearTokens w).procs[c]? = some (.ratInit p) ∨
        (clearTokens w).procs[c]? = some (.ratAttached p) := hc
    rw [hstep] at hfail ⊢
    unfold performRefreshCatch at hfail
    unfold outcome at hfail
    rw [settlePerform_rat hc' q] at hfail
    by_cases hpq : p = q
    · subst hpq
      simp at hfail
      rw [hfail]
    · exfalso
      rw [if_neg hpq] at hfail
      rcases hc' with h | h <;> rw [h] at hfail <;> simp at hfail
  · exfalso
    have hc' : (setTokens w d.access_token d.refresh_token).procs[c]? = some (.ratInit p) ∨
        (setTokens w d.access_token d.refresh_token).procs[c]? = some (.ratAttached p) := hc
    rw [hstep] at hfail
    unfold outcome at hfail
    rw [settlePerform_rat hc' q] at hfail
    by_cases hpq : p = q
    · simp [hpq] at hfail
    · rw [if_neg hpq] at hfail
      rcases hc' with h | h <;> rw [h] at hfail <;> simp at hfail

theorem refreshAccessToken_unavailable (decode : String → Option JsVal) (now : Int) (w : World)
    (hidle : w.tm.refreshPromise = none)
    (hbad : w.tm.refreshToken.truthy = false ∨ isRefreshTokenExpired decode w.tm now = true) :
    refreshAccessToken decode now w =
      pushProc (clearTokens w)
        (.done (.rejected (.error "Refresh token expired or not available"))) := by
  have hcond : (!w.tm.refreshToken.truthy || isRefreshTokenExpired decode w.tm now) = true := by
    rcases hbad with h | h <;> simp [h]
  unfold refreshAccessToken
  rw [hidle]
  simp only [hcond, if_true]

/-- C14 (as stated, refuted): a request through the axios client whose first
attempt is answered 401, whose refresh succeeds, and whose retried attempt is
answered 401 again rejects with that error, and the credentials are not
cleared: the refreshed pair stays stored. -/
theorem C14_axios_second_401_keeps_credentials :
    result (crun demoDecode (Client.init (demoWorld "exp100" "exp900"))
      [(150, .callAxios), (151, .requestSettles 0 (.response 401)),
       (152, .manager (.fetchSettles 0 (.response 200))),
       (153, .manager (.jsonSettles 0 (.parsed (some (demoEnvelope "exp200" "exp900"))))),
       (154, .requestSettles 0 (.response 401))]) 0 = some (.httpError 401) ∧
    (crun demoDecode (Client.init (demoWorld "exp100" "exp900"))
      [(150, .callAxios), (151, .requestSettles 0 (.response 401)),
       (152, .manager (.fetchSettles 0 (.response 200))),
       (153, .manager (.jsonSettles 0 (.parsed (some (demoEnvelope "exp200" "exp900"))))),
       (154, .requestSettles 0 (.response 401))]).w.tm.accessToken = .str "exp200" ∧
    (crun demoDecode (Client.init (demoWorld "exp100" "exp900"))
      [(150, .callAxios), (151, .requestSettles 0 (.response 401)),
       (152, .manager (.fetchSettles 0 (.response 200))),
       (153, .manager (.jsonSettles 0 (.parsed (some (demoEnvelope "exp200" "exp900"))))),
       (154, .requestSettles 0 (.response 401))]).w.tm.refreshToken = .str "exp900" ∧
    (crun demoDecode (Client.init (demoWorld "exp100" "exp900"))
      [(150, .callAxios), (151, .requestSettles 0 (.response 401)),
       (152, .manager (.fetchSettles 0 (.response 200))),
       (153, .manager (.jsonSettles 0 (.parsed (some (demoEnvelope "exp200" "exp900"))))),
       (154, .requestSettles 0 (.response 401))]).w.storage
      = { access_token := some "exp200", refresh_token := some "exp900" } := by
  decide

/-- C14 (amended): the failure is surfaced to the caller as a rejection in each
case, and the credentials are cleared where the code clears them.
`TokenManager.authenticatedRequest` (present, unexpired access token) answered
401 rejects and both tokens are absent afterwards.  A request through the axios
client whose first attempt is answered 401 and whose refresh fails (the
refresh token is absent or expired, or the transport fails the refresh) rejects
with the refresh error, both tokens are absent afterwards and the page is sent
to `/login`.  When the retried attempt of an axios request is answered 401
again, the request rejects with that error and the manager is left as it is:
the credentials are not cleared. -/
theorem C14_failures_are_surfaced (decode : String → Option JsVal) :
    (∀ (c : Client) (t : Readings) (t' : Int), c.w.tm.accessToken.truthy = true →
      isAccessTokenExpired decode c.w.tm t.access = false →
      result (crun decode c [(t.access, .callAuthenticated t),
        (t', .requestSettles c.reqs.length (.response 401))]) c.reqs.length
        = some (.thrown (.error "Authentication failed. Please login again.")) ∧
      Cleared (crun decode c [(t.access, .callAuthenticated t),
        (t', .requestSettles c.reqs.length (.response 401))]).w) ∧
    (∀ (w : World) (now₀ now₁ : Int), w.tm.refreshPromise = none →
      (w.tm.refreshToken.truthy = false ∨ isRefreshTokenExpired decode w.tm now₁ = true) →
      result (crun decode (Client.init w)
        [(now₀, .callAxios), (now₁, .requestSettles 0 (.response 401))]) 0
        = some (.thrown (.error "Refresh token expired or not available")) ∧
      Cleared (crun decode (Client.init w)
        [(now₀, .callAxios), (now₁, .requestSettles 0 (.response 401))]).w ∧
      (crun decode (Client.init w)
        [(now₀, .callAxios), (now₁, .requestSettles 0 (.response 401))]).location
        = some "/login") ∧
    (∀ (w : World) (now₀ now₁ now₂ : Int) (ev : Event) (e : JsErr),
      w.tm.refreshPromise = none → w.tm.refreshToken.truthy = true →
      isRefreshTokenExpired decode w.tm now₁ = false →
      outcome (step decode (refreshAccessToken decode now₁ w) ev) w.procs.length
        = some (.rejected e) →
      result (crun decode (Client.init w)
        [(now₀, .callAxios), (now₁, .requestSettles 0 (.response 401)),
         (now₂, .manager ev)]) 0 = some (.thrown e) ∧
      Cleared (crun decode (Client.init w)
        [(now₀, .callAxios), (now₁, .requestSettles 0 (.response 401)),
         (now₂, .manager ev)]).w ∧
      (crun decode (Client.init w)
        [(now₀, .callAxios), (now₁, .requestSettles 0 (.response 401)),
         (now₂, .manager ev)]).location = some "/login") ∧
    (∀ (c : Client) (i : Nat) (now : Int), c.reqs[i]? = some .axRetry →
      result (cstep decode now c (.requestSettles i (.response 401))) i
        = some (.httpError 401) ∧
      (cstep decode now c (.requestSettles i (.response 401))).w = c.w) := by
  refine ⟨?_, ?_, ?_, ?_⟩
  · intro c t t' htruthy hvalid
    simp only [crun, List.foldl_cons, List.foldl_nil]
    have hcall : cstep decode t.access c (.callAuthenticated t) = _ :=
      authenticatedRequest_valid decode t c htruthy hvalid
    rw [hcall, cstep_requestSettles_areqFetch decode t' (getElem?_append_length _ _)]
    simp [authenticatedRequestFetched, authenticatedRequestCatch, JsErr.message,
      includes_authenticationFailed, result, set_append_length, pushProc, clearTokens]
  · intro w now₀ now₁ hidle hbad
    rw [axios_first_401, refreshAccessToken_unavailable decode now₁ w hidle hbad]
    rw [interceptorResume_rejected decode now₁
      (c := { w := pushProc (clearTokens w) _, .. })
      (e := .error "Refresh token expired or not available")
      (by simp [outcome, pushProc, clearTokens])]
    simp [interceptorCatch, result, clearTokens, pushProc]
  · intro w now₀ now₁ now₂ ev e hidle hpresent hlive hfail
    have hstart := refreshAccessToken_start decode now₁ w hidle hpresent hlive
    have hpend : outcome (refreshAccessToken decode now₁ w) w.procs.length = none := by
      rw [hstart]
      simp [outcome]
    have hsplit : [(now₀, Action.callAxios), (now₁, .requestSettles 0 (.response 401)),
        (now₂, .manager ev)]
        = [(now₀, Action.callAxios), (now₁, .requestSettles 0 (.response 401))] ++
          [(now₂, .manager ev)] := rfl
    rw [hsplit, crun_append, axios_first_401,
      interceptorResume_pending decode now₁ (c := { w := refreshAccessToken decode now₁ w, .. })
        hpend]
    simp only [crun, List.foldl_cons, List.foldl_nil, cstep]
    rw [wakeReqs_single]
    simp only [wakeReq, List.getElem?_cons_zero]
    rw [interceptorResume_rejected decode now₂ (c := { w := step decode _ _, .. }) hfail]
    simp [interceptorCatch, result, clearTokens]
  · intro c i now hst
    have hlt : i < c.reqs.length := (List.getElem?_eq_some.mp hst).1
    rw [cstep_requestSettles_axRetry decode now hst]
    obtain ⟨_, h2, h3⟩ := axiosSettled_retry decode now hlt (.response 401)
    exact ⟨h3, h2⟩

theorem C14_failures_are_surfaced_witness :
    (result (crun demoDecode (Client.init (demoWorld "exp900" "exp900"))
        [(150, .callAuthenticated (Readings.same 150)), (151, .requestSettles 0 (.response 401))]) 0
        = some (.thrown (.error "Authentication failed. Please login again.")) ∧
      Cleared (crun demoDecode (Client.init (demoWorld "exp900" "exp900"))
        [(150, .callAuthenticated (Readings.same 150)), (151, .requestSettles 0 (.response 401))]).w) ∧
    (result (crun demoDecode (Client.init (demoWorld "exp100" "exp200"))
        [(250, .callAxios), (251, .requestSettles 0 (.response 401))]) 0
        = some (.thrown (.error "Refresh token expired or not available")) ∧
      Cleared (crun demoDecode (Client.init (demoWorld "exp100" "exp200"))
        [(250, .callAxios), (251, .requestSettles 0 (.response 401))]).w ∧
      (crun demoDecode (Client.init (demoWorld "exp100" "exp200"))
        [(250, .callAxios), (251, .requestSettles 0 (.response 401))]).location
        = some "/login") ∧
    (result (crun demoDecode (Client.init (demoWorld "exp100" "exp900"))
        [(150, .callAxios), (151, .requestSettles 0 (.response 401)),
         (152, .manager (.fetchSettles 0 (.networkError (.typeError "Failed to fetch"))))]) 0
        = some (.thrown (.typeError "Failed to fetch")) ∧
      Cleared (crun demoDecode (Client.init (demoWorld "exp100" "exp900"))
        [(150, .callAxios), (151, .requestSettles 0 (.response 401)),
         (152, .manager (.fetchSettles 0 (.networkError (.typeError "Failed to fetch"))))]).w ∧
      (crun demoDecode (Client.init (demoWorld "exp100" "exp900"))
        [(150, .callAxios), (151, .requestSettles 0 (.response 401)),
         (152, .manager (.fetchSettles 0 (.networkError (.typeError "Failed to fetch"))))]).location
        = some "/login") ∧
    (cstep demoDecode 154
      (crun demoDecode (Client.init (demoWorld "exp100" "exp900"))
        [(150, .callAxios), (151, .requestSettles 0 (.response 401)),
         (152, .manager (.fetchSettles 0 (.response 200))),
         (153, .manager (.jsonSettles 0 (.parsed (some (demoEnvelope "exp200" "exp900")))))])
      (.requestSettles 0 (.response 401))).w.tm.accessToken = .str "exp200" :=
  ⟨(C14_failures_are_surfaced demoDecode).1 (Client.init (demoWorld "exp900" "exp900"))
      (Readings.same 150) 151 rfl rfl,
   (C14_failures_are_surfaced demoDecode).2.1 (demoWorld "exp100" "exp200") 250 251 rfl
      (Or.inr rfl),
   (C14_failures_are_surfaced demoDecode).2.2.1 (demoWorld "exp100" "exp900") 150 151 152
      (.fetchSettles 0 (.networkError (.typeError "Failed to fetch")))
      (.typeError "Failed to fetch") rfl rfl rfl rfl,
   by
    rw [((C14_failures_are_surfaced demoDecode).2.2.2
      (crun demoDecode (Client.init (demoWorld "exp100" "exp900"))
        [(150, .callAxios), (151, .requestSettles 0 (.response 401)),
         (152, .manager (.fetchSettles 0 (.response 200))),
         (153, .manager (.jsonSettles 0 (.parsed (some (demoEnvelope "exp200" "exp900")))))])
      0 154 (by decide)).2]
    decide⟩

/-! ## The pair invariant -/

/-- C15 (as stated, refuted): from the empty manager, `setTokens` with a
present access token and a `null` refresh token, and also a `login` answered
with `status: 200` and a `data` that lacks `refresh_token`, leave the manager
with an access token and no refresh token. -/
theorem C15_partial_pair_reachable :
    ((opRun demoDecode emptyWorld
        [.event (.callSetTokens (.str "exp900") .null)]).tm.accessToken.truthy = true ∧
      (opRun demoDecode emptyWorld
        [.event (.callSetTokens (.str "exp900") .null)]).tm.refreshToken.truthy = false) ∧
    ((opRun demoDecode emptyWorld
        [.login (.json (.parsed (some
          { status := .num 200,
            data := some { access_token := .str "exp900", refresh_token := .undefined },
            message := none })))]).tm.accessToken.truthy = true ∧
      (opRun demoDecode emptyWorld
        [.login (.json (.parsed (some
          { status := .num 200,
            data := some { access_token := .str "exp900", refresh_token := .undefined },
            message := none })))]).tm.refreshToken.truthy = false) := by
  decide

theorem paired_settlePerform {w : World} (h : Paired w.tm.accessToken w.tm.refreshToken)
    (p : Nat) (o : Settled) :
    Paired (settlePerform w p o).tm.accessToken (settlePerform w p o).tm.refreshToken := by
  rw [settlePerform_accessToken, settlePerform_refreshToken]
  exact h

theorem paired_performRefreshCatch (w : World) (p : Nat) (e : JsErr) :
    Paired (performRefreshCatch w p e).tm.accessToken
      (performRefreshCatch w p e).tm.refreshToken := by
  obtain ⟨ha, hr, _⟩ := performRefreshCatch_cleared w p e
  rw [ha, hr]

theorem paired_refreshAccessToken (decode : String → Option JsVal) (now : Int) {w : World}
    (h : Paired w.tm.accessToken w.tm.refreshToken) :
    Paired (refreshAccessToken decode now w).tm.accessToken
      (refreshAccessToken decode now w).tm.refreshToken := by
  unfold refreshAccessToken
  split
  · split <;> exact h
  · split
    · rfl
    · exact h

theorem paired_getValidAccessToken (decode : String → Option JsVal) (t : Readings) {w : World}
    (h : Paired w.tm.accessToken w.tm.refreshToken) :
    Paired (getValidAccessToken decode t w).tm.accessToken
      (getValidAccessToken decode t w).tm.refreshToken := by
  have hr := paired_refreshAccessToken decode t.start h
  unfold getValidAccessToken
  split
  · split
    · exact h
    · dsimp only
      split <;> exact hr
  · exact h

theorem paired_opStep (decode : String → Option JsVal) {w : World}
    (h : Paired w.tm.accessToken w.tm.refreshToken) {op : Op} (hop : op.paired = true) :
    Paired (opStep decode w op).tm.accessToken (opStep decode w op).tm.refreshToken := by
  cases op with
  | login r =>
    show Paired (login w r).1.tm.accessToken (login w r).1.tm.refreshToken
    unfold login
    split
    · exact h
    · exact h
    · exact h
    · next data =>
      split
      · split
        · next d hd =>
          have : d.access_token.truthy = d.refresh_token.truthy := by
            simpa [Op.paired, JsonReply.paired, hd] using hop
          exact this
        · exact h
      · exact h
  | event ev =>
    cases ev with
    | callRefresh now => exact paired_refreshAccessToken decode now h
    | callGetValid t => exact paired_getValidAccessToken decode t h
    | callClear => rfl
    | callSetTokens a r =>
      have : a.truthy = r.truthy := by simpa [Op.paired] using hop
      exact this
    | fetchSettles p r =>
      show Paired
        (if phaseOf w p = some .awaitFetch then performRefreshFetched w p r else w).tm.accessToken
        (if phaseOf w p = some .awaitFetch then performRefreshFetched w p r else w).tm.refreshToken
      split
      · unfold performRefreshFetched
        split
        · exact paired_performRefreshCatch _ _ _
        · split
          · exact paired_performRefreshCatch _ _ _
          · exact h
      · exact h
    | jsonSettles p r =>
      show Paired
        (if phaseOf w p = some .awaitJson then performRefreshParsed w p r else w).tm.accessToken
        (if phaseOf w p = some .awaitJson then performRefreshParsed w p r else w).tm.refreshToken
      split
      · unfold performRefreshParsed
        split
        · exact paired_performRefreshCatch _ _ _
        · exact paired_performRefreshCatch _ _ _
        · next data =>
          split
          · split
            · next d hd =>
              have hd' : d.access_token.truthy = d.refresh_token.truthy := by
                simpa [Op.paired, JsonReply.paired, hd] using hop
              exact paired_settlePerform (w := setTokens w d.access_token d.refresh_token)
                hd' _ _
            · exact paired_performRefreshCatch _ _ _
          · exact paired_performRefreshCatch _ _ _
      · exact h

theorem paired_opRun (decode : String → Option JsVal) (ops : List Op) :
    ∀ w : World, Paired w.tm.accessToken w.tm.refreshToken →
      (∀ op ∈ ops, op.paired = true) →
      Paired (opRun decode w ops).tm.accessToken (opRun decode w ops).tm.refreshToken := by
  induction ops with
  | nil => intro w h _; exact h
  | cons op rest ih =>
    intro w h hops
    exact ih _ (paired_opStep decode h (hops op (List.mem_cons_self _ _)))
      (fun op' hmem => hops op' (List.mem_cons_of_mem _ hmem))

/-- C15 (amended): in every state reachable from the empty `TokenManager` by
calls of `setTokens`, `clearTokens`, `refreshAccessToken`,
`getValidAccessToken`, answered logins and answers of the refresh transport, in
which every pair handed to `setTokens` (the arguments of a direct call, the
`data` of a refresh or login envelope with `status: 200`) has both tokens
present or both absent, `accessToken` and `refreshToken` are both present or
both absent.  `AutoRefreshTokenManager.request` keeps the property for every
response: it stores the pair of the server-refresh headers only when both new
tokens are present. -/
theorem C15_pair_invariant (decode : String → Option JsVal) :
    (∀ ops : List Op, (∀ op ∈ ops, op.paired = true) →
      Paired (opRun decode emptyWorld ops).tm.accessToken
        (opRun decode emptyWorld ops).tm.refreshToken) ∧
    (∀ (m : AutoRefreshTokenManager) (h : RefreshHeaders),
      Paired m.accessToken m.refreshToken →
      Paired (m.requestResponded h).accessToken (m.requestResponded h).refreshToken) := by
  constructor
  · intro ops hops
    exact paired_opRun decode ops emptyWorld rfl hops
  · intro m h hm
    unfold AutoRefreshTokenManager.requestResponded
    split
    · split
      · next hboth =>
        simp only [Bool.and_eq_true] at hboth
        show h.newAccessToken.truthy = h.newRefreshToken.truthy
        rw [hboth.1, hboth.2]
      · exact hm
    · exact hm

theorem C15_pair_invariant_witness :
    Paired (opRun demoDecode emptyWorld
        [.login (.json (.parsed (some (demoEnvelope "exp100" "exp900")))),
         .event (.callRefresh 150), .event .callClear,
         .event (.fetchSettles 0 (.response 200)),
         .event (.jsonSettles 0 (.parsed (some (demoEnvelope "exp200" "exp900"))))]).tm.accessToken
      (opRun demoDecode emptyWorld
        [.login (.json (.parsed (some (demoEnvelope "exp100" "exp900")))),
         .event (.callRefresh 150), .event .callClear,
         .event (.fetchSettles 0 (.response 200)),
         .event (.jsonSettles 0 (.parsed (some (demoEnvelope "exp200" "exp900"))))]).tm.refreshToken ∧
    Paired
      (({ accessToken := .str "a", refreshToken := .str "r", isRefreshing := false,
          failedQueue := [], storage := { access_token := some "a", refresh_token := some "r" } }
        : AutoRefreshTokenManager).requestResponded
        { tokenRefreshed := .str "true", newAccessToken := .str "b",
          newRefreshToken := .null }).accessToken
      (({ accessToken := .str "a", refreshToken := .str "r", isRefreshing := false,
          failedQueue := [], storage := { access_token := some "a", refresh_token := some "r" } }
        : AutoRefreshTokenManager).requestResponded
        { tokenRefreshed := .str "true", newAccessToken := .str "b",
          newRefreshToken := .null }).refreshToken :=
  ⟨(C15_pair_invariant demoDecode).1 _ (by decide),
   (C15_pair_invariant demoDecode).2 _ _ (by decide)⟩

/-! ## The waiter queue -/

theorem getElem?_resolveWaiter (ws : List Waiter) (a i : Nat) :
    (resolveWaiter ws a)[i]? =
      if a = i ∧ ws[i]? = some .pending then some .resolved else ws[i]? := by
  unfold resolveWaiter
  by_cases hai : a = i
  · subst hai
    split
    · next hp =>
      have hlt : a < ws.length := (List.getElem?_eq_some.mp hp).1
      simp [hp, List.getElem?_set_self hlt]
    · next hnp =>
      have : ws[a]? ≠ some .pending := fun hp => hnp hp
      simp [this]
  · split
    · simp [hai, List.getElem?_set_ne hai]
    · simp [hai]

theorem getElem?_rejectWaiter (err : JsErr) (ws : List Waiter) (a i : Nat) :
    (rejectWaiter err ws a)[i]? =
      if a = i ∧ ws[i]? = some .pending then some (.rejected err) else ws[i]? := by
  unfold rejectWaiter
  by_cases hai : a = i
  · subst hai
    split
    · next hp =>
      have hlt : a < ws.length := (List.getElem?_eq_some.mp hp).1
      simp [hp, List.getElem?_set_self hlt]
    · next hnp =>
      have : ws[a]? ≠ some .pending := fun hp => hnp hp
      simp [this]
  · split
    · simp [hai, List.getElem?_set_ne hai]
    · simp [hai]

/-- Settling every queued promise with `v`, in queue order: a promise that is
queued and pending ends with `v`, every other promise keeps its state. -/
theorem foldl_settle (f : List Waiter → Nat → List Waiter) (v : Waiter) (hv : v ≠ .pending)
    (hf : ∀ (ws : List Waiter) (a i : Nat),
      (f ws a)[i]? = if a = i ∧ ws[i]? = some Waiter.pending then some v else ws[i]?)
    (q : List Nat) :
    ∀ ws : List Waiter,
      (∀ i ∈ q, ws[i]? = some .pending ∨ ws[i]? = some v → (q.foldl f ws)[i]? = some v) ∧
      (∀ i : Nat, ws[i]? ≠ some Waiter.pending → (q.foldl f ws)[i]? = ws[i]?) ∧
      (∀ i : Nat, i ∉ q → (q.foldl f ws)[i]? = ws[i]?) := by
  induction q with
  | nil =>
    intro ws
    exact ⟨fun i hi => absurd hi (List.not_mem_nil i), fun _ _ => rfl, fun _ _ => rfl⟩
  | cons a rest ih =>
    intro ws
    obtain ⟨ih1, ih2, ih3⟩ := ih (f ws a)
    refine ⟨?_, ?_, ?_⟩
    · intro i hi hstate
      show (rest.foldl f (f ws a))[i]? = some v
      have hnew : (f ws a)[i]? = some .pending ∨ (f ws a)[i]? = some v := by
        rw [hf]
        split
        · exact Or.inr rfl
        · exact hstate
      by_cases hmem : i ∈ rest
      · exact ih1 i hmem hnew
      · have hia : i = a := by
          rcases List.mem_cons.mp hi with h | h
          · exact h
          · exact absurd h hmem
        subst hia
        rw [ih3 i hmem, hf]
        rcases hstate with hp | hd
        · simp [hp]
        · have : ws[i]? ≠ some .pending := by
            rw [hd]
            intro hc
            exact hv (Option.some.inj hc)
          simp [this, hd]
    · intro i hnp
      show (rest.foldl f (f ws a))[i]? = ws[i]?
      have hsame : (f ws a)[i]? = ws[i]? := by
        rw [hf]
        simp [hnp]
      rw [ih2 i (by rw [hsame]; exact hnp), hsame]
    · intro i hni
      show (rest.foldl f (f ws a))[i]? = ws[i]?
      have hne : ¬ (a = i) := fun h => hni (h ▸ List.mem_cons_self _ _)
      have hnr : i ∉ rest := fun h => hni (List.mem_cons_of_mem _ h)
      rw [ih3 i hnr, hf]
      simp [hne]

theorem refreshTokensCatch_queue (h : HookState) (accessToken : Tok) (err : JsErr) :
    (refreshTokensCatch h accessToken err).1.waiters
      = h.failedQueue.foldl (rejectWaiter err) h.waiters ∧
    (refreshTokensCatch h accessToken err).1.failedQueue = [] ∧
    (refreshTokensCatch h accessToken err).1.isRefreshing = false ∧
    (refreshTokensCatch h accessToken err).2 = .error err := by
  unfold refreshTokensCatch logoutStart logoutFinally
  dsimp only
  split <;> exact ⟨rfl, rfl, rfl, rfl⟩

theorem refreshTokensCatch_rejects {h : HookState}
    (hq : ∀ i ∈ h.failedQueue, h.waiters[i]? = some .pending) (accessToken : Tok)
    (err : JsErr) :
    (∀ i ∈ h.failedQueue,
      (refreshTokensCatch h accessToken err).1.waiters[i]? = some (.rejected err)) ∧
    (∀ i : Nat, i ∉ h.failedQueue →
      (refreshTokensCatch h accessToken err).1.waiters[i]? = h.waiters[i]?) ∧
    (refreshTokensCatch h accessToken err).1.failedQueue = [] := by
  obtain ⟨hw, hqe, _, _⟩ := refreshTokensCatch_queue h accessToken err
  obtain ⟨h1, _, h3⟩ := foldl_settle (rejectWaiter err) (.rejected err) (by simp)
    (getElem?_rejectWaiter err) h.failedQueue h.waiters
  rw [hw]
  exact ⟨fun i hi => h1 i hi (Or.inl (hq i hi)), h3, hqe⟩

theorem refreshTokensParsed_cases (h : HookState) (accessToken : Tok) (r : JsonReply) :
    (∃ d : TokenData, refreshTokensParsed h accessToken r =
      ({ h with
          accessToken := d.access_token
          refreshToken := d.refresh_token
          waiters := h.failedQueue.foldl resolveWaiter h.waiters
          failedQueue := []
          isRefreshing := false }, .ok true)) ∨
    (∃ e : JsErr, refreshTokensParsed h accessToken r = refreshTokensCatch h accessToken e) := by
  unfold refreshTokensParsed
  split
  · exact Or.inr ⟨_, rfl⟩
  · exact Or.inr ⟨_, rfl⟩
  · split
    · split
      · next d _ => exact Or.inl ⟨d, rfl⟩
      · exact Or.inr ⟨_, rfl⟩
    · exact Or.inr ⟨_, rfl⟩

theorem refreshTokensFetched_cases (h : HookState) (accessToken : Tok) (r : FetchReply) :
    refreshTokensFetched h accessToken r = (h, none) ∨
    (∃ e : JsErr, refreshTokensFetched h accessToken r =
      ((refreshTokensCatch h accessToken e).1, some (refreshTokensCatch h accessToken e).2)) := by
  unfold refreshTokensFetched
  split
  · exact Or.inr ⟨_, rfl⟩
  · split
    · exact Or.inr ⟨_, rfl⟩
    · exact Or.inl rfl

/-- C18: for every queue of waiters that are pending when the refresh of
`refreshTokens` settles: when the call returns `true` every queued waiter is
resolved, when it throws `err` (at the `fetch` or at the envelope) every queued
waiter is rejected with that same `err`; no queued waiter is skipped or left
pending, and `failedQueue` is empty afterwards.  Every answer of
`response.json()` settles the call one way or the other, and an answer of
`fetch` either fails it or leads on to `response.json()` with the state
unchanged. -/
theorem C18_waiters_share_outcome (h : HookState) (accessToken : Tok)
    (hq : ∀ i ∈ h.failedQueue, h.waiters[i]? = some .pending) :
    (∀ r : JsonReply, (refreshTokensParsed h accessToken r).2 = .ok true →
      (∀ i ∈ h.failedQueue,
        (refreshTokensParsed h accessToken r).1.waiters[i]? = some .resolved) ∧
      (refreshTokensParsed h accessToken r).1.failedQueue = []) ∧
    (∀ (r : JsonReply) (err : JsErr), (refreshTokensParsed h accessToken r).2 = .error err →
      (∀ i ∈ h.failedQueue,
        (refreshTokensParsed h accessToken r).1.waiters[i]? = some (.rejected err)) ∧
      (refreshTokensParsed h accessToken r).1.failedQueue = []) ∧
    (∀ (r : FetchReply) (err : JsErr),
      (refreshTokensFetched h accessToken r).2 = some (.error err) →
      (∀ i ∈ h.failedQueue,
        (refreshTokensFetched h accessToken r).1.waiters[i]? = some (.rejected err)) ∧
      (refreshTokensFetched h accessToken r).1.failedQueue = []) ∧
    (∀ r : JsonReply, (refreshTokensParsed h accessToken r).2 = .ok true ∨
      ∃ err, (refreshTokensParsed h accessToken r).2 = .error err) ∧
    (∀ r : FetchReply, refreshTokensFetched h accessToken r = (h, none) ∨
      ∃ err, (refreshTokensFetched h accessToken r).2 = some (.error err)) := by
  refine ⟨?_, ?_, ?_, ?_, ?_⟩
  · intro r hok
    rcases refreshTokensParsed_cases h accessToken r with ⟨d, hd⟩ | ⟨e, he⟩
    · rw [hd]
      obtain ⟨h1, _, _⟩ := foldl_settle resolveWaiter .resolved (by simp)
        getElem?_resolveWaiter h.failedQueue h.waiters
      exact ⟨fun i hi => h1 i hi (Or.inl (hq i hi)), rfl⟩
    · rw [he, (refreshTokensCatch_queue h accessToken e).2.2.2] at hok
      cases hok
  · intro r err herr
    rcases refreshTokensParsed_cases h accessToken r with ⟨d, hd⟩ | ⟨e, he⟩
    · rw [hd] at herr
      cases herr
    · rw [he] at herr ⊢
      rw [(refreshTokensCatch_queue h accessToken e).2.2.2] at herr
      cases herr
      obtain ⟨h1, _, h3⟩ := refreshTokensCatch_rejects hq accessToken err
      exact ⟨h1, h3⟩
  · intro r err herr
    rcases refreshTokensFetched_cases h accessToken r with hnone | ⟨e, he⟩
    · rw [hnone] at herr
      cases herr
    · rw [he] at herr ⊢
      simp only [(refreshTokensCatch_queue h accessToken e).2.2.2] at herr
      cases herr
      obtain ⟨h1, _, h3⟩ := refreshTokensCatch_rejects hq accessToken err
      exact ⟨h1, h3⟩
  · intro r
    rcases refreshTokensParsed_cases h accessToken r with ⟨d, hd⟩ | ⟨e, he⟩
    · exact Or.inl (by rw [hd])
    · exact Or.inr ⟨e, by rw [he]; exact (refreshTokensCatch_queue h accessToken e).2.2.2⟩
  · intro r
    rcases refreshTokensFetched_cases h accessToken r with hnone | ⟨e, he⟩
    · exact Or.inl hnone
    · exact Or.inr ⟨e, by rw [he]; simp only [(refreshTokensCatch_queue h accessToken e).2.2.2]⟩

theorem C18_waiters_share_outcome_witness :
    (∀ i ∈ [0, 1],
      (refreshTokensParsed
        (enqueueWaiter (enqueueWaiter
          (refreshTokensStart { emptyHook with refreshToken := .str "exp900" }
            (.str "exp900")).1))
        .null (.parsed (some (demoEnvelope "exp200" "exp900")))).1.waiters[i]?
        = some .resolved) ∧
    (∀ i ∈ [0, 1],
      (refreshTokensFetched
        (enqueueWaiter (enqueueWaiter
          (refreshTokensStart { emptyHook with refreshToken := .str "exp900" }
            (.str "exp900")).1))
        .null (.networkError (.typeError "Failed to fetch"))).1.waiters[i]?
        = some (.rejected (.typeError "Failed to fetch"))) :=
  ⟨((C18_waiters_share_outcome
      (enqueueWaiter (enqueueWaiter
        (refreshTokensStart { emptyHook with refreshToken := .str "exp900" }
          (.str "exp900")).1))
      .null (by decide)).1 (.parsed (some (demoEnvelope "exp200" "exp900"))) rfl).1,
   ((C18_waiters_share_outcome
      (enqueueWaiter (enqueueWaiter
        (refreshTokensStart { emptyHook with refreshToken := .str "exp900" }
          (.str "exp900")).1))
      .null (by decide)).2.2.1 (.networkError (.typeError "Failed to fetch"))
      (.typeError "Failed to fetch") rfl).1⟩

end Digifor
